import Mathlib

/-!
# PMSM speed control solver: embedding and verified properties

Shallow embedding of `pmsm_speed_control_solver.c` / `.h`.

* The C `float` type is embedded as an arbitrary linearly ordered field `α`
  (exact arithmetic, no rounding, no NaN/infinity); the program text is
  generic in `α` and therefore executable, e.g. over `ℚ`.
* The functions of `<math.h>` that the program calls (`sqrtf`, `asinf`,
  `sinf`, `cosf`, `atan2f`) are not part of the repository; they are a
  parameter `M : MathFns α` of the embedding.  Properties that hold for any
  field and math library are stated generically; those that need the
  meaning of `sqrt`, `asin`, `sin`, `cos` are stated for `α := ℝ` and
  `M := realMath`, the exact real functions.  Division is the field
  division, total with `x / 0 = 0`, where the C program yields an infinity
  or a NaN, and `Real.sqrt` is `0` on a negative argument, where `sqrtf`
  yields a NaN: embedding and program agree on the runs on which no divisor
  is zero and no argument of `sqrtf` is negative.  For the flux-weakening
  loop this domain is the predicate `PSCS_fw_defined`.
* The `float` literals `1e-2f`, `1e-1f`, `0.5f` are the rationals
  `1/100`, `1/10`, `1/2`.
* Structures written through a pointer are passed in and returned
  (state passing).  `condition` is only ever read by `PSCS_Calculate`.
* The two `do { } while` loops are recursive functions whose termination
  measure is the distance of `iter` to the iteration cap.
-/

namespace PSCS

/-- The functions of the C math library used by the solver. -/
structure MathFns (α : Type) where
  sqrtf : α → α
  asinf : α → α
  sinf : α → α
  cosf : α → α
  atan2f : α → α → α

/-- Solution record `PSCS_PMSM_Solutions_t`. -/
@[ext]
structure PSCS_PMSM_Solutions_t (α : Type) where
  id_ref : α
  iq_ref : α
  Ia_ref : α
  beta_ref : α
  vd_calc : α
  vq_calc : α
  Va_calc : α
  FW_flag : Int

/-- Motor parameter record `PSCS_PMSM_Params_t`. -/
structure PSCS_PMSM_Params_t (α : Type) where
  Rs : α
  Ld : α
  Lq : α
  Psi_a : α
  Poles : α

/-- Solver condition record `PSCS_Condition_t`; the pointer `pmsm` is
embedded as the record it points to. -/
structure PSCS_Condition_t (α : Type) where
  pmsm : PSCS_PMSM_Params_t α
  Va_lim : α
  Ia_lim : α
  Kc_mtpa : α

section Program

variable {α : Type} [LinearOrderedField α]

/-- Macro `#define PSCS_MTPA_MAX_ITERATION (10)` -/
def PSCS_MTPA_MAX_ITERATION : Nat := 10

/-- Macro `#define PSCS_MTPA_CONVERGENCE_THRESHOLD (1e-2f)` -/
def PSCS_MTPA_CONVERGENCE_THRESHOLD : α := 1 / 100

/-- Macro `#define PSCS_MTPA_ID0_TORQUE_RATIO_THRESHOLD (1e-2f)` -/
def PSCS_MTPA_ID0_TORQUE_RATIO_THRESHOLD : α := 1 / 100

/-- Macro `#define PSCS_MTPA_ID0_I_THRESHOLD (1e-1f)` -/
def PSCS_MTPA_ID0_I_THRESHOLD : α := 1 / 10

/-- Macro `#define PSCS_FW_MAX_ITERATION (20)` -/
def PSCS_FW_MAX_ITERATION : Nat := 20

/-- Macro `#define PSCS_FW_CONVERGENCE_THRESHOLD (1e-2f)` -/
def PSCS_FW_CONVERGENCE_THRESHOLD : α := 1 / 100

/-- Macro `#define PSCS_SIGN(x) ((x) >= 0.0f ? 1.0f : -1.0f)` -/
def PSCS_SIGN (x : α) : α := if x ≥ 0 then 1 else -1

/-- Macro `#define PSCS_ABS(x) ((x) > 0.0f ? (x) : -(x))` -/
def PSCS_ABS (x : α) : α := if x > 0 then x else -x

/-- Function `PSCS_Init`: binds the motor parameters, stores the absolute values of
the limits and resets `Kc_mtpa`. -/
def PSCS_Init (condition : PSCS_Condition_t α) (motor_params : PSCS_PMSM_Params_t α)
    (Va_lim Ia_lim : α) : PSCS_Condition_t α :=
  let condition := { condition with pmsm := motor_params }
  let condition := { condition with Va_lim := PSCS_ABS Va_lim }
  let condition := { condition with Ia_lim := PSCS_ABS Ia_lim }
  let condition := { condition with Kc_mtpa := 1 }
  condition

/-- Function `PSCS_PMSM_Params_Init`: plain field assignment. -/
def PSCS_PMSM_Params_Init (params : PSCS_PMSM_Params_t α) (Rs Ld Lq Psi_a Poles : α) :
    PSCS_PMSM_Params_t α :=
  let params := { params with Rs := Rs }
  let params := { params with Ld := Ld }
  let params := { params with Lq := Lq }
  let params := { params with Psi_a := Psi_a }
  let params := { params with Poles := Poles }
  params

/-- The condition of the `if` on line 40 of `PSCS_Calculate` (mode selection),
read after `solution->Ia_ref` has been assigned the step-1 estimate. -/
def PSCS_mode_test (condition : PSCS_Condition_t α) (solution : PSCS_PMSM_Solutions_t α) : Prop :=
  PSCS_ABS solution.Ia_ref > PSCS_MTPA_ID0_I_THRESHOLD ∧
    (1 / 2) * PSCS_ABS (condition.pmsm.Lq - condition.pmsm.Ld) * solution.Ia_ref
      / condition.pmsm.Psi_a > PSCS_MTPA_ID0_TORQUE_RATIO_THRESHOLD

instance (condition : PSCS_Condition_t α) (solution : PSCS_PMSM_Solutions_t α) :
    Decidable (PSCS_mode_test condition solution) := by
  unfold PSCS_mode_test
  infer_instance

/-- The continuation condition of the MTPA `do { } while` (line 52). -/
def PSCS_mtpa_continue (torque_ref torque_calc : α) (iter : Nat) : Prop :=
  iter < PSCS_MTPA_MAX_ITERATION ∧
    PSCS_ABS ((torque_calc - torque_ref) / torque_ref) > PSCS_MTPA_CONVERGENCE_THRESHOLD

instance (torque_ref torque_calc : α) (iter : Nat) :
    Decidable (PSCS_mtpa_continue torque_ref torque_calc iter) := by
  unfold PSCS_mtpa_continue
  infer_instance

/-- The body of the MTPA `do { } while` loop without the counter
(lines 44-48): the new `beta_ref`, the torque it gives and the rescaled
`Ia_ref`.  Returns the solution record and the local `torque_calc`. -/
def PSCS_mtpa_body (M : MathFns α) (condition : PSCS_Condition_t α) (torque_ref : α)
    (solution : PSCS_PMSM_Solutions_t α) : PSCS_PMSM_Solutions_t α × α :=
  let solution1 := { solution with
    beta_ref := M.asinf ((-condition.pmsm.Psi_a
      + M.sqrtf (condition.pmsm.Psi_a * condition.pmsm.Psi_a
          + 8 * (condition.pmsm.Lq - condition.pmsm.Ld) * (condition.pmsm.Lq - condition.pmsm.Ld)
            * solution.Ia_ref * solution.Ia_ref))
      / (4 * (condition.pmsm.Lq - condition.pmsm.Ld) * solution.Ia_ref)) }
  let torque_calc := (1 / 2) * condition.pmsm.Poles
    * (condition.pmsm.Psi_a * solution1.Ia_ref * M.cosf solution1.beta_ref
        + (1 / 2) * (condition.pmsm.Lq - condition.pmsm.Ld) * solution1.Ia_ref * solution1.Ia_ref
          * M.sinf (2 * solution1.beta_ref))
  let solution2 := { solution1 with Ia_ref := solution1.Ia_ref * (torque_ref / torque_calc) }
  (solution2, torque_calc)

/-- The MTPA `do { } while` loop (lines 42-52).  Returns the solution record,
the local `torque_calc` and the iteration counter at loop exit. -/
def PSCS_mtpa_loop (M : MathFns α) (condition : PSCS_Condition_t α) (torque_ref : α)
    (solution : PSCS_PMSM_Solutions_t α) (iter : Nat) :
    PSCS_PMSM_Solutions_t α × α × Nat :=
  let b := PSCS_mtpa_body M condition torque_ref solution
  let iter1 := iter + 1
  if h : PSCS_mtpa_continue torque_ref b.2 iter1 then
    PSCS_mtpa_loop M condition torque_ref b.1 iter1
  else
    (b.1, b.2, iter1)
termination_by PSCS_MTPA_MAX_ITERATION - iter
decreasing_by
  have h1 := h.1
  omega

/-- The steady-state voltage back-calculation with both current components
(lines 57-59 and 116-118). -/
def PSCS_voltage (M : MathFns α) (condition : PSCS_Condition_t α) (w_ref : α)
    (solution : PSCS_PMSM_Solutions_t α) : PSCS_PMSM_Solutions_t α :=
  let solution := { solution with
    vd_calc := condition.pmsm.Rs * solution.id_ref - w_ref * condition.pmsm.Lq * solution.iq_ref }
  let solution := { solution with
    vq_calc := condition.pmsm.Rs * solution.iq_ref + w_ref * condition.pmsm.Ld * solution.id_ref
      + w_ref * condition.pmsm.Psi_a }
  let solution := { solution with
    Va_calc := M.sqrtf (solution.vd_calc * solution.vd_calc + solution.vq_calc * solution.vq_calc) }
  solution

/-- The MTPA branch of `PSCS_Calculate` (lines 42-61): loop, currents,
voltages, error code. -/
def PSCS_mtpa_branch (M : MathFns α) (condition : PSCS_Condition_t α) (torque_ref w_ref : α)
    (solution : PSCS_PMSM_Solutions_t α) (iter : Nat) : PSCS_PMSM_Solutions_t α × Int :=
  let r := PSCS_mtpa_loop M condition torque_ref solution iter
  let solution := r.1
  let iter := r.2.2
  let solution := { solution with id_ref := -solution.Ia_ref * M.sinf solution.beta_ref }
  let solution := { solution with iq_ref := solution.Ia_ref * M.cosf solution.beta_ref }
  let solution := PSCS_voltage M condition w_ref solution
  let errcode : Int := -(if iter = PSCS_MTPA_MAX_ITERATION then 1 else 0)
  (solution, errcode)

/-- The `id = 0` branch of `PSCS_Calculate` (lines 65-74). -/
def PSCS_id0_branch (M : MathFns α) (condition : PSCS_Condition_t α) (torque_ref w_ref : α)
    (solution : PSCS_PMSM_Solutions_t α) : PSCS_PMSM_Solutions_t α × Int :=
  let iq := torque_ref / condition.pmsm.Psi_a / condition.pmsm.Poles * 2
  let solution := { solution with iq_ref := iq }
  let solution := { solution with Ia_ref := iq }
  let solution := { solution with id_ref := 0 }
  let solution := { solution with beta_ref := 0 }
  let solution := { solution with vd_calc := -w_ref * condition.pmsm.Lq * solution.iq_ref }
  let solution := { solution with
    vq_calc := condition.pmsm.Rs * solution.iq_ref + w_ref * condition.pmsm.Psi_a }
  let solution := { solution with
    Va_calc := M.sqrtf (solution.vd_calc * solution.vd_calc + solution.vq_calc * solution.vq_calc) }
  (solution, 0)

/-- The new `id_ref` of one flux-weakening iteration (lines 89-96): the
regime test selects the quadratic formula or the linear formula. -/
def PSCS_fw_id (M : MathFns α) (condition : PSCS_Condition_t α) (w_ref iq_ref : α) : α :=
  let Rs := condition.pmsm.Rs
  let Ld := condition.pmsm.Ld
  let Lq := condition.pmsm.Lq
  let Psi_a := condition.pmsm.Psi_a
  let Va_lim := condition.Va_lim
  if Va_lim > (Ld * Lq * w_ref * w_ref * iq_ref + Rs * Rs * iq_ref + Rs * Psi_a * w_ref)
      * M.sqrtf (1 / (Ld * Ld * w_ref * w_ref + Rs * Rs))
  then
    ((-w_ref) * (Ld * Rs * iq_ref + Ld * Psi_a * w_ref - Lq * Rs * iq_ref)
      + M.sqrtf ((-Ld) * Ld * Lq * Lq * w_ref * w_ref * w_ref * w_ref * iq_ref * iq_ref
          + Ld * Ld * Va_lim * Va_lim * w_ref * w_ref
          - 2 * Ld * Lq * Rs * Rs * w_ref * w_ref * iq_ref * iq_ref
          - 2 * Ld * Lq * Rs * Psi_a * w_ref * w_ref * w_ref * iq_ref
          - Rs * Rs * Rs * Rs * iq_ref * iq_ref
          - 2 * Rs * Rs * Rs * Psi_a * w_ref * iq_ref
          + Rs * Rs * Va_lim * Va_lim
          - Rs * Rs * Psi_a * Psi_a * w_ref * w_ref))
      / (Ld * Ld * w_ref * w_ref + Rs * Rs)
  else
    (-w_ref) * (Ld * Rs * iq_ref + w_ref * Ld * Psi_a - Lq * Rs * iq_ref)
      / (w_ref * w_ref * Ld * Ld + Rs * Rs)

/-- The current-limit clamp of one flux-weakening iteration (lines 103-106). -/
def PSCS_fw_clamp (M : MathFns α) (condition : PSCS_Condition_t α) (torque_ref : α)
    (solution : PSCS_PMSM_Solutions_t α) : PSCS_PMSM_Solutions_t α :=
  if M.sqrtf (solution.id_ref * solution.id_ref + solution.iq_ref * solution.iq_ref)
      > condition.Ia_lim
  then
    { solution with
      iq_ref :=
        if condition.Ia_lim * condition.Ia_lim > solution.id_ref * solution.id_ref
        then PSCS_SIGN torque_ref
          * M.sqrtf (condition.Ia_lim * condition.Ia_lim - solution.id_ref * solution.id_ref)
        else 0 }
  else solution

/-- The continuation condition of the flux-weakening `do { } while` (line 110).
With `id_ref = 0` the quotient is `0` here and the loop stops, where the C
program divides by zero (an infinity, which continues the loop, or a NaN);
`PSCS_fw_step_defined` excludes `id_ref = 0`. -/
def PSCS_fw_continue (id_ref id_ref_pre : α) (iter : Nat) : Prop :=
  iter < PSCS_FW_MAX_ITERATION ∧
    PSCS_ABS ((id_ref - id_ref_pre) / id_ref) > PSCS_FW_CONVERGENCE_THRESHOLD

instance (id_ref id_ref_pre : α) (iter : Nat) :
    Decidable (PSCS_fw_continue id_ref id_ref_pre iter) := by
  unfold PSCS_fw_continue
  infer_instance

/-- The body of the flux-weakening `do { } while` loop without the counter
(lines 89-106): new `id_ref`, `iq_ref` from the torque equation, clamp. -/
def PSCS_fw_body (M : MathFns α) (condition : PSCS_Condition_t α) (torque_ref w_ref : α)
    (solution : PSCS_PMSM_Solutions_t α) : PSCS_PMSM_Solutions_t α :=
  let solution1 := { solution with id_ref := PSCS_fw_id M condition w_ref solution.iq_ref }
  let solution2 := { solution1 with
    iq_ref := 2 * torque_ref / condition.pmsm.Poles
      / (condition.pmsm.Psi_a + (condition.pmsm.Ld - condition.pmsm.Lq) * solution1.id_ref) }
  PSCS_fw_clamp M condition torque_ref solution2

/-- The flux-weakening `do { } while` loop (lines 85-110).  Returns the
solution record and the iteration counter at loop exit. -/
def PSCS_fw_loop (M : MathFns α) (condition : PSCS_Condition_t α) (torque_ref w_ref : α)
    (solution : PSCS_PMSM_Solutions_t α) (iter : Nat) : PSCS_PMSM_Solutions_t α × Nat :=
  let id_ref_pre := solution.id_ref
  let solution3 := PSCS_fw_body M condition torque_ref w_ref solution
  let iter1 := iter + 1
  if h : PSCS_fw_continue solution3.id_ref id_ref_pre iter1 then
    PSCS_fw_loop M condition torque_ref w_ref solution3 iter1
  else
    (solution3, iter1)
termination_by PSCS_FW_MAX_ITERATION - iter
decreasing_by
  have h1 := h.1
  omega

/-- The flux-weakening block of `PSCS_Calculate` (lines 81-120). -/
def PSCS_fw_block (M : MathFns α) (condition : PSCS_Condition_t α) (torque_ref w_ref : α)
    (solution : PSCS_PMSM_Solutions_t α) : PSCS_PMSM_Solutions_t α × Int :=
  let solution := { solution with iq_ref := torque_ref / condition.pmsm.Poles * 2 }
  let r := PSCS_fw_loop M condition torque_ref w_ref solution 0
  let solution := r.1
  let iter := r.2
  let solution := { solution with
    Ia_ref := M.sqrtf (solution.id_ref * solution.id_ref + solution.iq_ref * solution.iq_ref) }
  let solution := { solution with beta_ref := M.atan2f solution.iq_ref (-solution.id_ref) }
  let solution := PSCS_voltage M condition w_ref solution
  let errcode : Int := -(if iter = PSCS_FW_MAX_ITERATION then 1 else 0)
  (solution, errcode)

/-- The step-1 estimate and reset of `beta_ref` (lines 37-38). -/
def PSCS_estimate (condition : PSCS_Condition_t α) (torque_ref : α)
    (solution : PSCS_PMSM_Solutions_t α) : PSCS_PMSM_Solutions_t α :=
  let solution := { solution with
    Ia_ref := condition.Kc_mtpa * torque_ref / condition.pmsm.Psi_a / condition.pmsm.Poles * 2 }
  let solution := { solution with beta_ref := 0 }
  solution

/-- The solver up to and including the assignment of `FW_flag` (lines 34-77):
estimate, mode selection, chosen branch, voltage test. -/
def PSCS_select (M : MathFns α) (condition : PSCS_Condition_t α) (torque_ref w_ref : α)
    (solution : PSCS_PMSM_Solutions_t α) : PSCS_PMSM_Solutions_t α × Int :=
  let solution := PSCS_estimate condition torque_ref solution
  let r :=
    if PSCS_mode_test condition solution then
      PSCS_mtpa_branch M condition torque_ref w_ref solution 0
    else
      PSCS_id0_branch M condition torque_ref w_ref solution
  let solution := r.1
  let errcode := r.2
  let solution := { solution with
    FW_flag := if solution.Va_calc > condition.Va_lim then 1 else 0 }
  (solution, errcode)

/-- Function `PSCS_Calculate` (lines 32-126): returns the overwritten solution
record and the error code. -/
def PSCS_Calculate (M : MathFns α) (condition : PSCS_Condition_t α)
    (solution : PSCS_PMSM_Solutions_t α) (torque_ref w_ref : α) :
    PSCS_PMSM_Solutions_t α × Int :=
  let r := PSCS_select M condition torque_ref w_ref solution
  let solution := r.1
  let errcode := r.2
  if solution.FW_flag ≠ 0 then
    PSCS_fw_block M condition torque_ref w_ref solution
  else
    (solution, errcode)

/-- The solution record after `k` executions of the MTPA loop body. -/
def PSCS_mtpa_state (M : MathFns α) (condition : PSCS_Condition_t α) (torque_ref : α)
    (solution : PSCS_PMSM_Solutions_t α) : Nat → PSCS_PMSM_Solutions_t α
  | 0 => solution
  | k + 1 => (PSCS_mtpa_body M condition torque_ref
      (PSCS_mtpa_state M condition torque_ref solution k)).1

/-- The local `torque_calc` evaluated by execution `k + 1` of the MTPA loop body. -/
def PSCS_mtpa_torque (M : MathFns α) (condition : PSCS_Condition_t α) (torque_ref : α)
    (solution : PSCS_PMSM_Solutions_t α) (k : Nat) : α :=
  (PSCS_mtpa_body M condition torque_ref (PSCS_mtpa_state M condition torque_ref solution k)).2

/-- The convergence measure tested after execution `k + 1` of the MTPA loop
body: `PSCS_ABS((torque_calc - torque_ref)/torque_ref)`. -/
def PSCS_mtpa_measure (M : MathFns α) (condition : PSCS_Condition_t α) (torque_ref : α)
    (solution : PSCS_PMSM_Solutions_t α) (k : Nat) : α :=
  PSCS_ABS ((PSCS_mtpa_torque M condition torque_ref solution k - torque_ref) / torque_ref)

/-- The solution record after `k` executions of the flux-weakening loop body. -/
def PSCS_fw_state (M : MathFns α) (condition : PSCS_Condition_t α) (torque_ref w_ref : α)
    (solution : PSCS_PMSM_Solutions_t α) : Nat → PSCS_PMSM_Solutions_t α
  | 0 => solution
  | k + 1 => PSCS_fw_body M condition torque_ref w_ref
      (PSCS_fw_state M condition torque_ref w_ref solution k)

/-- The convergence measure tested after execution `k + 1` of the
flux-weakening loop body: `PSCS_ABS((id_ref - id_ref_pre)/id_ref)`. -/
def PSCS_fw_measure (M : MathFns α) (condition : PSCS_Condition_t α) (torque_ref w_ref : α)
    (solution : PSCS_PMSM_Solutions_t α) (k : Nat) : α :=
  PSCS_ABS (((PSCS_fw_state M condition torque_ref w_ref solution (k + 1)).id_ref
      - (PSCS_fw_state M condition torque_ref w_ref solution k).id_ref)
    / (PSCS_fw_state M condition torque_ref w_ref solution (k + 1)).id_ref)

/-- The regime test of one flux-weakening iteration (line 89): the condition
of the `if` that selects the quadratic formula. -/
def PSCS_fw_regime_test (M : MathFns α) (condition : PSCS_Condition_t α)
    (w_ref iq_ref : α) : Prop :=
  let Rs := condition.pmsm.Rs
  let Ld := condition.pmsm.Ld
  let Lq := condition.pmsm.Lq
  let Psi_a := condition.pmsm.Psi_a
  let Va_lim := condition.Va_lim
  Va_lim > (Ld * Lq * w_ref * w_ref * iq_ref + Rs * Rs * iq_ref + Rs * Psi_a * w_ref)
    * M.sqrtf (1 / (Ld * Ld * w_ref * w_ref + Rs * Rs))

instance (M : MathFns α) (condition : PSCS_Condition_t α) (w_ref iq_ref : α) :
    Decidable (PSCS_fw_regime_test M condition w_ref iq_ref) := by
  unfold PSCS_fw_regime_test
  infer_instance

/-- The argument of `sqrtf` in the quadratic formula of one flux-weakening
iteration (lines 91-93). -/
def PSCS_fw_radicand (condition : PSCS_Condition_t α) (w_ref iq_ref : α) : α :=
  let Rs := condition.pmsm.Rs
  let Ld := condition.pmsm.Ld
  let Lq := condition.pmsm.Lq
  let Psi_a := condition.pmsm.Psi_a
  let Va_lim := condition.Va_lim
  (-Ld) * Ld * Lq * Lq * w_ref * w_ref * w_ref * w_ref * iq_ref * iq_ref
    + Ld * Ld * Va_lim * Va_lim * w_ref * w_ref
    - 2 * Ld * Lq * Rs * Rs * w_ref * w_ref * iq_ref * iq_ref
    - 2 * Ld * Lq * Rs * Psi_a * w_ref * w_ref * w_ref * iq_ref
    - Rs * Rs * Rs * Rs * iq_ref * iq_ref
    - 2 * Rs * Rs * Rs * Psi_a * w_ref * iq_ref
    + Rs * Rs * Va_lim * Va_lim
    - Rs * Rs * Psi_a * Psi_a * w_ref * w_ref

/-- The argument passed to `asinf` by one MTPA iteration (line 44). -/
def PSCS_mtpa_asin_arg (M : MathFns α) (condition : PSCS_Condition_t α)
    (solution : PSCS_PMSM_Solutions_t α) : α :=
  (-condition.pmsm.Psi_a
    + M.sqrtf (condition.pmsm.Psi_a * condition.pmsm.Psi_a
        + 8 * (condition.pmsm.Lq - condition.pmsm.Ld) * (condition.pmsm.Lq - condition.pmsm.Ld)
          * solution.Ia_ref * solution.Ia_ref))
  / (4 * (condition.pmsm.Lq - condition.pmsm.Ld) * solution.Ia_ref)

/-- The domain condition of one flux-weakening iteration (lines 89-110)
entered with `solution`: the divisors `Poles`, `Ld^2*w_ref^2 + Rs^2`,
`Psi_a + (Ld - Lq)*id_ref` and, in the convergence test, the new `id_ref` are
non-zero, and when the regime test selects the quadratic formula the argument
of its `sqrtf` is non-negative.  The other arguments of `sqrtf` in the
iteration are sums of squares or guarded by the test of line 105. -/
def PSCS_fw_step_defined (M : MathFns α) (condition : PSCS_Condition_t α) (w_ref : α)
    (solution : PSCS_PMSM_Solutions_t α) : Prop :=
  condition.pmsm.Poles ≠ 0 ∧
    condition.pmsm.Ld * condition.pmsm.Ld * w_ref * w_ref
      + condition.pmsm.Rs * condition.pmsm.Rs ≠ 0 ∧
    (PSCS_fw_regime_test M condition w_ref solution.iq_ref →
      0 ≤ PSCS_fw_radicand condition w_ref solution.iq_ref) ∧
    condition.pmsm.Psi_a + (condition.pmsm.Ld - condition.pmsm.Lq)
      * PSCS_fw_id M condition w_ref solution.iq_ref ≠ 0 ∧
    PSCS_fw_id M condition w_ref solution.iq_ref ≠ 0

instance (M : MathFns α) (condition : PSCS_Condition_t α) (w_ref : α)
    (solution : PSCS_PMSM_Solutions_t α) :
    Decidable (PSCS_fw_step_defined M condition w_ref solution) := by
  unfold PSCS_fw_step_defined
  infer_instance

/-- The domain condition of the flux-weakening block (lines 81-110) run on
the record `solution` of the selection stage: every iteration the loop
executes satisfies `PSCS_fw_step_defined`.  On such a run no operation of the
C program yields a NaN or an infinity, and the embedding computes what the
program computes in exact arithmetic. -/
def PSCS_fw_defined (M : MathFns α) (condition : PSCS_Condition_t α) (torque_ref w_ref : α)
    (solution : PSCS_PMSM_Solutions_t α) : Prop :=
  ∀ k : Nat,
    k < (PSCS_fw_loop M condition torque_ref w_ref
          { solution with iq_ref := torque_ref / condition.pmsm.Poles * 2 } 0).2 →
      PSCS_fw_step_defined M condition w_ref
        (PSCS_fw_state M condition torque_ref w_ref
          { solution with iq_ref := torque_ref / condition.pmsm.Poles * 2 } k)

instance (M : MathFns α) (condition : PSCS_Condition_t α) (torque_ref w_ref : α)
    (solution : PSCS_PMSM_Solutions_t α) :
    Decidable (PSCS_fw_defined M condition torque_ref w_ref solution) := by
  unfold PSCS_fw_defined
  infer_instance

end Program

/-- The exact real functions standing for `sqrtf`, `asinf`, `sinf`, `cosf`
and `atan2f` (the angle of the point `(x, y)`, in `(-π, π]`).  They agree
with the C functions on the domain of the latter only: `Real.sqrt` is `0` on
a negative argument and `Real.arcsin` is clamped outside `[-1, 1]`, where
`sqrtf` and `asinf` return a NaN.  The solver can pass a negative argument to
`sqrtf` in the quadratic formula of the flux-weakening loop
(`PSCS_fw_radicand`); `PSCS_fw_defined` excludes such runs. -/
noncomputable def realMath : MathFns ℝ where
  sqrtf := Real.sqrt
  asinf := Real.arcsin
  sinf := Real.sin
  cosf := Real.cos
  atan2f := fun y x => Complex.arg ⟨x, y⟩

/-- A solution buffer filled with zeros. -/
def zeroSolution (α : Type) [LinearOrderedField α] : PSCS_PMSM_Solutions_t α :=
  { id_ref := 0, iq_ref := 0, Ia_ref := 0, beta_ref := 0,
    vd_calc := 0, vq_calc := 0, Va_calc := 0, FW_flag := 0 }

/-- The salient motor of the test scenarios: `Rs = 0.5`, `Ld = 0.001`,
`Lq = 0.002`, `Psi_a = 0.05`, `Poles = 4`. -/
def salientMotor (α : Type) [LinearOrderedField α] : PSCS_PMSM_Params_t α :=
  { Rs := 1 / 2, Ld := 1 / 1000, Lq := 2 / 1000, Psi_a := 1 / 20, Poles := 4 }

/-- A non-salient motor: as `salientMotor` with `Lq = Ld = 0.001`. -/
def roundMotor (α : Type) [LinearOrderedField α] : PSCS_PMSM_Params_t α :=
  { Rs := 1 / 2, Ld := 1 / 1000, Lq := 1 / 1000, Psi_a := 1 / 20, Poles := 4 }

/-- The condition `PSCS_Init` produces for `salientMotor` with
`Va_lim = 24`, `Ia_lim = 10`. -/
def salientCondition (α : Type) [LinearOrderedField α] : PSCS_Condition_t α :=
  { pmsm := salientMotor α, Va_lim := 24, Ia_lim := 10, Kc_mtpa := 1 }

/-- The condition `PSCS_Init` produces for `roundMotor` with
`Va_lim = 24`, `Ia_lim = 10`. -/
def roundCondition (α : Type) [LinearOrderedField α] : PSCS_Condition_t α :=
  { pmsm := roundMotor α, Va_lim := 24, Ia_lim := 10, Kc_mtpa := 1 }

/-- The condition `PSCS_Init` produces for `roundMotor` with
`Va_lim = 12`, `Ia_lim = 10`. -/
def weakCondition (α : Type) [LinearOrderedField α] : PSCS_Condition_t α :=
  { pmsm := roundMotor α, Va_lim := 12, Ia_lim := 10, Kc_mtpa := 1 }

/-- A strongly salient motor in normalised units (`Rs = 0`, `Ld = 1`,
`Lq = 2`, `Psi_a = 1/4`, `Poles = 2`) with `Va_lim = 5/2`, `Ia_lim = 1000`. -/
def flipCondition (α : Type) [LinearOrderedField α] : PSCS_Condition_t α :=
  { pmsm := { Rs := 0, Ld := 1, Lq := 2, Psi_a := 1 / 4, Poles := 2 },
    Va_lim := 5 / 2, Ia_lim := 1000, Kc_mtpa := 1 }

/-- A motor dominated by reluctance torque, in normalised units (`Rs = 0`,
`Ld = 1`, `Lq = 2`, `Psi_a = 1/1000`, `Poles = 2`) with `Va_lim = 1`,
`Ia_lim = 1000`. -/
def slowCondition (α : Type) [LinearOrderedField α] : PSCS_Condition_t α :=
  { pmsm := { Rs := 0, Ld := 1, Lq := 2, Psi_a := 1 / 1000, Poles := 2 },
    Va_lim := 1, Ia_lim := 1000, Kc_mtpa := 1 }

/-- The condition of a stalled lossless drive: `salientMotor` with `Rs = 0`. -/
def losslessCondition (α : Type) [LinearOrderedField α] : PSCS_Condition_t α :=
  { pmsm := { salientMotor α with Rs := 0 }, Va_lim := 24, Ia_lim := 10, Kc_mtpa := 1 }

end PSCS

namespace PSCS

section Frame

variable {α : Type} [LinearOrderedField α]

/-- Over an ordered field the macro `PSCS_ABS` is the absolute value. -/
theorem PSCS_ABS_eq_abs (x : α) : PSCS_ABS x = |x| := by
  unfold PSCS_ABS
  split_ifs with h
  · exact (abs_of_pos h).symm
  · exact (abs_of_nonpos (not_lt.mp h)).symm

/-- One MTPA iteration reads only `Ia_ref` of the record it is given. -/
theorem PSCS_mtpa_body_congr (M : MathFns α) (condition : PSCS_Condition_t α) (torque_ref : α)
    (s s' : PSCS_PMSM_Solutions_t α) (hI : s.Ia_ref = s'.Ia_ref) :
    (PSCS_mtpa_body M condition torque_ref s).1.Ia_ref
        = (PSCS_mtpa_body M condition torque_ref s').1.Ia_ref ∧
      (PSCS_mtpa_body M condition torque_ref s).1.beta_ref
        = (PSCS_mtpa_body M condition torque_ref s').1.beta_ref ∧
      (PSCS_mtpa_body M condition torque_ref s).2
        = (PSCS_mtpa_body M condition torque_ref s').2 := by
  simp only [PSCS_mtpa_body, hI, and_self]

/-- The MTPA loop reads only `Ia_ref` of the record it is given: two records
with the same `Ia_ref` give the same `Ia_ref`, `beta_ref`, `torque_calc` and
iteration count. -/
theorem PSCS_mtpa_loop_congr (M : MathFns α) (condition : PSCS_Condition_t α) (torque_ref : α) :
    ∀ (n iter : Nat) (s s' : PSCS_PMSM_Solutions_t α),
      PSCS_MTPA_MAX_ITERATION - iter ≤ n → s.Ia_ref = s'.Ia_ref →
      (PSCS_mtpa_loop M condition torque_ref s iter).1.Ia_ref
          = (PSCS_mtpa_loop M condition torque_ref s' iter).1.Ia_ref ∧
        (PSCS_mtpa_loop M condition torque_ref s iter).1.beta_ref
          = (PSCS_mtpa_loop M condition torque_ref s' iter).1.beta_ref ∧
        (PSCS_mtpa_loop M condition torque_ref s iter).2
          = (PSCS_mtpa_loop M condition torque_ref s' iter).2 := by
  intro n
  induction n with
  | zero =>
    intro iter s s' hn hI
    obtain ⟨b1, b2, b3⟩ := PSCS_mtpa_body_congr M condition torque_ref s s' hI
    rw [PSCS_mtpa_loop, PSCS_mtpa_loop.eq_1 M condition torque_ref s']
    have hstop : ∀ t : α, ¬ PSCS_mtpa_continue torque_ref t (iter + 1) := by
      intro t h
      have := h.1
      omega
    simp only [hstop, dite_false, b1, b2, b3, and_self]
  | succ n ih =>
    intro iter s s' hn hI
    obtain ⟨b1, b2, b3⟩ := PSCS_mtpa_body_congr M condition torque_ref s s' hI
    rw [PSCS_mtpa_loop, PSCS_mtpa_loop.eq_1 M condition torque_ref s']
    simp only [b3]
    split_ifs with h
    · apply ih
      · have := h.1
        omega
      · exact b1
    · simp only [b1, b2, and_self]

/-- Everything `PSCS_Calculate` does up to the assignment of `FW_flag` is
independent of the previous content of the solution record. -/
theorem PSCS_select_congr (M : MathFns α) (condition : PSCS_Condition_t α) (torque_ref w_ref : α)
    (s s' : PSCS_PMSM_Solutions_t α) :
    PSCS_select M condition torque_ref w_ref s = PSCS_select M condition torque_ref w_ref s' := by
  have hmode : PSCS_mode_test condition (PSCS_estimate condition torque_ref s)
      ↔ PSCS_mode_test condition (PSCS_estimate condition torque_ref s') := by
    simp [PSCS_mode_test, PSCS_estimate]
  have hloop := PSCS_mtpa_loop_congr M condition torque_ref PSCS_MTPA_MAX_ITERATION 0
    (PSCS_estimate condition torque_ref s) (PSCS_estimate condition torque_ref s')
    (by simp) (by simp [PSCS_estimate])
  obtain ⟨h1, h2, h3⟩ := hloop
  unfold PSCS_select
  by_cases hm : PSCS_mode_test condition (PSCS_estimate condition torque_ref s)
  · have hm' := hmode.mp hm
    simp only [hm, hm', if_true]
    refine Prod.ext ?_ ?_
    · ext <;> simp [PSCS_mtpa_branch, PSCS_voltage, h1, h2]
    · simp [PSCS_mtpa_branch, h3]
  · have hm' : ¬ PSCS_mode_test condition (PSCS_estimate condition torque_ref s') :=
      fun h => hm (hmode.mpr h)
    simp only [hm, hm', if_false]
    refine Prod.ext ?_ ?_
    · ext <;> simp [PSCS_id0_branch]
    · simp [PSCS_id0_branch]

/-- The clamp changes at most `iq_ref`. -/
theorem PSCS_fw_clamp_frame (M : MathFns α) (condition : PSCS_Condition_t α) (torque_ref : α)
    (s : PSCS_PMSM_Solutions_t α) :
    (PSCS_fw_clamp M condition torque_ref s).id_ref = s.id_ref ∧
      (PSCS_fw_clamp M condition torque_ref s).FW_flag = s.FW_flag := by
  unfold PSCS_fw_clamp
  split_ifs <;> simp

/-- One flux-weakening iteration leaves `FW_flag` as it found it. -/
theorem PSCS_fw_body_FW_flag (M : MathFns α) (condition : PSCS_Condition_t α)
    (torque_ref w_ref : α) (s : PSCS_PMSM_Solutions_t α) :
    (PSCS_fw_body M condition torque_ref w_ref s).FW_flag = s.FW_flag := by
  unfold PSCS_fw_body
  exact (PSCS_fw_clamp_frame M condition torque_ref _).2

/-- The flux-weakening loop leaves `FW_flag` as it found it. -/
theorem PSCS_fw_loop_FW_flag (M : MathFns α) (condition : PSCS_Condition_t α)
    (torque_ref w_ref : α) :
    ∀ (n iter : Nat) (s : PSCS_PMSM_Solutions_t α), PSCS_FW_MAX_ITERATION - iter ≤ n →
      (PSCS_fw_loop M condition torque_ref w_ref s iter).1.FW_flag = s.FW_flag := by
  intro n
  induction n with
  | zero =>
    intro iter s hn
    rw [PSCS_fw_loop]
    have hstop : ∀ a b : α, ¬ PSCS_fw_continue a b (iter + 1) := by
      intro a b h
      have := h.1
      omega
    simp only [hstop, dite_false]
    exact PSCS_fw_body_FW_flag M condition torque_ref w_ref s
  | succ n ih =>
    intro iter s hn
    rw [PSCS_fw_loop]
    split_ifs with h
    · rw [ih (iter + 1) _ (by have := h.1; omega)]
      exact PSCS_fw_body_FW_flag M condition torque_ref w_ref s
    · exact PSCS_fw_body_FW_flag M condition torque_ref w_ref s

/-- The record the flux-weakening loop returns is the output of its last
iteration, whose continuation test failed, and the counter has advanced. -/
theorem PSCS_fw_loop_exit (M : MathFns α) (condition : PSCS_Condition_t α)
    (torque_ref w_ref : α) :
    ∀ (n iter : Nat) (s : PSCS_PMSM_Solutions_t α), PSCS_FW_MAX_ITERATION - iter ≤ n →
      ∃ s0 : PSCS_PMSM_Solutions_t α,
        (PSCS_fw_loop M condition torque_ref w_ref s iter).1
            = PSCS_fw_body M condition torque_ref w_ref s0 ∧
          iter < (PSCS_fw_loop M condition torque_ref w_ref s iter).2 ∧
          ¬ PSCS_fw_continue (PSCS_fw_body M condition torque_ref w_ref s0).id_ref s0.id_ref
              (PSCS_fw_loop M condition torque_ref w_ref s iter).2 := by
  intro n
  induction n with
  | zero =>
    intro iter s hn
    rw [PSCS_fw_loop]
    have hstop : ∀ a b : α, ¬ PSCS_fw_continue a b (iter + 1) := by
      intro a b h
      have := h.1
      omega
    simp only [hstop, dite_false]
    exact ⟨s, rfl, Nat.lt_succ_self _, not_false⟩
  | succ n ih =>
    intro iter s hn
    rw [PSCS_fw_loop]
    split_ifs with h
    · obtain ⟨s0, h1, h2, h3⟩ :=
        ih (iter + 1) (PSCS_fw_body M condition torque_ref w_ref s) (by have := h.1; omega)
      exact ⟨s0, h1, Nat.lt_of_succ_lt h2, h3⟩
    · exact ⟨s, rfl, Nat.lt_succ_self _, h⟩

/-- One flux-weakening iteration is the clamp applied to a record whose
`id_ref` comes from the regime formula and whose `iq_ref` solves the torque
equation for that `id_ref`. -/
theorem PSCS_fw_body_eq_clamp (M : MathFns α) (condition : PSCS_Condition_t α)
    (torque_ref w_ref : α) (s : PSCS_PMSM_Solutions_t α) :
    ∃ s2 : PSCS_PMSM_Solutions_t α,
      PSCS_fw_body M condition torque_ref w_ref s = PSCS_fw_clamp M condition torque_ref s2 ∧
        s2.id_ref = PSCS_fw_id M condition w_ref s.iq_ref ∧
        s2.iq_ref = 2 * torque_ref / condition.pmsm.Poles
          / (condition.pmsm.Psi_a + (condition.pmsm.Ld - condition.pmsm.Lq) * s2.id_ref) :=
  ⟨_, rfl, rfl, rfl⟩

/-- The MTPA loop stops because its continuation test fails on the torque it
evaluated last. -/
theorem PSCS_mtpa_loop_exit (M : MathFns α) (condition : PSCS_Condition_t α) (torque_ref : α) :
    ∀ (n iter : Nat) (s : PSCS_PMSM_Solutions_t α), PSCS_MTPA_MAX_ITERATION - iter ≤ n →
      iter < (PSCS_mtpa_loop M condition torque_ref s iter).2.2 ∧
        ¬ PSCS_mtpa_continue torque_ref (PSCS_mtpa_loop M condition torque_ref s iter).2.1
            (PSCS_mtpa_loop M condition torque_ref s iter).2.2 := by
  intro n
  induction n with
  | zero =>
    intro iter s hn
    rw [PSCS_mtpa_loop]
    have hstop : ∀ t : α, ¬ PSCS_mtpa_continue torque_ref t (iter + 1) := by
      intro t h
      have := h.1
      omega
    simp only [hstop, dite_false]
    exact ⟨Nat.lt_succ_self _, not_false⟩
  | succ n ih =>
    intro iter s hn
    rw [PSCS_mtpa_loop]
    split_ifs with h
    · have hlt : PSCS_MTPA_MAX_ITERATION - (iter + 1) ≤ n := by
        have := h.1
        omega
      exact ⟨Nat.lt_of_succ_lt (ih (iter + 1) _ hlt).1, (ih (iter + 1) _ hlt).2⟩
    · exact ⟨Nat.lt_succ_self _, h⟩

/-- The MTPA loop started below the cap ends at most at the cap. -/
theorem PSCS_mtpa_loop_iter_le (M : MathFns α) (condition : PSCS_Condition_t α) (torque_ref : α) :
    ∀ (n iter : Nat) (s : PSCS_PMSM_Solutions_t α), PSCS_MTPA_MAX_ITERATION - iter ≤ n →
      iter < PSCS_MTPA_MAX_ITERATION →
      (PSCS_mtpa_loop M condition torque_ref s iter).2.2 ≤ PSCS_MTPA_MAX_ITERATION := by
  intro n
  induction n with
  | zero =>
    intro iter s hn hlt
    omega
  | succ n ih =>
    intro iter s hn hlt
    rw [PSCS_mtpa_loop]
    split_ifs with h
    · exact ih (iter + 1) _ (by omega) h.1
    · exact hlt

/-- The step-1 quotient is the closed form `torque_ref / (Psi_a * Poles / 2)`. -/
theorem PSCS_iq0_closed_form (torque_ref Psi_a Poles : α) :
    torque_ref / Psi_a / Poles * 2 = torque_ref / (Psi_a * Poles / 2) := by
  rw [div_div, div_div_eq_mul_div, div_mul_eq_mul_div]

/-- The record and status of `PSCS_select` when the mode test fails. -/
theorem PSCS_select_id0 (M : MathFns α) (condition : PSCS_Condition_t α) (torque_ref w_ref : α)
    (s : PSCS_PMSM_Solutions_t α)
    (hmode : ¬ PSCS_mode_test condition (PSCS_estimate condition torque_ref s)) :
    (PSCS_select M condition torque_ref w_ref s).1.id_ref = 0 ∧
      (PSCS_select M condition torque_ref w_ref s).1.iq_ref
        = torque_ref / (condition.pmsm.Psi_a * condition.pmsm.Poles / 2) ∧
      (PSCS_select M condition torque_ref w_ref s).1.Ia_ref
        = torque_ref / (condition.pmsm.Psi_a * condition.pmsm.Poles / 2) ∧
      (PSCS_select M condition torque_ref w_ref s).1.beta_ref = 0 ∧
      (PSCS_select M condition torque_ref w_ref s).1.Va_calc
        = M.sqrtf ((w_ref * condition.pmsm.Lq
              * (torque_ref / (condition.pmsm.Psi_a * condition.pmsm.Poles / 2))) ^ 2
            + (condition.pmsm.Rs * (torque_ref / (condition.pmsm.Psi_a * condition.pmsm.Poles / 2))
              + w_ref * condition.pmsm.Psi_a) ^ 2) ∧
      (PSCS_select M condition torque_ref w_ref s).1.FW_flag
        = (if (PSCS_select M condition torque_ref w_ref s).1.Va_calc > condition.Va_lim
            then 1 else 0) ∧
      (PSCS_select M condition torque_ref w_ref s).2 = 0 := by
  unfold PSCS_select
  simp only [hmode, if_false, PSCS_id0_branch, PSCS_iq0_closed_form]
  refine ⟨trivial, trivial, trivial, trivial, ?_, trivial, trivial⟩
  congr 1
  ring

/-- The result of `PSCS_Calculate` when the mode test fails and the voltage
of the id=0 solution does not exceed the limit. -/
theorem PSCS_Calculate_id0 (M : MathFns α) (condition : PSCS_Condition_t α)
    (solution : PSCS_PMSM_Solutions_t α) (torque_ref w_ref : α)
    (hmode : ¬ PSCS_mode_test condition (PSCS_estimate condition torque_ref solution))
    (hva : ¬ M.sqrtf ((w_ref * condition.pmsm.Lq
              * (torque_ref / (condition.pmsm.Psi_a * condition.pmsm.Poles / 2))) ^ 2
            + (condition.pmsm.Rs * (torque_ref / (condition.pmsm.Psi_a * condition.pmsm.Poles / 2))
              + w_ref * condition.pmsm.Psi_a) ^ 2) > condition.Va_lim) :
    (PSCS_Calculate M condition solution torque_ref w_ref).1.id_ref = 0 ∧
      (PSCS_Calculate M condition solution torque_ref w_ref).1.iq_ref
        = torque_ref / (condition.pmsm.Psi_a * condition.pmsm.Poles / 2) ∧
      (PSCS_Calculate M condition solution torque_ref w_ref).1.Ia_ref
        = torque_ref / (condition.pmsm.Psi_a * condition.pmsm.Poles / 2) ∧
      (PSCS_Calculate M condition solution torque_ref w_ref).1.beta_ref = 0 ∧
      (PSCS_Calculate M condition solution torque_ref w_ref).1.FW_flag = 0 ∧
      (PSCS_Calculate M condition solution torque_ref w_ref).2 = 0 := by
  obtain ⟨h1, h2, h3, h4, h5, h6, h7⟩ :=
    PSCS_select_id0 M condition torque_ref w_ref solution hmode
  rw [← h5] at hva
  have hflag : (PSCS_select M condition torque_ref w_ref solution).1.FW_flag = 0 := by
    rw [h6, if_neg hva]
  unfold PSCS_Calculate
  simp only [hflag, ne_eq, not_true_eq_false, if_false]
  exact ⟨h1, h2, h3, h4, trivial, h7⟩

/-- For a non-negative step-1 estimate the mode test of the source is the
test on absolute values. -/
theorem PSCS_mode_test_of_nonneg (condition : PSCS_Condition_t α)
    (s : PSCS_PMSM_Solutions_t α) (h : 0 ≤ s.Ia_ref) :
    PSCS_mode_test condition s ↔
      (|s.Ia_ref| > 1 / 10 ∧
        (1 / 2) * |condition.pmsm.Lq - condition.pmsm.Ld| * |s.Ia_ref| / condition.pmsm.Psi_a
          > 1 / 100) := by
  unfold PSCS_mode_test PSCS_MTPA_ID0_I_THRESHOLD PSCS_MTPA_ID0_TORQUE_RATIO_THRESHOLD
  rw [PSCS_ABS_eq_abs, PSCS_ABS_eq_abs, abs_of_nonneg h]

/-- When the returned `FW_flag` is set, the call returned what the
flux-weakening block computes from the state after line 77. -/
theorem PSCS_Calculate_fw (M : MathFns α) (condition : PSCS_Condition_t α)
    (solution : PSCS_PMSM_Solutions_t α) (torque_ref w_ref : α)
    (hfw : (PSCS_Calculate M condition solution torque_ref w_ref).1.FW_flag ≠ 0) :
    (PSCS_select M condition torque_ref w_ref solution).1.FW_flag ≠ 0 ∧
      PSCS_Calculate M condition solution torque_ref w_ref
        = PSCS_fw_block M condition torque_ref w_ref
            (PSCS_select M condition torque_ref w_ref solution).1 := by
  by_cases hsel : (PSCS_select M condition torque_ref w_ref solution).1.FW_flag = 0
  · exfalso
    apply hfw
    unfold PSCS_Calculate
    simp only [hsel, ne_eq, not_true_eq_false, if_false]
  · refine ⟨hsel, ?_⟩
    unfold PSCS_Calculate
    simp only [ne_eq, hsel, not_false_eq_true, if_true]

/-- When the selection stage sets `FW_flag`, the call is the flux-weakening
block. -/
theorem PSCS_Calculate_of_flag (M : MathFns α) (condition : PSCS_Condition_t α)
    (solution : PSCS_PMSM_Solutions_t α) (torque_ref w_ref : α)
    (hsel : (PSCS_select M condition torque_ref w_ref solution).1.FW_flag ≠ 0) :
    PSCS_Calculate M condition solution torque_ref w_ref
      = PSCS_fw_block M condition torque_ref w_ref
          (PSCS_select M condition torque_ref w_ref solution).1 := by
  unfold PSCS_Calculate
  simp only [ne_eq, hsel, not_false_eq_true, if_true]

/-- When the returned `FW_flag` is zero, the call returned the state after
line 77 and its error code. -/
theorem PSCS_Calculate_noFW (M : MathFns α) (condition : PSCS_Condition_t α)
    (solution : PSCS_PMSM_Solutions_t α) (torque_ref w_ref : α)
    (hfw : (PSCS_Calculate M condition solution torque_ref w_ref).1.FW_flag = 0) :
    (PSCS_select M condition torque_ref w_ref solution).1.FW_flag = 0 ∧
      PSCS_Calculate M condition solution torque_ref w_ref
        = PSCS_select M condition torque_ref w_ref solution := by
  have hflag : (PSCS_select M condition torque_ref w_ref solution).1.FW_flag = 0 := by
    by_contra hne
    rw [PSCS_Calculate_of_flag M condition solution torque_ref w_ref hne] at hfw
    simp only [PSCS_fw_block, PSCS_voltage] at hfw
    rw [PSCS_fw_loop_FW_flag M condition torque_ref w_ref PSCS_FW_MAX_ITERATION 0 _ (by simp)]
      at hfw
    exact hne hfw
  refine ⟨hflag, ?_⟩
  unfold PSCS_Calculate
  simp only [hflag, ne_eq, not_true_eq_false, if_false]

/-- The record and status of `PSCS_select` when the mode test holds, in terms
of what the MTPA loop returns. -/
theorem PSCS_select_mtpa (M : MathFns α) (condition : PSCS_Condition_t α) (torque_ref w_ref : α)
    (s : PSCS_PMSM_Solutions_t α)
    (hmode : PSCS_mode_test condition (PSCS_estimate condition torque_ref s)) :
    (PSCS_select M condition torque_ref w_ref s).1.Ia_ref
        = (PSCS_mtpa_loop M condition torque_ref (PSCS_estimate condition torque_ref s) 0).1.Ia_ref ∧
      (PSCS_select M condition torque_ref w_ref s).1.beta_ref
        = (PSCS_mtpa_loop M condition torque_ref
            (PSCS_estimate condition torque_ref s) 0).1.beta_ref ∧
      (PSCS_select M condition torque_ref w_ref s).1.id_ref
        = -(PSCS_select M condition torque_ref w_ref s).1.Ia_ref
          * M.sinf (PSCS_select M condition torque_ref w_ref s).1.beta_ref ∧
      (PSCS_select M condition torque_ref w_ref s).1.iq_ref
        = (PSCS_select M condition torque_ref w_ref s).1.Ia_ref
          * M.cosf (PSCS_select M condition torque_ref w_ref s).1.beta_ref ∧
      (PSCS_select M condition torque_ref w_ref s).1.Va_calc
        = M.sqrtf (
          (condition.pmsm.Rs * (PSCS_select M condition torque_ref w_ref s).1.id_ref
            - w_ref * condition.pmsm.Lq * (PSCS_select M condition torque_ref w_ref s).1.iq_ref)
          * (condition.pmsm.Rs * (PSCS_select M condition torque_ref w_ref s).1.id_ref
            - w_ref * condition.pmsm.Lq * (PSCS_select M condition torque_ref w_ref s).1.iq_ref)
          + (condition.pmsm.Rs * (PSCS_select M condition torque_ref w_ref s).1.iq_ref
            + w_ref * condition.pmsm.Ld * (PSCS_select M condition torque_ref w_ref s).1.id_ref
            + w_ref * condition.pmsm.Psi_a)
          * (condition.pmsm.Rs * (PSCS_select M condition torque_ref w_ref s).1.iq_ref
            + w_ref * condition.pmsm.Ld * (PSCS_select M condition torque_ref w_ref s).1.id_ref
            + w_ref * condition.pmsm.Psi_a)) ∧
      (PSCS_select M condition torque_ref w_ref s).1.FW_flag
        = (if (PSCS_select M condition torque_ref w_ref s).1.Va_calc > condition.Va_lim
            then 1 else 0) ∧
      (PSCS_select M condition torque_ref w_ref s).2
        = -(if (PSCS_mtpa_loop M condition torque_ref
            (PSCS_estimate condition torque_ref s) 0).2.2 = PSCS_MTPA_MAX_ITERATION
            then 1 else 0) := by
  unfold PSCS_select
  simp only [hmode, if_true, PSCS_mtpa_branch, PSCS_voltage, and_self]

/-- When the selection stage leaves `FW_flag` at zero, the call returns the
state after line 77 and its error code. -/
theorem PSCS_Calculate_of_noflag (M : MathFns α) (condition : PSCS_Condition_t α)
    (solution : PSCS_PMSM_Solutions_t α) (torque_ref w_ref : α)
    (hsel : (PSCS_select M condition torque_ref w_ref solution).1.FW_flag = 0) :
    PSCS_Calculate M condition solution torque_ref w_ref
      = PSCS_select M condition torque_ref w_ref solution := by
  unfold PSCS_Calculate
  simp only [hsel, ne_eq, not_true_eq_false, if_false]

/-- The MTPA loop entered with counter `k < 10` on the `k`-th iterate returns
the `n`-th iterate with `k < n <= 10`; every execution before the last had a
convergence measure above the threshold, and the last one has not unless
`n = 10`. -/
theorem PSCS_mtpa_loop_trace (M : MathFns α) (condition : PSCS_Condition_t α) (torque_ref : α)
    (s : PSCS_PMSM_Solutions_t α) :
    ∀ (m k : Nat), PSCS_MTPA_MAX_ITERATION - k ≤ m → k < PSCS_MTPA_MAX_ITERATION →
      k < (PSCS_mtpa_loop M condition torque_ref
            (PSCS_mtpa_state M condition torque_ref s k) k).2.2 ∧
        (PSCS_mtpa_loop M condition torque_ref
            (PSCS_mtpa_state M condition torque_ref s k) k).2.2 ≤ PSCS_MTPA_MAX_ITERATION ∧
        (PSCS_mtpa_loop M condition torque_ref (PSCS_mtpa_state M condition torque_ref s k) k).1
          = PSCS_mtpa_state M condition torque_ref s
              (PSCS_mtpa_loop M condition torque_ref
                (PSCS_mtpa_state M condition torque_ref s k) k).2.2 ∧
        (PSCS_mtpa_loop M condition torque_ref (PSCS_mtpa_state M condition torque_ref s k) k).2.1
          = PSCS_mtpa_torque M condition torque_ref s
              ((PSCS_mtpa_loop M condition torque_ref
                (PSCS_mtpa_state M condition torque_ref s k) k).2.2 - 1) ∧
        (∀ i, k ≤ i →
          i + 1 < (PSCS_mtpa_loop M condition torque_ref
            (PSCS_mtpa_state M condition torque_ref s k) k).2.2 →
          PSCS_mtpa_measure M condition torque_ref s i > PSCS_MTPA_CONVERGENCE_THRESHOLD) ∧
        ((PSCS_mtpa_loop M condition torque_ref
            (PSCS_mtpa_state M condition torque_ref s k) k).2.2 < PSCS_MTPA_MAX_ITERATION →
          ¬ PSCS_mtpa_measure M condition torque_ref s
              ((PSCS_mtpa_loop M condition torque_ref
                (PSCS_mtpa_state M condition torque_ref s k) k).2.2 - 1)
            > PSCS_MTPA_CONVERGENCE_THRESHOLD) := by
  intro m
  induction m with
  | zero =>
    intro k hm hk
    omega
  | succ m ih =>
    intro k hm hk
    rw [PSCS_mtpa_loop]
    split_ifs with h
    · have hk1 : k + 1 < PSCS_MTPA_MAX_ITERATION := h.1
      obtain ⟨i1, i2, i3, i4, i5, i6⟩ := ih (k + 1) (by omega) hk1
      refine ⟨Nat.lt_of_succ_lt i1, i2, i3, i4, ?_, i6⟩
      intro i hi hlt
      rcases Nat.eq_or_lt_of_le hi with heq | hgt
      · rw [← heq]
        exact h.2
      · exact i5 i hgt hlt
    · refine ⟨Nat.lt_succ_self k, hk, rfl, rfl, ?_, ?_⟩
      · intro i hi hlt
        simp only [] at hlt
        omega
      · intro hlt
        simp only [] at hlt ⊢
        intro hmeas
        exact h ⟨hlt, hmeas⟩

/-- The flux-weakening loop entered with counter `k < 20` on the `k`-th
iterate returns the `n`-th iterate with `k < n <= 20`; every execution before
the last had a convergence measure above the threshold, and the last one has
not unless `n = 20`. -/
theorem PSCS_fw_loop_trace (M : MathFns α) (condition : PSCS_Condition_t α)
    (torque_ref w_ref : α) (s : PSCS_PMSM_Solutions_t α) :
    ∀ (m k : Nat), PSCS_FW_MAX_ITERATION - k ≤ m → k < PSCS_FW_MAX_ITERATION →
      k < (PSCS_fw_loop M condition torque_ref w_ref
            (PSCS_fw_state M condition torque_ref w_ref s k) k).2 ∧
        (PSCS_fw_loop M condition torque_ref w_ref
            (PSCS_fw_state M condition torque_ref w_ref s k) k).2 ≤ PSCS_FW_MAX_ITERATION ∧
        (PSCS_fw_loop M condition torque_ref w_ref
            (PSCS_fw_state M condition torque_ref w_ref s k) k).1
          = PSCS_fw_state M condition torque_ref w_ref s
              (PSCS_fw_loop M condition torque_ref w_ref
                (PSCS_fw_state M condition torque_ref w_ref s k) k).2 ∧
        (∀ i, k ≤ i →
          i + 1 < (PSCS_fw_loop M condition torque_ref w_ref
            (PSCS_fw_state M condition torque_ref w_ref s k) k).2 →
          PSCS_fw_measure M condition torque_ref w_ref s i > PSCS_FW_CONVERGENCE_THRESHOLD) ∧
        ((PSCS_fw_loop M condition torque_ref w_ref
            (PSCS_fw_state M condition torque_ref w_ref s k) k).2 < PSCS_FW_MAX_ITERATION →
          ¬ PSCS_fw_measure M condition torque_ref w_ref s
              ((PSCS_fw_loop M condition torque_ref w_ref
                (PSCS_fw_state M condition torque_ref w_ref s k) k).2 - 1)
            > PSCS_FW_CONVERGENCE_THRESHOLD) := by
  intro m
  induction m with
  | zero =>
    intro k hm hk
    omega
  | succ m ih =>
    intro k hm hk
    rw [PSCS_fw_loop]
    split_ifs with h
    · have hk1 : k + 1 < PSCS_FW_MAX_ITERATION := h.1
      obtain ⟨i1, i2, i3, i5, i6⟩ := ih (k + 1) (by omega) hk1
      refine ⟨Nat.lt_of_succ_lt i1, i2, i3, ?_, i6⟩
      intro i hi hlt
      rcases Nat.eq_or_lt_of_le hi with heq | hgt
      · rw [← heq]
        exact h.2
      · exact i5 i hgt hlt
    · refine ⟨Nat.lt_succ_self k, hk, rfl, ?_, ?_⟩
      · intro i hi hlt
        simp only [] at hlt
        omega
      · intro hlt
        simp only [] at hlt ⊢
        intro hmeas
        exact h ⟨hlt, hmeas⟩

/-- With `Psi_a > 0`, `Poles > 0` and `Kc_mtpa = 1` a true mode test forces a
positive step-1 estimate and a positive `torque_ref`. -/
theorem PSCS_mode_test_pos (condition : PSCS_Condition_t α)
    (torque_ref : α) (s : PSCS_PMSM_Solutions_t α)
    (hψ : 0 < condition.pmsm.Psi_a) (hP : 0 < condition.pmsm.Poles)
    (hK : condition.Kc_mtpa = 1)
    (hm : PSCS_mode_test condition (PSCS_estimate condition torque_ref s)) :
    0 < (PSCS_estimate condition torque_ref s).Ia_ref ∧ 0 < torque_ref := by
  have hI : 0 < (PSCS_estimate condition torque_ref s).Ia_ref := by
    have h2 := hm.2
    unfold PSCS_MTPA_ID0_TORQUE_RATIO_THRESHOLD at h2
    rw [PSCS_ABS_eq_abs] at h2
    by_contra hle
    have hle' := not_lt.mp hle
    have : (1 / 2) * |condition.pmsm.Lq - condition.pmsm.Ld|
        * (PSCS_estimate condition torque_ref s).Ia_ref / condition.pmsm.Psi_a ≤ 0 := by
      apply div_nonpos_of_nonpos_of_nonneg _ (le_of_lt hψ)
      exact mul_nonpos_of_nonneg_of_nonpos (by positivity) hle'
    have h3 : (0 : α) < 1 / 100 := by norm_num
    exact absurd (lt_of_lt_of_le (lt_trans h3 h2) this) (lt_irrefl _)
  refine ⟨hI, ?_⟩
  simp only [PSCS_estimate, hK, one_mul] at hI
  by_contra hle
  have hle' := not_lt.mp hle
  have : torque_ref / condition.pmsm.Psi_a / condition.pmsm.Poles * 2 ≤ 0 := by
    apply mul_nonpos_of_nonpos_of_nonneg _ (by norm_num)
    apply div_nonpos_of_nonpos_of_nonneg _ (le_of_lt hP)
    exact div_nonpos_of_nonpos_of_nonneg hle' (le_of_lt hψ)
  exact absurd (lt_of_lt_of_le hI this) (lt_irrefl _)

/-- The angle the flux-weakening block returns is `atan2f(iq_ref, -id_ref)`
of the returned currents. -/
theorem PSCS_fw_block_beta (M : MathFns α) (condition : PSCS_Condition_t α)
    (torque_ref w_ref : α) (s : PSCS_PMSM_Solutions_t α) :
    (PSCS_fw_block M condition torque_ref w_ref s).1.beta_ref
      = M.atan2f (PSCS_fw_block M condition torque_ref w_ref s).1.iq_ref
          (-(PSCS_fw_block M condition torque_ref w_ref s).1.id_ref) := by
  simp only [PSCS_fw_block, PSCS_voltage]

/-- When the regime test holds, `PSCS_fw_id` is the quadratic formula on
`PSCS_fw_radicand`. -/
theorem PSCS_fw_id_quadratic (M : MathFns α) (condition : PSCS_Condition_t α) (w_ref iq_ref : α)
    (h : PSCS_fw_regime_test M condition w_ref iq_ref) :
    PSCS_fw_id M condition w_ref iq_ref
      = ((-w_ref) * (condition.pmsm.Ld * condition.pmsm.Rs * iq_ref
            + condition.pmsm.Ld * condition.pmsm.Psi_a * w_ref
            - condition.pmsm.Lq * condition.pmsm.Rs * iq_ref)
          + M.sqrtf (PSCS_fw_radicand condition w_ref iq_ref))
        / (condition.pmsm.Ld * condition.pmsm.Ld * w_ref * w_ref
            + condition.pmsm.Rs * condition.pmsm.Rs) := by
  unfold PSCS_fw_id
  exact if_pos h

/-- When the regime test fails, `PSCS_fw_id` is the linear formula. -/
theorem PSCS_fw_id_linear (M : MathFns α) (condition : PSCS_Condition_t α) (w_ref iq_ref : α)
    (h : ¬ PSCS_fw_regime_test M condition w_ref iq_ref) :
    PSCS_fw_id M condition w_ref iq_ref
      = (-w_ref) * (condition.pmsm.Ld * condition.pmsm.Rs * iq_ref
            + w_ref * condition.pmsm.Ld * condition.pmsm.Psi_a
            - condition.pmsm.Lq * condition.pmsm.Rs * iq_ref)
        / (w_ref * w_ref * condition.pmsm.Ld * condition.pmsm.Ld
            + condition.pmsm.Rs * condition.pmsm.Rs) := by
  unfold PSCS_fw_id
  exact if_neg h

/-- One flux-weakening iteration leaves in `id_ref` the value of the regime
formula for the `iq_ref` it started with. -/
theorem PSCS_fw_body_id (M : MathFns α) (condition : PSCS_Condition_t α)
    (torque_ref w_ref : α) (s : PSCS_PMSM_Solutions_t α) :
    (PSCS_fw_body M condition torque_ref w_ref s).id_ref
      = PSCS_fw_id M condition w_ref s.iq_ref := by
  unfold PSCS_fw_body PSCS_fw_clamp
  simp only []
  split_ifs <;> rfl

/-- The radicand of the quadratic formula is `A*Va_lim^2 - K^2`, with
`A = Ld^2*w_ref^2 + Rs^2` and `K` the left factor of the regime threshold. -/
theorem PSCS_fw_radicand_eq (condition : PSCS_Condition_t α) (w_ref iq_ref : α) :
    PSCS_fw_radicand condition w_ref iq_ref
      = (condition.pmsm.Ld * condition.pmsm.Ld * w_ref * w_ref
            + condition.pmsm.Rs * condition.pmsm.Rs) * (condition.Va_lim * condition.Va_lim)
        - (condition.pmsm.Ld * condition.pmsm.Lq * w_ref * w_ref * iq_ref
            + condition.pmsm.Rs * condition.pmsm.Rs * iq_ref
            + condition.pmsm.Rs * condition.pmsm.Psi_a * w_ref) ^ 2 := by
  unfold PSCS_fw_radicand
  ring

/-- A true mode test forces `Lq != Ld`, `torque_ref != 0` and a non-zero
step-1 estimate. -/
theorem PSCS_mode_test_ne (condition : PSCS_Condition_t α)
    (torque_ref : α) (s : PSCS_PMSM_Solutions_t α)
    (hm : PSCS_mode_test condition (PSCS_estimate condition torque_ref s)) :
    condition.pmsm.Lq ≠ condition.pmsm.Ld ∧ torque_ref ≠ 0 ∧
      (PSCS_estimate condition torque_ref s).Ia_ref ≠ 0 := by
  have h2 := hm.2
  unfold PSCS_MTPA_ID0_TORQUE_RATIO_THRESHOLD at h2
  rw [PSCS_ABS_eq_abs] at h2
  have h3 : (0 : α) < 1 / 100 := by norm_num
  have hpos : 0 < (1 / 2) * |condition.pmsm.Lq - condition.pmsm.Ld|
      * (PSCS_estimate condition torque_ref s).Ia_ref / condition.pmsm.Psi_a := lt_trans h3 h2
  have hI : (PSCS_estimate condition torque_ref s).Ia_ref ≠ 0 := by
    intro h0
    rw [h0, mul_zero, zero_div] at hpos
    exact lt_irrefl _ hpos
  refine ⟨?_, ?_, hI⟩
  · intro h0
    rw [h0, sub_self, abs_zero, mul_zero, zero_mul, zero_div] at hpos
    exact lt_irrefl _ hpos
  · intro h0
    apply hI
    simp only [PSCS_estimate, h0, mul_zero, zero_div, zero_mul]

/-- The angle one MTPA iteration leaves is `asinf` of `PSCS_mtpa_asin_arg`. -/
theorem PSCS_mtpa_body_beta (M : MathFns α) (condition : PSCS_Condition_t α) (torque_ref : α)
    (s : PSCS_PMSM_Solutions_t α) :
    (PSCS_mtpa_body M condition torque_ref s).1.beta_ref
      = M.asinf (PSCS_mtpa_asin_arg M condition s) := rfl

/-- The error code of the flux-weakening block is `-1` when its loop ended
with the counter at the cap and `0` otherwise. -/
theorem PSCS_fw_block_status (M : MathFns α) (condition : PSCS_Condition_t α)
    (torque_ref w_ref : α) (s : PSCS_PMSM_Solutions_t α) :
    (PSCS_fw_block M condition torque_ref w_ref s).2
      = -(if (PSCS_fw_loop M condition torque_ref w_ref
            { s with iq_ref := torque_ref / condition.pmsm.Poles * 2 } 0).2
              = PSCS_FW_MAX_ITERATION then 1 else 0) := by
  simp only [PSCS_fw_block, PSCS_voltage]

/-- The error code after the selection stage is `0` or `-1`. -/
theorem PSCS_select_status (M : MathFns α) (condition : PSCS_Condition_t α)
    (torque_ref w_ref : α) (s : PSCS_PMSM_Solutions_t α) :
    (PSCS_select M condition torque_ref w_ref s).2 = 0 ∨
      (PSCS_select M condition torque_ref w_ref s).2 = -1 := by
  by_cases hm : PSCS_mode_test condition (PSCS_estimate condition torque_ref s)
  · obtain ⟨-, -, -, -, -, -, h7⟩ := PSCS_select_mtpa M condition torque_ref w_ref s hm
    rw [h7]
    split_ifs
    · right
      rfl
    · left
      rfl
  · obtain ⟨-, -, -, -, -, -, h7⟩ := PSCS_select_id0 M condition torque_ref w_ref s hm
    left
    exact h7

end Frame

section RealLemmas

/-- A non-negative number is the square root of its square. -/
theorem sqrt_eq_of_mul_self {x y : ℝ} (hy : 0 ≤ y) (h : y * y = x) : Real.sqrt x = y := by
  rw [← h]
  exact Real.sqrt_mul_self hy

/-- What the clamp guarantees over the reals, for a non-negative limit: the
magnitude is within the limit when `|id_ref|` is, and otherwise `iq_ref` is
zero and the magnitude is `|id_ref|`. -/
theorem PSCS_fw_clamp_bound (condition : PSCS_Condition_t ℝ) (torque_ref : ℝ)
    (s : PSCS_PMSM_Solutions_t ℝ) (hIa : 0 ≤ condition.Ia_lim) :
    (|(PSCS_fw_clamp realMath condition torque_ref s).id_ref| ≤ condition.Ia_lim →
        Real.sqrt ((PSCS_fw_clamp realMath condition torque_ref s).id_ref ^ 2
          + (PSCS_fw_clamp realMath condition torque_ref s).iq_ref ^ 2) ≤ condition.Ia_lim) ∧
      (condition.Ia_lim < |(PSCS_fw_clamp realMath condition torque_ref s).id_ref| →
        (PSCS_fw_clamp realMath condition torque_ref s).iq_ref = 0 ∧
        Real.sqrt ((PSCS_fw_clamp realMath condition torque_ref s).id_ref ^ 2
          + (PSCS_fw_clamp realMath condition torque_ref s).iq_ref ^ 2)
            = |(PSCS_fw_clamp realMath condition torque_ref s).id_ref|) := by
  unfold PSCS_fw_clamp
  simp only [realMath]
  by_cases hc : Real.sqrt (s.id_ref * s.id_ref + s.iq_ref * s.iq_ref) > condition.Ia_lim
  · simp only [hc, if_true]
    by_cases hlt : condition.Ia_lim * condition.Ia_lim > s.id_ref * s.id_ref
    · simp only [hlt, if_true]
      have hsign : PSCS_SIGN torque_ref ^ 2 = 1 := by
        unfold PSCS_SIGN
        split_ifs <;> norm_num
      have hnn : 0 ≤ condition.Ia_lim * condition.Ia_lim - s.id_ref * s.id_ref := by linarith
      have hsum : s.id_ref ^ 2 + (PSCS_SIGN torque_ref
          * Real.sqrt (condition.Ia_lim * condition.Ia_lim - s.id_ref * s.id_ref)) ^ 2
          = condition.Ia_lim * condition.Ia_lim := by
        rw [mul_pow, hsign, Real.sq_sqrt hnn]
        ring
      rw [hsum, Real.sqrt_mul_self hIa]
      refine ⟨fun _ => le_refl _, fun h => ?_⟩
      exfalso
      have h2 : condition.Ia_lim * condition.Ia_lim < |s.id_ref| * |s.id_ref| :=
        mul_self_lt_mul_self hIa h
      rw [abs_mul_abs_self] at h2
      linarith
    · simp only [hlt, if_false]
      have hz : s.id_ref ^ 2 + (0 : ℝ) ^ 2 = s.id_ref ^ 2 := by ring
      rw [hz, Real.sqrt_sq_eq_abs]
      exact ⟨fun h => h, fun _ => ⟨trivial, rfl⟩⟩
  · simp only [hc, if_false]
    have hle : Real.sqrt (s.id_ref ^ 2 + s.iq_ref ^ 2) ≤ condition.Ia_lim := by
      rw [sq, sq]
      exact not_lt.mp hc
    refine ⟨fun _ => hle, fun h => ?_⟩
    exfalso
    have h1 : |s.id_ref| ≤ Real.sqrt (s.id_ref ^ 2 + s.iq_ref ^ 2) := by
      rw [← Real.sqrt_sq_eq_abs]
      exact Real.sqrt_le_sqrt (by nlinarith [sq_nonneg s.iq_ref])
    linarith

/-- The currents the flux-weakening block returns are those of the clamp of
its last iteration, and `Ia_ref` is their magnitude. -/
theorem PSCS_fw_block_currents (M : MathFns ℝ) (condition : PSCS_Condition_t ℝ)
    (torque_ref w_ref : ℝ) (s : PSCS_PMSM_Solutions_t ℝ) :
    ∃ s2 : PSCS_PMSM_Solutions_t ℝ,
      (PSCS_fw_block M condition torque_ref w_ref s).1.id_ref
          = (PSCS_fw_clamp M condition torque_ref s2).id_ref ∧
        (PSCS_fw_block M condition torque_ref w_ref s).1.iq_ref
          = (PSCS_fw_clamp M condition torque_ref s2).iq_ref ∧
        (PSCS_fw_block M condition torque_ref w_ref s).1.Ia_ref
          = M.sqrtf ((PSCS_fw_block M condition torque_ref w_ref s).1.id_ref ^ 2
              + (PSCS_fw_block M condition torque_ref w_ref s).1.iq_ref ^ 2) ∧
        s2.iq_ref = 2 * torque_ref / condition.pmsm.Poles
          / (condition.pmsm.Psi_a + (condition.pmsm.Ld - condition.pmsm.Lq) * s2.id_ref) := by
  obtain ⟨s0, h1, -, -⟩ := PSCS_fw_loop_exit M condition torque_ref w_ref PSCS_FW_MAX_ITERATION 0
    { s with iq_ref := torque_ref / condition.pmsm.Poles * 2 } (by simp)
  obtain ⟨s2, h2, -, h4⟩ := PSCS_fw_body_eq_clamp M condition torque_ref w_ref s0
  refine ⟨s2, ?_, ?_, ?_, h4⟩
  · simp only [PSCS_fw_block, PSCS_voltage, h1, h2]
  · simp only [PSCS_fw_block, PSCS_voltage, h1, h2]
  · simp only [PSCS_fw_block, PSCS_voltage, sq]

/-- At `w_ref = 375` the regime test of `weakCondition` selects the linear
formula for every non-negative `iq_ref`, and the new `id_ref` is `-18`. -/
theorem weakCondition_fw_id (q : ℝ) (hq : 0 ≤ q) : PSCS_fw_id realMath (weakCondition ℝ) 375 q = -18 := by
  have hs : Real.sqrt (1 / (1 / 1000 * (1 / 1000) * 375 * 375 + 1 / 2 * (1 / 2))) = 8 / 5 :=
    sqrt_eq_of_mul_self (by norm_num) (by norm_num)
  simp only [PSCS_fw_id, weakCondition, roundMotor, realMath]
  rw [hs]
  have hcond : ¬ ((12 : ℝ) > (1 / 1000 * (1 / 1000) * 375 * 375 * q + 1 / 2 * (1 / 2) * q
      + 1 / 2 * (1 / 20) * 375) * (8 / 5)) := by
    rw [gt_iff_lt, not_lt]
    nlinarith
  rw [if_neg hcond]
  norm_num

/-- One flux-weakening iteration for `weakCondition`, `torque_ref = 1`,
`w_ref = 375`: `id_ref = -18` exceeds `Ia_lim = 10`, the clamp sets `iq_ref = 0`. -/
theorem weakCondition_fw_body (s : PSCS_PMSM_Solutions_t ℝ) (hq : 0 ≤ s.iq_ref) :
    (PSCS_fw_body realMath (weakCondition ℝ) 1 375 s).id_ref = -18 ∧
      (PSCS_fw_body realMath (weakCondition ℝ) 1 375 s).iq_ref = 0 := by
  have hid := weakCondition_fw_id s.iq_ref hq
  unfold PSCS_fw_body PSCS_fw_clamp
  simp only [hid]
  simp only [weakCondition, roundMotor, realMath]
  norm_num
  have h424 : (10 : ℝ) < Real.sqrt 424 := by
    rw [Real.lt_sqrt (by norm_num)]
    norm_num
  simp only [h424, if_true, and_self]

/-- The flux-weakening loop for `weakCondition`, `torque_ref = 1`,
`w_ref = 375` started at `id_ref = 0` stops after two iterations. -/
theorem weakCondition_fw_loop (s : PSCS_PMSM_Solutions_t ℝ) (hq : 0 ≤ s.iq_ref) (hid : s.id_ref = 0) :
    (PSCS_fw_loop realMath (weakCondition ℝ) 1 375 s 0).1.id_ref = -18 ∧
      (PSCS_fw_loop realMath (weakCondition ℝ) 1 375 s 0).1.iq_ref = 0 ∧
      (PSCS_fw_loop realMath (weakCondition ℝ) 1 375 s 0).2 = 2 := by
  obtain ⟨b1, b2⟩ := weakCondition_fw_body s hq
  obtain ⟨c1, c2⟩ := weakCondition_fw_body (PSCS_fw_body realMath (weakCondition ℝ) 1 375 s) (le_of_eq b2.symm)
  have hcont1 : PSCS_fw_continue (PSCS_fw_body realMath (weakCondition ℝ) 1 375 s).id_ref
      s.id_ref (0 + 1) := by
    rw [b1, hid]
    unfold PSCS_fw_continue PSCS_FW_MAX_ITERATION PSCS_ABS PSCS_FW_CONVERGENCE_THRESHOLD
    norm_num
  have hcont2 : ¬ PSCS_fw_continue
      (PSCS_fw_body realMath (weakCondition ℝ) 1 375
        (PSCS_fw_body realMath (weakCondition ℝ) 1 375 s)).id_ref
      (PSCS_fw_body realMath (weakCondition ℝ) 1 375 s).id_ref (0 + 1 + 1) := by
    rw [c1, b1]
    unfold PSCS_fw_continue PSCS_FW_MAX_ITERATION PSCS_ABS PSCS_FW_CONVERGENCE_THRESHOLD
    norm_num
  rw [PSCS_fw_loop]
  simp only [hcont1, dite_true]
  rw [PSCS_fw_loop]
  simp only [hcont2, dite_false]
  exact ⟨c1, c2, trivial⟩

/-- The flux-weakening block for `weakCondition`, `torque_ref = 1`,
`w_ref = 375` started at `id_ref = 0`. -/
theorem weakCondition_fw_block (s : PSCS_PMSM_Solutions_t ℝ) (hid : s.id_ref = 0) :
    (PSCS_fw_block realMath (weakCondition ℝ) 1 375 s).1.FW_flag = s.FW_flag ∧
      (PSCS_fw_block realMath (weakCondition ℝ) 1 375 s).1.id_ref = -18 ∧
      (PSCS_fw_block realMath (weakCondition ℝ) 1 375 s).1.iq_ref = 0 ∧
      (PSCS_fw_block realMath (weakCondition ℝ) 1 375 s).1.Ia_ref = 18 ∧
      (PSCS_fw_block realMath (weakCondition ℝ) 1 375 s).2 = 0 := by
  obtain ⟨l1, l2, l3⟩ := weakCondition_fw_loop
    { s with iq_ref := 1 / (weakCondition ℝ).pmsm.Poles * 2 }
    (by simp only [weakCondition, roundMotor]; norm_num) hid
  have hfl := PSCS_fw_loop_FW_flag realMath (weakCondition ℝ) 1 375 PSCS_FW_MAX_ITERATION 0
    { s with iq_ref := 1 / (weakCondition ℝ).pmsm.Poles * 2 } (by simp)
  simp only [PSCS_fw_block, PSCS_voltage, l1, l2, l3, hfl]
  refine ⟨trivial, trivial, trivial, ?_, by decide⟩
  simp only [realMath]
  exact sqrt_eq_of_mul_self (by norm_num) (by norm_num)

/-- The call `PSCS_Calculate` for `weakCondition`, `torque_ref = 1`,
`w_ref = 375`: flux weakening is engaged and returns `id_ref = -18`,
`iq_ref = 0`, `Ia_ref = 18`, status `0`. -/
theorem weakCondition_calculate :
    (PSCS_Calculate realMath (weakCondition ℝ) (zeroSolution ℝ) 1 375).1.FW_flag = 1 ∧
      (PSCS_Calculate realMath (weakCondition ℝ) (zeroSolution ℝ) 1 375).1.id_ref = -18 ∧
      (PSCS_Calculate realMath (weakCondition ℝ) (zeroSolution ℝ) 1 375).1.iq_ref = 0 ∧
      (PSCS_Calculate realMath (weakCondition ℝ) (zeroSolution ℝ) 1 375).1.Ia_ref = 18 ∧
      (PSCS_Calculate realMath (weakCondition ℝ) (zeroSolution ℝ) 1 375).2 = 0 := by
  have hm : ¬ PSCS_mode_test (weakCondition ℝ)
      (PSCS_estimate (weakCondition ℝ) 1 (zeroSolution ℝ)) := by
    simp only [PSCS_mode_test, PSCS_estimate, weakCondition, roundMotor, PSCS_ABS,
      PSCS_MTPA_ID0_I_THRESHOLD, PSCS_MTPA_ID0_TORQUE_RATIO_THRESHOLD]
    norm_num
  obtain ⟨h1, -, -, -, h5, h6, -⟩ :=
    PSCS_select_id0 realMath (weakCondition ℝ) 1 375 (zeroSolution ℝ) hm
  have hflag : (PSCS_select realMath (weakCondition ℝ) 1 375 (zeroSolution ℝ)).1.FW_flag = 1 := by
    rw [h6, h5, if_pos]
    simp only [weakCondition, roundMotor, realMath, gt_iff_lt]
    rw [Real.lt_sqrt (by norm_num)]
    norm_num
  have hcalc := PSCS_Calculate_of_flag realMath (weakCondition ℝ) (zeroSolution ℝ) 1 375
    (by rw [hflag]; decide)
  obtain ⟨b1, b2, b3, b4, b5⟩ := weakCondition_fw_block
    (PSCS_select realMath (weakCondition ℝ) 1 375 (zeroSolution ℝ)).1 h1
  rw [hcalc]
  exact ⟨b1.trans hflag, b2, b3, b4, b5⟩

/-- The argument of `asinf` in the MTPA iteration has square at most `1/2`
when `Psi_a` is non-negative. -/
theorem mtpa_arg_sq_le (ψ d x : ℝ) (hψ : 0 ≤ ψ) :
    ((-ψ + Real.sqrt (ψ * ψ + 8 * d * d * x * x)) / (4 * d * x)) ^ 2 ≤ 1 / 2 := by
  by_cases hu : 4 * d * x = 0
  · rw [hu, div_zero]
    norm_num
  · have hrad : 0 ≤ ψ * ψ + 8 * d * d * x * x := by nlinarith [mul_self_nonneg (d * x)]
    have hR0 : 0 ≤ Real.sqrt (ψ * ψ + 8 * d * d * x * x) := Real.sqrt_nonneg _
    have hR2 : Real.sqrt (ψ * ψ + 8 * d * d * x * x) * Real.sqrt (ψ * ψ + 8 * d * d * x * x)
        = ψ * ψ + 8 * d * d * x * x := Real.mul_self_sqrt hrad
    have hRψ : ψ ≤ Real.sqrt (ψ * ψ + 8 * d * d * x * x) := by
      apply Real.le_sqrt_of_sq_le
      nlinarith [mul_self_nonneg (d * x)]
    have hpos : 0 < (4 * d * x) ^ 2 := by positivity
    rw [div_pow, div_le_iff₀ hpos]
    nlinarith [mul_nonneg hψ (sub_nonneg.mpr hRψ)]

/-- The product `d * x * s` of the saliency, the current and the `asinf`
argument is `(R - ψ) / 4`, where `R` is the square root in the argument. -/
theorem mtpa_arg_mul (ψ d x : ℝ) (hψ : 0 ≤ ψ) :
    d * x * ((-ψ + Real.sqrt (ψ * ψ + 8 * d * d * x * x)) / (4 * d * x))
      = (Real.sqrt (ψ * ψ + 8 * d * d * x * x) - ψ) / 4 := by
  by_cases hu : d * x = 0
  · have h1 : ψ * ψ + 8 * d * d * x * x = ψ * ψ := by
      have : 8 * d * d * x * x = 8 * (d * x) * (d * x) := by ring
      rw [this, hu]
      ring
    rw [h1, Real.sqrt_mul_self hψ, hu]
    ring
  · have hd : d ≠ 0 := fun h => hu (by rw [h, zero_mul])
    have hx : x ≠ 0 := fun h => hu (by rw [h, mul_zero])
    field_simp
    ring

/-- One MTPA iteration over the reals, for `Psi_a >= 0`: the new angle has
cosine `c` with `1/2 <= c^2 <= 1`, `c > 0`, the evaluated torque is
`(1/2) * Poles * Ia_ref * c * (3 * Psi_a + R) / 4` with
`R = sqrt (Psi_a^2 + 8 (Lq - Ld)^2 Ia_ref^2)`, and the new `Ia_ref` is the old
one times `torque_ref / torque_calc`. -/
theorem PSCS_mtpa_body_real (condition : PSCS_Condition_t ℝ) (torque_ref : ℝ)
    (s : PSCS_PMSM_Solutions_t ℝ) (hψ : 0 ≤ condition.pmsm.Psi_a) :
    ∃ c R : ℝ,
      c = Real.cos (PSCS_mtpa_body realMath condition torque_ref s).1.beta_ref ∧
        0 < c ∧ 1 / 2 ≤ c ^ 2 ∧ c ≤ 1 ∧
        0 ≤ R ∧
        R ^ 2 = condition.pmsm.Psi_a ^ 2
          + 8 * (condition.pmsm.Lq - condition.pmsm.Ld) ^ 2 * s.Ia_ref ^ 2 ∧
        (PSCS_mtpa_body realMath condition torque_ref s).2
          = (1 / 2) * condition.pmsm.Poles * s.Ia_ref * c * ((3 * condition.pmsm.Psi_a + R) / 4) ∧
        (PSCS_mtpa_body realMath condition torque_ref s).1.Ia_ref
          = s.Ia_ref * (torque_ref / (PSCS_mtpa_body realMath condition torque_ref s).2) := by
  have hsq := mtpa_arg_sq_le condition.pmsm.Psi_a (condition.pmsm.Lq - condition.pmsm.Ld)
    s.Ia_ref hψ
  have hmul := mtpa_arg_mul condition.pmsm.Psi_a (condition.pmsm.Lq - condition.pmsm.Ld)
    s.Ia_ref hψ
  set a := (-condition.pmsm.Psi_a + Real.sqrt (condition.pmsm.Psi_a * condition.pmsm.Psi_a
      + 8 * (condition.pmsm.Lq - condition.pmsm.Ld) * (condition.pmsm.Lq - condition.pmsm.Ld)
        * s.Ia_ref * s.Ia_ref)) / (4 * (condition.pmsm.Lq - condition.pmsm.Ld) * s.Ia_ref)
    with ha
  set R := Real.sqrt (condition.pmsm.Psi_a * condition.pmsm.Psi_a
      + 8 * (condition.pmsm.Lq - condition.pmsm.Ld) * (condition.pmsm.Lq - condition.pmsm.Ld)
        * s.Ia_ref * s.Ia_ref) with hR
  have hrad : 0 ≤ condition.pmsm.Psi_a * condition.pmsm.Psi_a
      + 8 * (condition.pmsm.Lq - condition.pmsm.Ld) * (condition.pmsm.Lq - condition.pmsm.Ld)
        * s.Ia_ref * s.Ia_ref := by
    nlinarith [mul_self_nonneg ((condition.pmsm.Lq - condition.pmsm.Ld) * s.Ia_ref),
      mul_self_nonneg condition.pmsm.Psi_a]
  have ha1 : a ^ 2 ≤ 1 := by linarith
  have habs : -1 ≤ a ∧ a ≤ 1 := abs_le.mp (by
    rw [← sq_le_one_iff_abs_le_one]
    exact ha1)
  have hsin : Real.sin (Real.arcsin a) = a := Real.sin_arcsin habs.1 habs.2
  have hcos : Real.cos (Real.arcsin a) = Real.sqrt (1 - a ^ 2) := Real.cos_arcsin a
  have hc2 : Real.sqrt (1 - a ^ 2) ^ 2 = 1 - a ^ 2 := Real.sq_sqrt (by linarith)
  have hc0 : 0 < Real.sqrt (1 - a ^ 2) := Real.sqrt_pos.mpr (by linarith)
  refine ⟨Real.sqrt (1 - a ^ 2), R, ?_, hc0, ?_, ?_, Real.sqrt_nonneg _, ?_, ?_, ?_⟩
  · simp only [PSCS_mtpa_body, realMath]
    exact hcos.symm
  · rw [hc2]
    linarith
  · rw [Real.sqrt_le_left (by norm_num)]
    nlinarith [sq_nonneg a]
  · rw [Real.sq_sqrt hrad]
    ring
  · simp only [PSCS_mtpa_body, realMath]
    rw [Real.sin_two_mul, hsin, hcos]
    have h3 : (condition.pmsm.Lq - condition.pmsm.Ld) * s.Ia_ref * a
        = (R - condition.pmsm.Psi_a) / 4 := hmul
    linear_combination ((1 : ℝ) / 2) * condition.pmsm.Poles * s.Ia_ref
      * Real.sqrt (1 - a ^ 2) * h3
  · simp only [PSCS_mtpa_body, realMath]

/-- With `Psi_a > 0`, `Poles > 0` and `torque_ref > 0` one MTPA iteration
keeps `Ia_ref` positive and gives an angle of positive cosine. -/
theorem PSCS_mtpa_body_pos (condition : PSCS_Condition_t ℝ) (torque_ref : ℝ)
    (s : PSCS_PMSM_Solutions_t ℝ) (hψ : 0 < condition.pmsm.Psi_a)
    (hP : 0 < condition.pmsm.Poles) (htr : 0 < torque_ref) (hI : 0 < s.Ia_ref) :
    0 < (PSCS_mtpa_body realMath condition torque_ref s).1.Ia_ref ∧
      0 < Real.cos (PSCS_mtpa_body realMath condition torque_ref s).1.beta_ref ∧
      0 < (PSCS_mtpa_body realMath condition torque_ref s).2 := by
  obtain ⟨c, R, hc, hc0, -, -, hR0, -, hT, hI'⟩ :=
    PSCS_mtpa_body_real condition torque_ref s (le_of_lt hψ)
  have hTpos : 0 < (PSCS_mtpa_body realMath condition torque_ref s).2 := by
    rw [hT]
    have h1 : 0 < (3 * condition.pmsm.Psi_a + R) / 4 := by linarith
    positivity
  refine ⟨?_, ?_, hTpos⟩
  · rw [hI']
    exact mul_pos hI (div_pos htr hTpos)
  · rw [← hc]
    exact hc0

/-- With `Psi_a > 0`, `Poles > 0` and `torque_ref > 0` the MTPA loop started
at a positive `Ia_ref` returns a positive `Ia_ref` and an angle of positive
cosine. -/
theorem PSCS_mtpa_loop_pos (condition : PSCS_Condition_t ℝ) (torque_ref : ℝ)
    (hψ : 0 < condition.pmsm.Psi_a) (hP : 0 < condition.pmsm.Poles) (htr : 0 < torque_ref) :
    ∀ (n iter : Nat) (s : PSCS_PMSM_Solutions_t ℝ), PSCS_MTPA_MAX_ITERATION - iter ≤ n →
      0 < s.Ia_ref →
      0 < (PSCS_mtpa_loop realMath condition torque_ref s iter).1.Ia_ref ∧
        0 < Real.cos (PSCS_mtpa_loop realMath condition torque_ref s iter).1.beta_ref := by
  intro n
  induction n with
  | zero =>
    intro iter s hn hI
    obtain ⟨b1, b2, -⟩ := PSCS_mtpa_body_pos condition torque_ref s hψ hP htr hI
    rw [PSCS_mtpa_loop]
    have hstop : ∀ t : ℝ, ¬ PSCS_mtpa_continue torque_ref t (iter + 1) := by
      intro t h
      have := h.1
      omega
    simp only [hstop, dite_false]
    exact ⟨b1, b2⟩
  | succ n ih =>
    intro iter s hn hI
    obtain ⟨b1, b2, -⟩ := PSCS_mtpa_body_pos condition torque_ref s hψ hP htr hI
    rw [PSCS_mtpa_loop]
    split_ifs with h
    · exact ih (iter + 1) _ (by have := h.1; omega) b1
    · exact ⟨b1, b2⟩

/-- Sign of `iq_ref` after the clamp: when `id_ref^2 < Ia_lim^2` and the
unclamped `iq_ref` has the sign of `torque_ref`, so has the clamped one. -/
theorem PSCS_fw_clamp_sign (condition : PSCS_Condition_t ℝ) (torque_ref : ℝ)
    (s : PSCS_PMSM_Solutions_t ℝ)
    (hlt : (PSCS_fw_clamp realMath condition torque_ref s).id_ref ^ 2 < condition.Ia_lim ^ 2)
    (hpos : 0 < torque_ref → 0 < s.iq_ref) (hneg : torque_ref < 0 → s.iq_ref < 0) :
    (0 < torque_ref → 0 < (PSCS_fw_clamp realMath condition torque_ref s).iq_ref) ∧
      (torque_ref < 0 → (PSCS_fw_clamp realMath condition torque_ref s).iq_ref < 0) := by
  rw [(PSCS_fw_clamp_frame realMath condition torque_ref s).1] at hlt
  unfold PSCS_fw_clamp
  simp only [realMath]
  split_ifs with h1 h2
  · have hs : 0 < Real.sqrt (condition.Ia_lim * condition.Ia_lim - s.id_ref * s.id_ref) :=
      Real.sqrt_pos.mpr (by linarith)
    constructor
    · intro ht
      have : PSCS_SIGN torque_ref = 1 := by
        unfold PSCS_SIGN
        rw [if_pos (le_of_lt ht)]
      simp only [this, one_mul]
      exact hs
    · intro ht
      have : PSCS_SIGN torque_ref = -1 := by
        unfold PSCS_SIGN
        rw [if_neg (not_le.mpr ht)]
      simp only [this]
      linarith
  · exfalso
    apply h2
    rw [sq, sq] at hlt
    exact hlt
  · exact ⟨hpos, hneg⟩

/-- At `w_ref = 1` the regime test of `flipCondition` selects the quadratic
formula for `iq_ref = 1` and `iq_ref = -1`, and the new `id_ref` is `5/4`. -/
theorem flipCondition_fw_id (q : ℝ) (hq : q * q = 1) :
    PSCS_fw_id realMath (flipCondition ℝ) 1 q = 5 / 4 := by
  have hq1 : q ≤ 1 := by nlinarith [sq_nonneg (q - 1)]
  have hs1 : Real.sqrt (1 / (1 * 1 * 1 * 1 + 0 * 0)) = 1 :=
    sqrt_eq_of_mul_self (by norm_num) (by norm_num)
  have hs2 : Real.sqrt (-1 * 1 * 2 * 2 * 1 * 1 * 1 * 1 * q * q + 1 * 1 * (5 / 2) * (5 / 2) * 1 * 1
      - 2 * 1 * 2 * 0 * 0 * 1 * 1 * q * q - 2 * 1 * 2 * 0 * (1 / 4) * 1 * 1 * 1 * q
      - 0 * 0 * 0 * 0 * q * q - 2 * 0 * 0 * 0 * (1 / 4) * 1 * q + 0 * 0 * (5 / 2) * (5 / 2)
      - 0 * 0 * (1 / 4) * (1 / 4) * 1 * 1) = 3 / 2 :=
    sqrt_eq_of_mul_self (by norm_num) (by nlinarith)
  simp only [PSCS_fw_id, flipCondition, realMath]
  rw [hs1, hs2]
  have hcond : (5 / 2 : ℝ) > (1 * 2 * 1 * 1 * q + 0 * 0 * q + 0 * (1 / 4) * 1) * 1 := by
    rw [gt_iff_lt]
    linarith
  rw [if_pos hcond]
  norm_num

/-- One flux-weakening iteration for `flipCondition`, `torque_ref = -1`,
`w_ref = 1`: `id_ref = 5/4` makes `Psi_a + (Ld - Lq) * id_ref = -1`, so the
torque equation gives `iq_ref = 1`; the clamp does not act. -/
theorem flipCondition_fw_body (s : PSCS_PMSM_Solutions_t ℝ) (hq : s.iq_ref * s.iq_ref = 1) :
    (PSCS_fw_body realMath (flipCondition ℝ) (-1) 1 s).id_ref = 5 / 4 ∧
      (PSCS_fw_body realMath (flipCondition ℝ) (-1) 1 s).iq_ref = 1 := by
  have hid := flipCondition_fw_id s.iq_ref hq
  unfold PSCS_fw_body PSCS_fw_clamp
  simp only [hid]
  simp only [flipCondition, realMath]
  have hle : ¬ Real.sqrt ((5 / 4 : ℝ) * (5 / 4)
      + 2 * (-1) / 2 / (1 / 4 + (1 - 2) * (5 / 4)) * (2 * (-1) / 2 / (1 / 4 + (1 - 2) * (5 / 4))))
        > 1000 := by
    rw [gt_iff_lt, not_lt, Real.sqrt_le_left (by norm_num)]
    norm_num
  simp only [hle, if_false]
  norm_num

/-- The flux-weakening loop for `flipCondition`, `torque_ref = -1`,
`w_ref = 1` started at `id_ref = 0` stops after two iterations. -/
theorem flipCondition_fw_loop (s : PSCS_PMSM_Solutions_t ℝ) (hq : s.iq_ref * s.iq_ref = 1)
    (hid : s.id_ref = 0) :
    (PSCS_fw_loop realMath (flipCondition ℝ) (-1) 1 s 0).1.id_ref = 5 / 4 ∧
      (PSCS_fw_loop realMath (flipCondition ℝ) (-1) 1 s 0).1.iq_ref = 1 ∧
      (PSCS_fw_loop realMath (flipCondition ℝ) (-1) 1 s 0).2 = 2 := by
  obtain ⟨b1, b2⟩ := flipCondition_fw_body s hq
  obtain ⟨c1, c2⟩ := flipCondition_fw_body (PSCS_fw_body realMath (flipCondition ℝ) (-1) 1 s)
    (by rw [b2]; norm_num)
  have hcont1 : PSCS_fw_continue (PSCS_fw_body realMath (flipCondition ℝ) (-1) 1 s).id_ref
      s.id_ref (0 + 1) := by
    rw [b1, hid]
    unfold PSCS_fw_continue PSCS_FW_MAX_ITERATION PSCS_ABS PSCS_FW_CONVERGENCE_THRESHOLD
    norm_num
  have hcont2 : ¬ PSCS_fw_continue
      (PSCS_fw_body realMath (flipCondition ℝ) (-1) 1
        (PSCS_fw_body realMath (flipCondition ℝ) (-1) 1 s)).id_ref
      (PSCS_fw_body realMath (flipCondition ℝ) (-1) 1 s).id_ref (0 + 1 + 1) := by
    rw [c1, b1]
    unfold PSCS_fw_continue PSCS_FW_MAX_ITERATION PSCS_ABS PSCS_FW_CONVERGENCE_THRESHOLD
    norm_num
  rw [PSCS_fw_loop]
  simp only [hcont1, dite_true]
  rw [PSCS_fw_loop]
  simp only [hcont2, dite_false]
  exact ⟨c1, c2, trivial⟩

/-- The call `PSCS_Calculate` for `flipCondition`, `torque_ref = -1`,
`w_ref = 1`: flux weakening is engaged and returns `id_ref = 5/4`,
`iq_ref = 1`, status `0`. -/
theorem flipCondition_calculate :
    (PSCS_Calculate realMath (flipCondition ℝ) (zeroSolution ℝ) (-1) 1).1.FW_flag = 1 ∧
      (PSCS_Calculate realMath (flipCondition ℝ) (zeroSolution ℝ) (-1) 1).1.id_ref = 5 / 4 ∧
      (PSCS_Calculate realMath (flipCondition ℝ) (zeroSolution ℝ) (-1) 1).1.iq_ref = 1 ∧
      (PSCS_Calculate realMath (flipCondition ℝ) (zeroSolution ℝ) (-1) 1).2 = 0 := by
  have hm : ¬ PSCS_mode_test (flipCondition ℝ)
      (PSCS_estimate (flipCondition ℝ) (-1) (zeroSolution ℝ)) := by
    simp only [PSCS_mode_test, PSCS_estimate, flipCondition, PSCS_ABS,
      PSCS_MTPA_ID0_I_THRESHOLD, PSCS_MTPA_ID0_TORQUE_RATIO_THRESHOLD]
    norm_num
  obtain ⟨h1, -, -, -, h5, h6, -⟩ :=
    PSCS_select_id0 realMath (flipCondition ℝ) (-1) 1 (zeroSolution ℝ) hm
  have hflag : (PSCS_select realMath (flipCondition ℝ) (-1) 1 (zeroSolution ℝ)).1.FW_flag = 1 := by
    rw [h6, h5, if_pos]
    simp only [flipCondition, realMath, gt_iff_lt]
    rw [Real.lt_sqrt (by norm_num)]
    norm_num
  have hcalc := PSCS_Calculate_of_flag realMath (flipCondition ℝ) (zeroSolution ℝ) (-1) 1
    (by rw [hflag]; decide)
  obtain ⟨l1, l2, l3⟩ := flipCondition_fw_loop
    { (PSCS_select realMath (flipCondition ℝ) (-1) 1 (zeroSolution ℝ)).1 with
      iq_ref := -1 / (flipCondition ℝ).pmsm.Poles * 2 }
    (by simp only [flipCondition]; norm_num) h1
  have hfl := PSCS_fw_loop_FW_flag realMath (flipCondition ℝ) (-1) 1 PSCS_FW_MAX_ITERATION 0
    { (PSCS_select realMath (flipCondition ℝ) (-1) 1 (zeroSolution ℝ)).1 with
      iq_ref := -1 / (flipCondition ℝ).pmsm.Poles * 2 } (by simp)
  rw [hcalc]
  refine ⟨?_, ?_, ?_, ?_⟩
  · simp only [PSCS_fw_block, PSCS_voltage]
    rw [hfl]
    exact hflag
  · simp only [PSCS_fw_block, PSCS_voltage]
    exact l1
  · simp only [PSCS_fw_block, PSCS_voltage]
    exact l2
  · simp only [PSCS_fw_block, PSCS_voltage]
    rw [l3]
    decide

/-- One MTPA iteration for `slowCondition`, `torque_ref = 1`, in the form
used for the bounds: torque `x * c * (3/1000 + R) / 4` with
`R^2 = 1/1000^2 + 8 x^2`, new current `x / torque`. -/
theorem slowCondition_body (s : PSCS_PMSM_Solutions_t ℝ) :
    ∃ c R : ℝ,
      c = Real.cos (PSCS_mtpa_body realMath (slowCondition ℝ) 1 s).1.beta_ref ∧
        0 < c ∧ 1 / 2 ≤ c ^ 2 ∧ c ≤ 1 ∧ 0 ≤ R ∧
        R ^ 2 = (1 / 1000) ^ 2 + 8 * s.Ia_ref ^ 2 ∧
        (PSCS_mtpa_body realMath (slowCondition ℝ) 1 s).2
          = s.Ia_ref * c * ((3 / 1000 + R) / 4) ∧
        (PSCS_mtpa_body realMath (slowCondition ℝ) 1 s).1.Ia_ref
          = s.Ia_ref / (PSCS_mtpa_body realMath (slowCondition ℝ) 1 s).2 := by
  obtain ⟨c, R, h1, h2, h3, h4, h5, h6, h7, h8⟩ :=
    PSCS_mtpa_body_real (slowCondition ℝ) 1 s (by simp only [slowCondition]; norm_num)
  refine ⟨c, R, h1, h2, h3, h4, h5, ?_, ?_, ?_⟩
  · rw [h6]
    simp only [slowCondition]
    norm_num
  · rw [h7]
    simp only [slowCondition]
    ring
  · rw [h8]
    ring

/-- A large current `x >= a > 0` gives a torque of at least `a^2 / 2` and a
next current in `(0, 2/a]`. -/
theorem slowCondition_large (s : PSCS_PMSM_Solutions_t ℝ) (a : ℝ) (ha : 0 < a)
    (hx : a ≤ s.Ia_ref) :
    a ^ 2 / 2 ≤ (PSCS_mtpa_body realMath (slowCondition ℝ) 1 s).2 ∧
      0 < (PSCS_mtpa_body realMath (slowCondition ℝ) 1 s).1.Ia_ref ∧
      (PSCS_mtpa_body realMath (slowCondition ℝ) 1 s).1.Ia_ref ≤ 2 / a := by
  obtain ⟨c, R, -, hc0, hc2, -, hR0, hR2, hT, hI⟩ := slowCondition_body s
  have hxpos : 0 < s.Ia_ref := lt_of_lt_of_le ha hx
  have hcR : 2 * s.Ia_ref ≤ c * R := by
    have h1 : (2 * s.Ia_ref) ^ 2 ≤ (c * R) ^ 2 := by
      have h2 : (c * R) ^ 2 = c ^ 2 * ((1 / 1000) ^ 2 + 8 * s.Ia_ref ^ 2) := by
        rw [mul_pow, hR2]
      rw [h2]
      nlinarith [sq_nonneg s.Ia_ref]
    exact abs_le_of_sq_le_sq' h1 (mul_nonneg (le_of_lt hc0) hR0) |>.2
  have hTlow : s.Ia_ref ^ 2 / 2 ≤ (PSCS_mtpa_body realMath (slowCondition ℝ) 1 s).2 := by
    rw [hT]
    nlinarith [mul_pos hxpos hc0]
  have hTpos : 0 < (PSCS_mtpa_body realMath (slowCondition ℝ) 1 s).2 := by
    nlinarith [sq_pos_of_pos hxpos]
  refine ⟨?_, ?_, ?_⟩
  · nlinarith
  · rw [hI]
    exact div_pos hxpos hTpos
  · rw [hI, div_le_div_iff₀ hTpos ha]
    nlinarith

/-- A small current `0 < x <= b` gives a torque in `(0, b (1/1000 + 3b/4)]`,
a next current of at least `1 / (1/1000 + 3b/4)` and an angle whose cosine
has square at least `1/2`. -/
theorem slowCondition_small (s : PSCS_PMSM_Solutions_t ℝ) (b : ℝ) (hx0 : 0 < s.Ia_ref)
    (hx : s.Ia_ref ≤ b) :
    0 < (PSCS_mtpa_body realMath (slowCondition ℝ) 1 s).2 ∧
      (PSCS_mtpa_body realMath (slowCondition ℝ) 1 s).2 ≤ b * (1 / 1000 + 3 * b / 4) ∧
      1 / (1 / 1000 + 3 * b / 4) ≤ (PSCS_mtpa_body realMath (slowCondition ℝ) 1 s).1.Ia_ref ∧
      0 < Real.cos (PSCS_mtpa_body realMath (slowCondition ℝ) 1 s).1.beta_ref ∧
      1 / 2 ≤ Real.cos (PSCS_mtpa_body realMath (slowCondition ℝ) 1 s).1.beta_ref ^ 2 := by
  obtain ⟨c, R, hc, hc0, hc2, hc1, hR0, hR2, hT, hI⟩ := slowCondition_body s
  have hb : 0 < b := lt_of_lt_of_le hx0 hx
  have hRup : R ≤ 1 / 1000 + 3 * s.Ia_ref := by
    have h1 : R ^ 2 ≤ (1 / 1000 + 3 * s.Ia_ref) ^ 2 := by
      rw [hR2]
      nlinarith
    exact (abs_le_of_sq_le_sq' h1 (by linarith)).2
  have hTpos : 0 < (PSCS_mtpa_body realMath (slowCondition ℝ) 1 s).2 := by
    rw [hT]
    have : 0 < (3 / 1000 + R) / 4 := by linarith
    positivity
  have hTup : (PSCS_mtpa_body realMath (slowCondition ℝ) 1 s).2
      ≤ s.Ia_ref * (1 / 1000 + 3 * s.Ia_ref / 4) := by
    rw [hT]
    have h1 : s.Ia_ref * c ≤ s.Ia_ref := by nlinarith
    have h2 : (3 / 1000 + R) / 4 ≤ 1 / 1000 + 3 * s.Ia_ref / 4 := by linarith
    have h3 : 0 ≤ (3 / 1000 + R) / 4 := by linarith
    calc s.Ia_ref * c * ((3 / 1000 + R) / 4)
        ≤ s.Ia_ref * ((3 / 1000 + R) / 4) := mul_le_mul_of_nonneg_right h1 h3
      _ ≤ s.Ia_ref * (1 / 1000 + 3 * s.Ia_ref / 4) :=
          mul_le_mul_of_nonneg_left h2 (le_of_lt hx0)
  have hden : 0 < 1 / 1000 + 3 * b / 4 := by linarith
  refine ⟨hTpos, ?_, ?_, ?_, ?_⟩
  · calc (PSCS_mtpa_body realMath (slowCondition ℝ) 1 s).2
        ≤ s.Ia_ref * (1 / 1000 + 3 * s.Ia_ref / 4) := hTup
      _ ≤ b * (1 / 1000 + 3 * b / 4) := by nlinarith
  · rw [hI, div_le_div_iff₀ hden hTpos]
    nlinarith
  · rw [← hc]
    exact hc0
  · rw [← hc]
    exact hc2

/-- The continuation test for `torque_ref = 1` below the cap: it holds when
the evaluated torque is at least 50 or at most 1/2 (and positive). -/
theorem slowCondition_continue (t : ℝ) (iter : Nat) (hi : iter < 10)
    (ht : 50 ≤ t ∨ t ≤ 1 / 2) : PSCS_mtpa_continue 1 t iter := by
  refine ⟨hi, ?_⟩
  rw [PSCS_ABS_eq_abs]
  unfold PSCS_MTPA_CONVERGENCE_THRESHOLD
  rw [div_one]
  rcases ht with h | h
  · rw [abs_of_nonneg (by linarith)]
    linarith
  · rw [abs_of_nonpos (by linarith)]
    linarith

/-- Two consecutive MTPA iterations for `slowCondition`, `torque_ref = 1`,
from a current of at least `a` with `10 <= a <= 1000`: both torques are far
from `1`, and the current after them is at least `a / (5/2)`. -/
theorem slowCondition_two_steps (s : PSCS_PMSM_Solutions_t ℝ) (a : ℝ) (ha : 10 ≤ a)
    (ha' : a ≤ 1000) (hx : a ≤ s.Ia_ref) :
    50 ≤ (PSCS_mtpa_body realMath (slowCondition ℝ) 1 s).2 ∧
      (PSCS_mtpa_body realMath (slowCondition ℝ) 1
        (PSCS_mtpa_body realMath (slowCondition ℝ) 1 s).1).2 ≤ 1 / 2 ∧
      a / (5 / 2) ≤ (PSCS_mtpa_body realMath (slowCondition ℝ) 1
        (PSCS_mtpa_body realMath (slowCondition ℝ) 1 s).1).1.Ia_ref ∧
      0 < Real.cos (PSCS_mtpa_body realMath (slowCondition ℝ) 1
        (PSCS_mtpa_body realMath (slowCondition ℝ) 1 s).1).1.beta_ref ∧
      1 / 2 ≤ Real.cos (PSCS_mtpa_body realMath (slowCondition ℝ) 1
        (PSCS_mtpa_body realMath (slowCondition ℝ) 1 s).1).1.beta_ref ^ 2 := by
  have hapos : 0 < a := by linarith
  obtain ⟨l1, l2, l3⟩ := slowCondition_large s a hapos hx
  obtain ⟨m1, m2, m3, m4, m5⟩ :=
    slowCondition_small (PSCS_mtpa_body realMath (slowCondition ℝ) 1 s).1 (2 / a) l2 l3
  have h2a : 2 / a ≤ 1 / 5 := by
    rw [div_le_div_iff₀ hapos (by norm_num)]
    linarith
  have h2a0 : 0 < 2 / a := by positivity
  refine ⟨?_, ?_, ?_, m4, m5⟩
  · nlinarith
  · calc (PSCS_mtpa_body realMath (slowCondition ℝ) 1
        (PSCS_mtpa_body realMath (slowCondition ℝ) 1 s).1).2
        ≤ 2 / a * (1 / 1000 + 3 * (2 / a) / 4) := m2
      _ ≤ 1 / 2 := by nlinarith
  · have hden : 0 < 1 / 1000 + 3 * (2 / a) / 4 := by positivity
    have : a / (5 / 2) ≤ 1 / (1 / 1000 + 3 * (2 / a) / 4) := by
      rw [div_le_div_iff₀ (by norm_num) hden]
      field_simp
      rw [div_le_iff₀ (by positivity)]
      nlinarith
    linarith

/-- The MTPA loop for `slowCondition`, `torque_ref = 1` started with
`2 (k+1)` iterations left and a current of at least `4 (5/2)^(k+1)` runs to
the cap of 10 iterations; the torque evaluated last is at most `1/2`, the
final current at least `4` and the final angle has cosine of square at
least `1/2`. -/
theorem slowCondition_mtpa_loop :
    ∀ (k iter : Nat) (s : PSCS_PMSM_Solutions_t ℝ), iter + 2 * (k + 1) = 10 →
      4 * (5 / 2 : ℝ) ^ (k + 1) ≤ s.Ia_ref →
      (PSCS_mtpa_loop realMath (slowCondition ℝ) 1 s iter).2.2 = 10 ∧
        (PSCS_mtpa_loop realMath (slowCondition ℝ) 1 s iter).2.1 ≤ 1 / 2 ∧
        4 ≤ (PSCS_mtpa_loop realMath (slowCondition ℝ) 1 s iter).1.Ia_ref ∧
        0 < Real.cos (PSCS_mtpa_loop realMath (slowCondition ℝ) 1 s iter).1.beta_ref ∧
        1 / 2 ≤ Real.cos (PSCS_mtpa_loop realMath (slowCondition ℝ) 1 s iter).1.beta_ref ^ 2 := by
  intro k
  induction k with
  | zero =>
    intro iter s hiter hx
    have hi : iter = 8 := by omega
    subst hi
    have hx' : (10 : ℝ) ≤ s.Ia_ref := by
      have : (4 : ℝ) * (5 / 2) ^ (0 + 1) = 10 := by norm_num
      linarith
    obtain ⟨t1, t2, t3, t4, t5⟩ := slowCondition_two_steps s 10 (le_refl _) (by norm_num) hx'
    have hc1 := slowCondition_continue (PSCS_mtpa_body realMath (slowCondition ℝ) 1 s).2 (8 + 1)
      (by norm_num) (Or.inl t1)
    have hc2 : ∀ t : ℝ, ¬ PSCS_mtpa_continue 1 t (8 + 1 + 1) := by
      intro t h
      have := h.1
      unfold PSCS_MTPA_MAX_ITERATION at this
      omega
    rw [PSCS_mtpa_loop]
    simp only [hc1, dite_true]
    rw [PSCS_mtpa_loop]
    simp only [hc2, dite_false]
    refine ⟨trivial, t2, ?_, t4, t5⟩
    have : (10 : ℝ) / (5 / 2) = 4 := by norm_num
    linarith
  | succ k ih =>
    intro iter s hiter hx
    have hk : k + 1 + 1 ≤ 5 := by omega
    have hpow : (5 / 2 : ℝ) ^ (k + 1 + 1) ≤ (5 / 2) ^ 5 :=
      pow_le_pow_right₀ (by norm_num) hk
    have hpow1 : (5 / 2 : ℝ) ^ 1 ≤ (5 / 2) ^ (k + 1 + 1) :=
      pow_le_pow_right₀ (by norm_num) (by omega)
    have ha : (10 : ℝ) ≤ 4 * (5 / 2) ^ (k + 1 + 1) := by
      norm_num at hpow1
      linarith
    have ha' : 4 * (5 / 2 : ℝ) ^ (k + 1 + 1) ≤ 1000 := by
      norm_num at hpow
      linarith
    obtain ⟨t1, t2, t3, -, -⟩ :=
      slowCondition_two_steps s (4 * (5 / 2 : ℝ) ^ (k + 1 + 1)) ha ha' hx
    have hc1 := slowCondition_continue (PSCS_mtpa_body realMath (slowCondition ℝ) 1 s).2
      (iter + 1) (by omega) (Or.inl t1)
    have hc2 := slowCondition_continue (PSCS_mtpa_body realMath (slowCondition ℝ) 1
      (PSCS_mtpa_body realMath (slowCondition ℝ) 1 s).1).2 (iter + 1 + 1) (by omega) (Or.inr t2)
    rw [PSCS_mtpa_loop]
    simp only [hc1, dite_true]
    rw [PSCS_mtpa_loop]
    simp only [hc2, dite_true]
    apply ih (iter + 1 + 1) _ (by omega)
    have : 4 * (5 / 2 : ℝ) ^ (k + 1 + 1) / (5 / 2) = 4 * (5 / 2) ^ (k + 1) := by
      rw [pow_succ (5 / 2 : ℝ) (k + 1)]
      field_simp
      ring
    linarith

/-- For `slowCondition` at `w_ref = 1` the regime test selects the linear
formula for every `iq_ref >= 1/2`, and the new `id_ref` is `-1/1000`. -/
theorem slowCondition_fw_id (q : ℝ) (hq : 1 / 2 ≤ q) :
    PSCS_fw_id realMath (slowCondition ℝ) 1 q = -(1 / 1000) := by
  have hs1 : Real.sqrt (1 / (1 * 1 * 1 * 1 + 0 * 0)) = 1 :=
    sqrt_eq_of_mul_self (by norm_num) (by norm_num)
  simp only [PSCS_fw_id, slowCondition, realMath]
  rw [hs1]
  have hcond : ¬ ((1 : ℝ) > (1 * 2 * 1 * 1 * q + 0 * 0 * q + 0 * (1 / 1000) * 1) * 1) := by
    rw [gt_iff_lt, not_lt]
    linarith
  rw [if_neg hcond]
  norm_num

/-- One flux-weakening iteration for `slowCondition`, `torque_ref = 1`,
`w_ref = 1` from `iq_ref >= 1/2`: `id_ref = -1/1000`, `iq_ref = 500`, no clamp. -/
theorem slowCondition_fw_body (s : PSCS_PMSM_Solutions_t ℝ) (hq : 1 / 2 ≤ s.iq_ref) :
    (PSCS_fw_body realMath (slowCondition ℝ) 1 1 s).id_ref = -(1 / 1000) ∧
      (PSCS_fw_body realMath (slowCondition ℝ) 1 1 s).iq_ref = 500 := by
  have hid := slowCondition_fw_id s.iq_ref hq
  unfold PSCS_fw_body PSCS_fw_clamp
  simp only [hid]
  simp only [slowCondition, realMath]
  have hle : ¬ Real.sqrt (-(1 / 1000 : ℝ) * -(1 / 1000)
      + 2 * 1 / 2 / (1 / 1000 + (1 - 2) * -(1 / 1000))
        * (2 * 1 / 2 / (1 / 1000 + (1 - 2) * -(1 / 1000)))) > 1000 := by
    rw [gt_iff_lt, not_lt, Real.sqrt_le_left (by norm_num)]
    norm_num
  simp only [hle, if_false]
  norm_num

/-- The flux-weakening loop for `slowCondition`, `torque_ref = 1`, `w_ref = 1`
from `iq_ref >= 1/2` stops after one or two iterations, whatever `id_ref` it
starts from. -/
theorem slowCondition_fw_loop (s : PSCS_PMSM_Solutions_t ℝ) (hq : 1 / 2 ≤ s.iq_ref) :
    (PSCS_fw_loop realMath (slowCondition ℝ) 1 1 s 0).2 = 1 ∨
      (PSCS_fw_loop realMath (slowCondition ℝ) 1 1 s 0).2 = 2 := by
  obtain ⟨b1, b2⟩ := slowCondition_fw_body s hq
  obtain ⟨c1, -⟩ := slowCondition_fw_body (PSCS_fw_body realMath (slowCondition ℝ) 1 1 s)
    (by rw [b2]; norm_num)
  have hcont2 : ¬ PSCS_fw_continue
      (PSCS_fw_body realMath (slowCondition ℝ) 1 1
        (PSCS_fw_body realMath (slowCondition ℝ) 1 1 s)).id_ref
      (PSCS_fw_body realMath (slowCondition ℝ) 1 1 s).id_ref (0 + 1 + 1) := by
    rw [c1, b1]
    unfold PSCS_fw_continue PSCS_FW_MAX_ITERATION PSCS_ABS PSCS_FW_CONVERGENCE_THRESHOLD
    norm_num
  rw [PSCS_fw_loop]
  split_ifs with h
  · right
    rw [PSCS_fw_loop]
    simp only [hcont2, dite_false]
  · left
    rfl

/-- The call for `slowCondition`, `torque_ref = 1`, `w_ref`: the MTPA branch
is taken, its loop ends at the cap of 10 iterations with the relative torque
error still above the threshold, and the error code after the branch is `-1`;
the returned `iq_ref` of the branch is at least `2`. -/
theorem slowCondition_select (w_ref : ℝ) :
    PSCS_mode_test (slowCondition ℝ) (PSCS_estimate (slowCondition ℝ) 1 (zeroSolution ℝ)) ∧
      (PSCS_mtpa_loop realMath (slowCondition ℝ) 1
        (PSCS_estimate (slowCondition ℝ) 1 (zeroSolution ℝ)) 0).2.2 = PSCS_MTPA_MAX_ITERATION ∧
      PSCS_ABS (((PSCS_mtpa_loop realMath (slowCondition ℝ) 1
        (PSCS_estimate (slowCondition ℝ) 1 (zeroSolution ℝ)) 0).2.1 - 1) / 1)
          > PSCS_MTPA_CONVERGENCE_THRESHOLD ∧
      (PSCS_select realMath (slowCondition ℝ) 1 w_ref (zeroSolution ℝ)).2 = -1 ∧
      2 ≤ (PSCS_select realMath (slowCondition ℝ) 1 w_ref (zeroSolution ℝ)).1.iq_ref ∧
      (PSCS_select realMath (slowCondition ℝ) 1 w_ref (zeroSolution ℝ)).1.Va_calc
        = Real.sqrt (
          ((slowCondition ℝ).pmsm.Rs
              * (PSCS_select realMath (slowCondition ℝ) 1 w_ref (zeroSolution ℝ)).1.id_ref
            - w_ref * (slowCondition ℝ).pmsm.Lq
              * (PSCS_select realMath (slowCondition ℝ) 1 w_ref (zeroSolution ℝ)).1.iq_ref) ^ 2
          + ((slowCondition ℝ).pmsm.Rs
              * (PSCS_select realMath (slowCondition ℝ) 1 w_ref (zeroSolution ℝ)).1.iq_ref
            + w_ref * (slowCondition ℝ).pmsm.Ld
              * (PSCS_select realMath (slowCondition ℝ) 1 w_ref (zeroSolution ℝ)).1.id_ref
            + w_ref * (slowCondition ℝ).pmsm.Psi_a) ^ 2) ∧
      (PSCS_select realMath (slowCondition ℝ) 1 w_ref (zeroSolution ℝ)).1.FW_flag
        = (if (PSCS_select realMath (slowCondition ℝ) 1 w_ref (zeroSolution ℝ)).1.Va_calc
            > (slowCondition ℝ).Va_lim then 1 else 0) := by
  have hm : PSCS_mode_test (slowCondition ℝ)
      (PSCS_estimate (slowCondition ℝ) 1 (zeroSolution ℝ)) := by
    simp only [PSCS_mode_test, PSCS_estimate, slowCondition, PSCS_ABS,
      PSCS_MTPA_ID0_I_THRESHOLD, PSCS_MTPA_ID0_TORQUE_RATIO_THRESHOLD]
    norm_num
  obtain ⟨l1, l2, l3, l4, l5⟩ := slowCondition_mtpa_loop 4 0
    (PSCS_estimate (slowCondition ℝ) 1 (zeroSolution ℝ)) (by norm_num) (by
      simp only [PSCS_estimate, slowCondition]
      norm_num)
  have hiq : 2 ≤ (PSCS_mtpa_loop realMath (slowCondition ℝ) 1
        (PSCS_estimate (slowCondition ℝ) 1 (zeroSolution ℝ)) 0).1.Ia_ref
      * Real.cos (PSCS_mtpa_loop realMath (slowCondition ℝ) 1
        (PSCS_estimate (slowCondition ℝ) 1 (zeroSolution ℝ)) 0).1.beta_ref := by
    have hc : 1 / 2 ≤ Real.cos (PSCS_mtpa_loop realMath (slowCondition ℝ) 1
        (PSCS_estimate (slowCondition ℝ) 1 (zeroSolution ℝ)) 0).1.beta_ref := by
      nlinarith
    nlinarith
  refine ⟨hm, l1, (slowCondition_continue _ 0 (by norm_num) (Or.inr l2)).2, ?_, ?_, ?_, ?_⟩
  · unfold PSCS_select
    simp only [hm, if_true, PSCS_mtpa_branch, l1]
    rfl
  · unfold PSCS_select
    simp only [hm, if_true, PSCS_mtpa_branch, PSCS_voltage, realMath]
    exact hiq
  · unfold PSCS_select
    simp only [hm, if_true, PSCS_mtpa_branch, PSCS_voltage, realMath, sq]
  · unfold PSCS_select
    simp only [hm, if_true, PSCS_mtpa_branch, PSCS_voltage, realMath]

/-- The call for `slowCondition`, `torque_ref = 1`, `w_ref = 1`: the
back-calculated voltage exceeds `Va_lim = 1`, flux weakening is engaged, its
loop stops after at most two iterations and the returned status is `0`. -/
theorem slowCondition_calculate :
    (PSCS_Calculate realMath (slowCondition ℝ) (zeroSolution ℝ) 1 1).1.FW_flag = 1 ∧
      (PSCS_Calculate realMath (slowCondition ℝ) (zeroSolution ℝ) 1 1).2 = 0 := by
  obtain ⟨-, -, -, -, hiq, hVa, hflag⟩ := slowCondition_select 1
  have hover : (PSCS_select realMath (slowCondition ℝ) 1 1 (zeroSolution ℝ)).1.Va_calc
      > (slowCondition ℝ).Va_lim := by
    have hRs : (slowCondition ℝ).pmsm.Rs = 0 := rfl
    have hLq : (slowCondition ℝ).pmsm.Lq = 2 := rfl
    have hVlim : (slowCondition ℝ).Va_lim = 1 := rfl
    rw [hVa, hRs, hLq, hVlim, gt_iff_lt, Real.lt_sqrt (by norm_num)]
    nlinarith [sq_nonneg (0 * (PSCS_select realMath (slowCondition ℝ) 1 1
        (zeroSolution ℝ)).1.iq_ref
      + 1 * (slowCondition ℝ).pmsm.Ld
        * (PSCS_select realMath (slowCondition ℝ) 1 1 (zeroSolution ℝ)).1.id_ref
      + 1 * (slowCondition ℝ).pmsm.Psi_a)]
  rw [if_pos hover] at hflag
  have hcalc := PSCS_Calculate_of_flag realMath (slowCondition ℝ) (zeroSolution ℝ) 1 1
    (by rw [hflag]; decide)
  have hfl := PSCS_fw_loop_FW_flag realMath (slowCondition ℝ) 1 1 PSCS_FW_MAX_ITERATION 0
    { (PSCS_select realMath (slowCondition ℝ) 1 1 (zeroSolution ℝ)).1 with
      iq_ref := 1 / (slowCondition ℝ).pmsm.Poles * 2 } (by simp)
  have hloop := slowCondition_fw_loop
    { (PSCS_select realMath (slowCondition ℝ) 1 1 (zeroSolution ℝ)).1 with
      iq_ref := 1 / (slowCondition ℝ).pmsm.Poles * 2 }
    (by simp only [slowCondition]; norm_num)
  rw [hcalc]
  constructor
  · simp only [PSCS_fw_block, PSCS_voltage]
    rw [hfl]
    exact hflag
  · simp only [PSCS_fw_block, PSCS_voltage]
    rcases hloop with h | h
    · rw [h]
      decide
    · rw [h]
      decide

/-- The call for `slowCondition`, `torque_ref = 1` at standstill
(`w_ref = 0`): the back-calculated voltage is `0`, flux weakening is not
engaged and the status is that of the MTPA loop, `-1`. -/
theorem slowCondition_standstill :
    (PSCS_Calculate realMath (slowCondition ℝ) (zeroSolution ℝ) 1 0).1.FW_flag = 0 ∧
      (PSCS_Calculate realMath (slowCondition ℝ) (zeroSolution ℝ) 1 0).2 = -1 := by
  obtain ⟨-, -, -, herr, -, hVa, hflag⟩ := slowCondition_select 0
  have hover : ¬ (PSCS_select realMath (slowCondition ℝ) 1 0 (zeroSolution ℝ)).1.Va_calc
      > (slowCondition ℝ).Va_lim := by
    have hRs : (slowCondition ℝ).pmsm.Rs = 0 := rfl
    have hVlim : (slowCondition ℝ).Va_lim = 1 := rfl
    rw [hVa, hRs, hVlim, gt_iff_lt, not_lt, Real.sqrt_le_left (by norm_num)]
    norm_num
  rw [if_neg hover] at hflag
  unfold PSCS_Calculate
  simp only [hflag, ne_eq, not_true_eq_false, if_false]
  exact ⟨trivial, herr⟩

/-- One MTPA iteration over the reals with the angle made explicit, for
`Psi_a >= 0`: with `R = sqrt (Psi_a^2 + 8 (Lq - Ld)^2 Ia_ref^2)` the new angle
`beta` satisfies `(Lq - Ld) * Ia_ref * sin beta = (R - Psi_a) / 4` and
`cos beta > 0`, and the evaluated torque is
`(1/2) * Poles * Ia_ref * cos beta * (3 * Psi_a + R) / 4`. -/
theorem PSCS_mtpa_body_angle (condition : PSCS_Condition_t ℝ) (torque_ref : ℝ)
    (s : PSCS_PMSM_Solutions_t ℝ) (hψ : 0 ≤ condition.pmsm.Psi_a) :
    (condition.pmsm.Lq - condition.pmsm.Ld) * s.Ia_ref
        * Real.sin (PSCS_mtpa_body realMath condition torque_ref s).1.beta_ref
      = (Real.sqrt (condition.pmsm.Psi_a * condition.pmsm.Psi_a
          + 8 * (condition.pmsm.Lq - condition.pmsm.Ld) * (condition.pmsm.Lq - condition.pmsm.Ld)
            * s.Ia_ref * s.Ia_ref) - condition.pmsm.Psi_a) / 4 ∧
      0 < Real.cos (PSCS_mtpa_body realMath condition torque_ref s).1.beta_ref ∧
      (PSCS_mtpa_body realMath condition torque_ref s).2
        = (1 / 2) * condition.pmsm.Poles * s.Ia_ref
          * Real.cos (PSCS_mtpa_body realMath condition torque_ref s).1.beta_ref
          * ((3 * condition.pmsm.Psi_a + Real.sqrt (condition.pmsm.Psi_a * condition.pmsm.Psi_a
            + 8 * (condition.pmsm.Lq - condition.pmsm.Ld) * (condition.pmsm.Lq - condition.pmsm.Ld)
              * s.Ia_ref * s.Ia_ref)) / 4) ∧
      (PSCS_mtpa_body realMath condition torque_ref s).1.Ia_ref
        = s.Ia_ref * (torque_ref / (PSCS_mtpa_body realMath condition torque_ref s).2) := by
  have hsq := mtpa_arg_sq_le condition.pmsm.Psi_a (condition.pmsm.Lq - condition.pmsm.Ld)
    s.Ia_ref hψ
  have hmul := mtpa_arg_mul condition.pmsm.Psi_a (condition.pmsm.Lq - condition.pmsm.Ld)
    s.Ia_ref hψ
  set a := (-condition.pmsm.Psi_a + Real.sqrt (condition.pmsm.Psi_a * condition.pmsm.Psi_a
      + 8 * (condition.pmsm.Lq - condition.pmsm.Ld) * (condition.pmsm.Lq - condition.pmsm.Ld)
        * s.Ia_ref * s.Ia_ref)) / (4 * (condition.pmsm.Lq - condition.pmsm.Ld) * s.Ia_ref)
    with ha
  have ha1 : a ^ 2 ≤ 1 := by linarith
  have habs : -1 ≤ a ∧ a ≤ 1 := abs_le.mp (by
    rw [← sq_le_one_iff_abs_le_one]
    exact ha1)
  have hsin : Real.sin (Real.arcsin a) = a := Real.sin_arcsin habs.1 habs.2
  have hcos : Real.cos (Real.arcsin a) = Real.sqrt (1 - a ^ 2) := Real.cos_arcsin a
  have hc0 : 0 < Real.sqrt (1 - a ^ 2) := Real.sqrt_pos.mpr (by linarith)
  have hbeta : (PSCS_mtpa_body realMath condition torque_ref s).1.beta_ref = Real.arcsin a := by
    simp only [PSCS_mtpa_body, realMath]
  refine ⟨?_, ?_, ?_, ?_⟩
  · rw [hbeta, hsin]
    exact hmul
  · rw [hbeta, hcos]
    exact hc0
  · rw [hbeta]
    simp only [PSCS_mtpa_body, realMath]
    rw [Real.sin_two_mul, hsin]
    linear_combination ((1 : ℝ) / 2) * condition.pmsm.Poles * s.Ia_ref
      * Real.cos (Real.arcsin a) * hmul
  · simp only [PSCS_mtpa_body, realMath]

/-- The MTPA iteration of the scenario `salientCondition`, `torque_ref = 0.3`
from the step-1 estimate `Ia_ref = 3`: the evaluated torque lies in
`[0.3001, 0.3012]`, the new angle has positive sine and cosine, and the new
`Ia_ref` is `3 * (0.3 / torque)`. -/
theorem salientCondition_body (s : PSCS_PMSM_Solutions_t ℝ) (hx : s.Ia_ref = 3) :
    3001 / 10000 ≤ (PSCS_mtpa_body realMath (salientCondition ℝ) (3 / 10) s).2 ∧
      (PSCS_mtpa_body realMath (salientCondition ℝ) (3 / 10) s).2 ≤ 3012 / 10000 ∧
      0 < Real.sin (PSCS_mtpa_body realMath (salientCondition ℝ) (3 / 10) s).1.beta_ref ∧
      0 < Real.cos (PSCS_mtpa_body realMath (salientCondition ℝ) (3 / 10) s).1.beta_ref ∧
      (PSCS_mtpa_body realMath (salientCondition ℝ) (3 / 10) s).1.Ia_ref
        = 3 * ((3 / 10) / (PSCS_mtpa_body realMath (salientCondition ℝ) (3 / 10) s).2) := by
  obtain ⟨h1, h2, h3, h4⟩ := PSCS_mtpa_body_angle (salientCondition ℝ) (3 / 10) s
    (by simp only [salientCondition, salientMotor]; norm_num)
  have hψ : (salientCondition ℝ).pmsm.Psi_a = 1 / 20 := rfl
  have hLq : (salientCondition ℝ).pmsm.Lq = 2 / 1000 := rfl
  have hLd : (salientCondition ℝ).pmsm.Ld = 1 / 1000 := rfl
  have hP : (salientCondition ℝ).pmsm.Poles = 4 := rfl
  rw [hψ, hLq, hLd, hx] at h1 h3
  rw [hP] at h3
  rw [hx] at h4
  have hrad : (1 / 20 : ℝ) * (1 / 20) + 8 * (2 / 1000 - 1 / 1000) * (2 / 1000 - 1 / 1000) * 3 * 3
      = 2572 / 1000000 := by norm_num
  rw [hrad] at h1 h3
  have hR0 : 0 ≤ Real.sqrt (2572 / 1000000) := Real.sqrt_nonneg _
  have hRlo : 507 / 10000 ≤ Real.sqrt (2572 / 1000000) := by
    apply Real.le_sqrt_of_sq_le
    norm_num
  have hRhi : Real.sqrt (2572 / 1000000) ≤ 508 / 10000 := by
    rw [Real.sqrt_le_left (by norm_num)]
    norm_num
  set R := Real.sqrt (2572 / 1000000) with hR
  set sb := Real.sin (PSCS_mtpa_body realMath (salientCondition ℝ) (3 / 10) s).1.beta_ref with hsb
  set cb := Real.cos (PSCS_mtpa_body realMath (salientCondition ℝ) (3 / 10) s).1.beta_ref with hcb
  have hsc : sb ^ 2 + cb ^ 2 = 1 := Real.sin_sq_add_cos_sq _
  have hsb1 : sb = (R - 1 / 20) / 4 * (1000 / 3) := by linarith
  have hsblo : 58 / 1000 ≤ sb := by rw [hsb1]; linarith
  have hsbhi : sb ≤ 67 / 1000 := by rw [hsb1]; linarith
  have hcb1 : cb ≤ 1 := Real.cos_le_one _
  have hcblo : 997 / 1000 ≤ cb := by
    by_contra hlt
    have hlt' := not_le.mp hlt
    nlinarith
  refine ⟨?_, ?_, by linarith, h2, h4⟩
  · rw [h3]
    nlinarith
  · rw [h3]
    nlinarith

/-- The voltage of the scenario `salientCondition`, `w_ref = 200` for currents
`-3 <= id < 0 < iq <= 3` is within `Va_lim = 24`. -/
theorem salientCondition_voltage (i_d i_q : ℝ) (h1 : -3 ≤ i_d) (h2 : i_d < 0) (h3 : 0 < i_q)
    (h4 : i_q ≤ 3) :
    (1 / 2 * i_d - 200 * (2 / 1000) * i_q) * (1 / 2 * i_d - 200 * (2 / 1000) * i_q)
      + (1 / 2 * i_q + 200 * (1 / 1000) * i_d + 200 * (1 / 20))
        * (1 / 2 * i_q + 200 * (1 / 1000) * i_d + 200 * (1 / 20)) ≤ (24 : ℝ) ^ 2 := by
  have hvd1 : -3 ≤ 1 / 2 * i_d - 200 * (2 / 1000) * i_q := by linarith
  have hvd2 : 1 / 2 * i_d - 200 * (2 / 1000) * i_q ≤ 0 := by linarith
  have hvq1 : 0 ≤ 1 / 2 * i_q + 200 * (1 / 1000) * i_d + 200 * (1 / 20) := by linarith
  have hvq2 : 1 / 2 * i_q + 200 * (1 / 1000) * i_d + 200 * (1 / 20) ≤ 12 := by linarith
  have e1 : (1 / 2 * i_d - 200 * (2 / 1000) * i_q) * (1 / 2 * i_d - 200 * (2 / 1000) * i_q)
      ≤ 9 := by nlinarith
  have e2 : (1 / 2 * i_q + 200 * (1 / 1000) * i_d + 200 * (1 / 20))
      * (1 / 2 * i_q + 200 * (1 / 1000) * i_d + 200 * (1 / 20)) ≤ 144 := by nlinarith
  norm_num at e1 e2 ⊢
  linarith

/-- The scenario call up to line 77 (`salientCondition`, `torque_ref = 0.3`,
`w_ref = 200`): the mode test is true, the MTPA loop stops after its first
iteration, the branch returns error code `0`, a negative `id_ref`, an
`Ia_ref` in `[2.97, 3)`, and the voltage stays below `Va_lim = 24`. -/
theorem salientCondition_select :
    PSCS_mode_test (salientCondition ℝ)
        (PSCS_estimate (salientCondition ℝ) (3 / 10) (zeroSolution ℝ)) ∧
      (PSCS_mtpa_loop realMath (salientCondition ℝ) (3 / 10)
        (PSCS_estimate (salientCondition ℝ) (3 / 10) (zeroSolution ℝ)) 0).2.2 = 1 ∧
      (PSCS_select realMath (salientCondition ℝ) (3 / 10) 200 (zeroSolution ℝ)).2 = 0 ∧
      (PSCS_select realMath (salientCondition ℝ) (3 / 10) 200 (zeroSolution ℝ)).1.id_ref < 0 ∧
      297 / 100 ≤ (PSCS_select realMath (salientCondition ℝ) (3 / 10) 200
        (zeroSolution ℝ)).1.Ia_ref ∧
      (PSCS_select realMath (salientCondition ℝ) (3 / 10) 200 (zeroSolution ℝ)).1.Ia_ref < 3 ∧
      (PSCS_select realMath (salientCondition ℝ) (3 / 10) 200 (zeroSolution ℝ)).1.FW_flag = 0 := by
  have hm : PSCS_mode_test (salientCondition ℝ)
      (PSCS_estimate (salientCondition ℝ) (3 / 10) (zeroSolution ℝ)) := by
    simp only [PSCS_mode_test, PSCS_estimate, salientCondition, salientMotor, PSCS_ABS,
      PSCS_MTPA_ID0_I_THRESHOLD, PSCS_MTPA_ID0_TORQUE_RATIO_THRESHOLD]
    norm_num
  have hx : (PSCS_estimate (salientCondition ℝ) (3 / 10) (zeroSolution ℝ)).Ia_ref = 3 := by
    simp only [PSCS_estimate, salientCondition, salientMotor]
    norm_num
  obtain ⟨b1, b2, b3, b4, b5⟩ := salientCondition_body
    (PSCS_estimate (salientCondition ℝ) (3 / 10) (zeroSolution ℝ)) hx
  have hstop : ¬ PSCS_mtpa_continue (3 / 10 : ℝ)
      (PSCS_mtpa_body realMath (salientCondition ℝ) (3 / 10)
        (PSCS_estimate (salientCondition ℝ) (3 / 10) (zeroSolution ℝ))).2 (0 + 1) := by
    intro h
    have h2 := h.2
    rw [PSCS_ABS_eq_abs] at h2
    unfold PSCS_MTPA_CONVERGENCE_THRESHOLD at h2
    rw [abs_div, abs_of_pos (by norm_num : (0 : ℝ) < 3 / 10),
      abs_of_nonneg (by linarith), gt_iff_lt, lt_div_iff₀ (by norm_num)] at h2
    linarith
  have hloop : PSCS_mtpa_loop realMath (salientCondition ℝ) (3 / 10)
      (PSCS_estimate (salientCondition ℝ) (3 / 10) (zeroSolution ℝ)) 0
      = ((PSCS_mtpa_body realMath (salientCondition ℝ) (3 / 10)
          (PSCS_estimate (salientCondition ℝ) (3 / 10) (zeroSolution ℝ))).1,
        (PSCS_mtpa_body realMath (salientCondition ℝ) (3 / 10)
          (PSCS_estimate (salientCondition ℝ) (3 / 10) (zeroSolution ℝ))).2, 0 + 1) := by
    rw [PSCS_mtpa_loop]
    simp only [hstop, dite_false]
  set B := PSCS_mtpa_body realMath (salientCondition ℝ) (3 / 10)
    (PSCS_estimate (salientCondition ℝ) (3 / 10) (zeroSolution ℝ)) with hB
  have hTpos : 0 < B.2 := by linarith
  have hIlo : 297 / 100 ≤ B.1.Ia_ref := by
    rw [b5, ← mul_div_assoc, le_div_iff₀ hTpos]
    linarith
  have hIhi : B.1.Ia_ref < 3 := by
    rw [b5, ← mul_div_assoc, div_lt_iff₀ hTpos]
    linarith
  have hs1 : Real.sin B.1.beta_ref ≤ 1 := Real.sin_le_one _
  have hc1 : Real.cos B.1.beta_ref ≤ 1 := Real.cos_le_one _
  have hid : -B.1.Ia_ref * Real.sin B.1.beta_ref < 0 := by
    have : 0 < B.1.Ia_ref * Real.sin B.1.beta_ref := mul_pos (by linarith) b3
    linarith
  have hidlo : -3 ≤ -B.1.Ia_ref * Real.sin B.1.beta_ref := by nlinarith
  have hiq0 : 0 < B.1.Ia_ref * Real.cos B.1.beta_ref := mul_pos (by linarith) b4
  have hiqhi : B.1.Ia_ref * Real.cos B.1.beta_ref ≤ 3 := by nlinarith
  have hRs : (salientCondition ℝ).pmsm.Rs = 1 / 2 := rfl
  have hLq : (salientCondition ℝ).pmsm.Lq = 2 / 1000 := rfl
  have hLd : (salientCondition ℝ).pmsm.Ld = 1 / 1000 := rfl
  have hψ : (salientCondition ℝ).pmsm.Psi_a = 1 / 20 := rfl
  have hVa : (salientCondition ℝ).Va_lim = 24 := rfl
  obtain ⟨e1, e2, e3, e4, e5, e6, e7⟩ :=
    PSCS_select_mtpa realMath (salientCondition ℝ) (3 / 10) 200 (zeroSolution ℝ) hm
  rw [hloop] at e1 e2 e7
  simp only [] at e1 e2 e7
  rw [e1, e2] at e3 e4
  have e3' : (PSCS_select realMath (salientCondition ℝ) (3 / 10) 200 (zeroSolution ℝ)).1.id_ref
      = -B.1.Ia_ref * Real.sin B.1.beta_ref := e3
  have e4' : (PSCS_select realMath (salientCondition ℝ) (3 / 10) 200 (zeroSolution ℝ)).1.iq_ref
      = B.1.Ia_ref * Real.cos B.1.beta_ref := e4
  rw [e3', e4'] at e5
  have e5' : (PSCS_select realMath (salientCondition ℝ) (3 / 10) 200 (zeroSolution ℝ)).1.Va_calc
      = Real.sqrt (
        ((salientCondition ℝ).pmsm.Rs * (-B.1.Ia_ref * Real.sin B.1.beta_ref)
          - 200 * (salientCondition ℝ).pmsm.Lq * (B.1.Ia_ref * Real.cos B.1.beta_ref))
        * ((salientCondition ℝ).pmsm.Rs * (-B.1.Ia_ref * Real.sin B.1.beta_ref)
          - 200 * (salientCondition ℝ).pmsm.Lq * (B.1.Ia_ref * Real.cos B.1.beta_ref))
        + ((salientCondition ℝ).pmsm.Rs * (B.1.Ia_ref * Real.cos B.1.beta_ref)
          + 200 * (salientCondition ℝ).pmsm.Ld * (-B.1.Ia_ref * Real.sin B.1.beta_ref)
          + 200 * (salientCondition ℝ).pmsm.Psi_a)
        * ((salientCondition ℝ).pmsm.Rs * (B.1.Ia_ref * Real.cos B.1.beta_ref)
          + 200 * (salientCondition ℝ).pmsm.Ld * (-B.1.Ia_ref * Real.sin B.1.beta_ref)
          + 200 * (salientCondition ℝ).pmsm.Psi_a)) := e5
  refine ⟨hm, ?_, ?_, ?_, ?_, ?_, ?_⟩
  · rw [hloop]
  · rw [e7]
    decide
  · rw [e3']
    exact hid
  · rw [e1]
    exact hIlo
  · rw [e1]
    exact hIhi
  · rw [e6, e5', hRs, hLq, hLd, hψ, hVa, if_neg]
    rw [gt_iff_lt, not_lt, Real.sqrt_le_left (by norm_num)]
    exact salientCondition_voltage _ _ hidlo hid hiq0 hiqhi

/-- Without flux weakening both branches return currents and polar pair in
the convention `id_ref = -Ia_ref*sin(beta_ref)`, `iq_ref = Ia_ref*cos(beta_ref)`. -/
theorem PSCS_Calculate_noFW_polar (condition : PSCS_Condition_t ℝ)
    (solution : PSCS_PMSM_Solutions_t ℝ) (torque_ref w_ref : ℝ)
    (hfw : (PSCS_Calculate realMath condition solution torque_ref w_ref).1.FW_flag = 0) :
    (PSCS_Calculate realMath condition solution torque_ref w_ref).1.id_ref
        = -(PSCS_Calculate realMath condition solution torque_ref w_ref).1.Ia_ref
          * Real.sin (PSCS_Calculate realMath condition solution torque_ref w_ref).1.beta_ref ∧
      (PSCS_Calculate realMath condition solution torque_ref w_ref).1.iq_ref
        = (PSCS_Calculate realMath condition solution torque_ref w_ref).1.Ia_ref
          * Real.cos (PSCS_Calculate realMath condition solution torque_ref w_ref).1.beta_ref := by
  obtain ⟨-, hcalc⟩ := PSCS_Calculate_noFW realMath condition solution torque_ref w_ref hfw
  rw [hcalc]
  by_cases hm : PSCS_mode_test condition (PSCS_estimate condition torque_ref solution)
  · obtain ⟨-, -, h3, h4, -⟩ := PSCS_select_mtpa realMath condition torque_ref w_ref solution hm
    exact ⟨h3, h4⟩
  · obtain ⟨h1, h2, h3, h4, -⟩ := PSCS_select_id0 realMath condition torque_ref w_ref solution hm
    rw [h1, h2, h3, h4, Real.sin_zero, Real.cos_zero]
    constructor <;> ring

/-- The angle returned by the call for `weakCondition`, `torque_ref = 1`,
`w_ref = 375` is `atan2(0, 18) = 0`. -/
theorem weakCondition_beta :
    (PSCS_Calculate realMath (weakCondition ℝ) (zeroSolution ℝ) 1 375).1.beta_ref = 0 := by
  obtain ⟨h1, h2, h3, -, -⟩ := weakCondition_calculate
  have hfw : (PSCS_Calculate realMath (weakCondition ℝ) (zeroSolution ℝ) 1 375).1.FW_flag ≠ 0 := by
    rw [h1]
    decide
  obtain ⟨-, hcalc⟩ := PSCS_Calculate_fw realMath (weakCondition ℝ) (zeroSolution ℝ) 1 375 hfw
  have hb := PSCS_fw_block_beta realMath (weakCondition ℝ) 1 375
    (PSCS_select realMath (weakCondition ℝ) 1 375 (zeroSolution ℝ)).1
  rw [← hcalc] at hb
  rw [hb, h2, h3, neg_neg]
  exact Complex.arg_ofReal_of_nonneg (by norm_num : (0 : ℝ) ≤ 18)

/-- The quadratic formula of the flux-weakening iteration gives the largest
root in `x` of the voltage-circle equation. -/
theorem fw_quadratic_root (Rs Ld Lq ψ Va w q rad : ℝ)
    (hA : 0 < Ld * Ld * w * w + Rs * Rs) (hrad : 0 ≤ rad)
    (hdef : rad = (Ld * Ld * w * w + Rs * Rs) * (Va * Va)
        - (Ld * Lq * w * w * q + Rs * Rs * q + Rs * ψ * w) ^ 2) :
    (Rs * (((-w) * (Ld * Rs * q + Ld * ψ * w - Lq * Rs * q) + Real.sqrt rad)
            / (Ld * Ld * w * w + Rs * Rs)) - w * Lq * q) ^ 2
        + (Rs * q + w * Ld * (((-w) * (Ld * Rs * q + Ld * ψ * w - Lq * Rs * q) + Real.sqrt rad)
            / (Ld * Ld * w * w + Rs * Rs)) + w * ψ) ^ 2 = Va ^ 2 ∧
      ∀ y : ℝ, (Rs * y - w * Lq * q) ^ 2 + (Rs * q + w * Ld * y + w * ψ) ^ 2 = Va ^ 2 →
        y ≤ ((-w) * (Ld * Rs * q + Ld * ψ * w - Lq * Rs * q) + Real.sqrt rad)
            / (Ld * Ld * w * w + Rs * Rs) := by
  have hr0 : 0 ≤ Real.sqrt rad := Real.sqrt_nonneg rad
  have hr2 : Real.sqrt rad * Real.sqrt rad = rad := Real.mul_self_sqrt hrad
  have key : ∀ y : ℝ, (Ld * Ld * w * w + Rs * Rs)
      * ((Rs * y - w * Lq * q) ^ 2 + (Rs * q + w * Ld * y + w * ψ) ^ 2 - Va ^ 2)
      = ((Ld * Ld * w * w + Rs * Rs) * y + w * (Ld * Rs * q + Ld * ψ * w - Lq * Rs * q)) ^ 2
        - rad := by
    intro y
    rw [hdef]
    ring
  have hx : (Ld * Ld * w * w + Rs * Rs)
      * (((-w) * (Ld * Rs * q + Ld * ψ * w - Lq * Rs * q) + Real.sqrt rad)
          / (Ld * Ld * w * w + Rs * Rs))
      = (-w) * (Ld * Rs * q + Ld * ψ * w - Lq * Rs * q) + Real.sqrt rad :=
    mul_div_cancel₀ _ (ne_of_gt hA)
  constructor
  · have h := key (((-w) * (Ld * Rs * q + Ld * ψ * w - Lq * Rs * q) + Real.sqrt rad)
      / (Ld * Ld * w * w + Rs * Rs))
    rw [hx] at h
    have h0 : (Ld * Ld * w * w + Rs * Rs)
        * ((Rs * (((-w) * (Ld * Rs * q + Ld * ψ * w - Lq * Rs * q) + Real.sqrt rad)
            / (Ld * Ld * w * w + Rs * Rs)) - w * Lq * q) ^ 2
          + (Rs * q + w * Ld * (((-w) * (Ld * Rs * q + Ld * ψ * w - Lq * Rs * q) + Real.sqrt rad)
            / (Ld * Ld * w * w + Rs * Rs)) + w * ψ) ^ 2 - Va ^ 2) = 0 := by
      rw [h]
      nlinarith
    rcases mul_eq_zero.mp h0 with h1 | h1
    · exact absurd h1 (ne_of_gt hA)
    · linarith
  · intro y hy
    have h := key y
    rw [hy, sub_self, mul_zero] at h
    rw [le_div_iff₀ hA]
    have hsq : ((Ld * Ld * w * w + Rs * Rs) * y
        + w * (Ld * Rs * q + Ld * ψ * w - Lq * Rs * q)) ^ 2 = Real.sqrt rad ^ 2 := by
      rw [sq (Real.sqrt rad), hr2]
      linarith
    have hle := abs_le_of_sq_le_sq (le_of_eq hsq) hr0
    have := (abs_le.mp hle).2
    linarith


/-- With a non-negative left factor of the threshold, a true regime test
makes the radicand of the quadratic formula positive. -/
theorem PSCS_fw_radicand_pos (condition : PSCS_Condition_t ℝ) (w_ref iq_ref : ℝ)
    (hA : 0 < condition.pmsm.Ld * condition.pmsm.Ld * w_ref * w_ref
      + condition.pmsm.Rs * condition.pmsm.Rs)
    (hK : 0 ≤ condition.pmsm.Ld * condition.pmsm.Lq * w_ref * w_ref * iq_ref
      + condition.pmsm.Rs * condition.pmsm.Rs * iq_ref
      + condition.pmsm.Rs * condition.pmsm.Psi_a * w_ref)
    (htest : PSCS_fw_regime_test realMath condition w_ref iq_ref) :
    0 < PSCS_fw_radicand condition w_ref iq_ref := by
  rw [PSCS_fw_radicand_eq]
  have ht : condition.Va_lim
      > (condition.pmsm.Ld * condition.pmsm.Lq * w_ref * w_ref * iq_ref
          + condition.pmsm.Rs * condition.pmsm.Rs * iq_ref
          + condition.pmsm.Rs * condition.pmsm.Psi_a * w_ref)
        * Real.sqrt (1 / (condition.pmsm.Ld * condition.pmsm.Ld * w_ref * w_ref
          + condition.pmsm.Rs * condition.pmsm.Rs)) := htest
  have hinv : 0 ≤ 1 / (condition.pmsm.Ld * condition.pmsm.Ld * w_ref * w_ref
      + condition.pmsm.Rs * condition.pmsm.Rs) := le_of_lt (one_div_pos.mpr hA)
  have ht0 := Real.sqrt_nonneg (1 / (condition.pmsm.Ld * condition.pmsm.Ld * w_ref * w_ref
      + condition.pmsm.Rs * condition.pmsm.Rs))
  have ht2 := Real.mul_self_sqrt hinv
  generalize Real.sqrt (1 / (condition.pmsm.Ld * condition.pmsm.Ld * w_ref * w_ref
      + condition.pmsm.Rs * condition.pmsm.Rs)) = t at ht ht0 ht2
  generalize condition.pmsm.Ld * condition.pmsm.Lq * w_ref * w_ref * iq_ref
      + condition.pmsm.Rs * condition.pmsm.Rs * iq_ref
      + condition.pmsm.Rs * condition.pmsm.Psi_a * w_ref = K at ht hK ⊢
  generalize condition.pmsm.Ld * condition.pmsm.Ld * w_ref * w_ref
      + condition.pmsm.Rs * condition.pmsm.Rs = A at hA ht2 hinv ⊢
  have hKt : 0 ≤ K * t := mul_nonneg hK ht0
  have hAt : A * (t * t) = 1 := by
    rw [ht2]
    field_simp
  have h1 : (K * t) * (K * t) < condition.Va_lim * condition.Va_lim :=
    mul_self_lt_mul_self hKt ht
  have h2 : A * ((K * t) * (K * t)) < A * (condition.Va_lim * condition.Va_lim) :=
    mul_lt_mul_of_pos_left h1 hA
  have h3 : A * ((K * t) * (K * t)) = K ^ 2 := by
    have : A * ((K * t) * (K * t)) = K ^ 2 * (A * (t * t)) := by ring
    rw [this, hAt, mul_one]
  linarith

/-- What the clamp does when the unclamped magnitude exceeds a non-negative
limit: either `id_ref^2 < Ia_lim^2`, the magnitude becomes exactly `Ia_lim`
and `iq_ref` gets the sign `PSCS_SIGN(torque_ref)`, or `id_ref^2 >= Ia_lim^2`
and `iq_ref` becomes zero. -/
theorem PSCS_fw_clamp_cases (condition : PSCS_Condition_t ℝ) (torque_ref : ℝ)
    (s : PSCS_PMSM_Solutions_t ℝ) (hIa : 0 ≤ condition.Ia_lim)
    (hc : Real.sqrt (s.id_ref ^ 2 + s.iq_ref ^ 2) > condition.Ia_lim) :
    (s.id_ref ^ 2 < condition.Ia_lim ^ 2 ∧
        Real.sqrt ((PSCS_fw_clamp realMath condition torque_ref s).id_ref ^ 2
          + (PSCS_fw_clamp realMath condition torque_ref s).iq_ref ^ 2) = condition.Ia_lim ∧
        (0 ≤ torque_ref → 0 < (PSCS_fw_clamp realMath condition torque_ref s).iq_ref) ∧
        (torque_ref < 0 → (PSCS_fw_clamp realMath condition torque_ref s).iq_ref < 0)) ∨
      (condition.Ia_lim ^ 2 ≤ s.id_ref ^ 2 ∧
        (PSCS_fw_clamp realMath condition torque_ref s).iq_ref = 0) := by
  have hc' : Real.sqrt (s.id_ref * s.id_ref + s.iq_ref * s.iq_ref) > condition.Ia_lim := by
    rw [← sq, ← sq]
    exact hc
  unfold PSCS_fw_clamp
  simp only [realMath, hc', if_true]
  by_cases hlt : condition.Ia_lim * condition.Ia_lim > s.id_ref * s.id_ref
  · left
    simp only [hlt, if_true]
    have hnn : 0 < condition.Ia_lim * condition.Ia_lim - s.id_ref * s.id_ref := by linarith
    have hs : 0 < Real.sqrt (condition.Ia_lim * condition.Ia_lim - s.id_ref * s.id_ref) :=
      Real.sqrt_pos.mpr hnn
    have hsign : PSCS_SIGN torque_ref ^ 2 = 1 := by
      unfold PSCS_SIGN
      split_ifs <;> norm_num
    have hsum : s.id_ref ^ 2 + (PSCS_SIGN torque_ref
        * Real.sqrt (condition.Ia_lim * condition.Ia_lim - s.id_ref * s.id_ref)) ^ 2
        = condition.Ia_lim * condition.Ia_lim := by
      rw [mul_pow, hsign, Real.sq_sqrt (le_of_lt hnn)]
      ring
    refine ⟨by rw [sq, sq]; exact hlt, ?_, ?_, ?_⟩
    · rw [hsum, Real.sqrt_mul_self hIa]
    · intro ht
      have : PSCS_SIGN torque_ref = 1 := by
        unfold PSCS_SIGN
        rw [if_pos ht]
      rw [this, one_mul]
      exact hs
    · intro ht
      have : PSCS_SIGN torque_ref = -1 := by
        unfold PSCS_SIGN
        rw [if_neg (not_le.mpr ht)]
      rw [this]
      linarith
  · right
    simp only [hlt, if_false]
    refine ⟨?_, trivial⟩
    rw [sq, sq]
    exact not_lt.mp hlt

/-- With `Psi_a > 0`, `Poles > 0` and `torque_ref != 0` one MTPA iteration
started at a non-zero `Ia_ref` evaluates a non-zero torque and leaves a
non-zero `Ia_ref`. -/
theorem PSCS_mtpa_body_ne_zero (condition : PSCS_Condition_t ℝ) (torque_ref : ℝ)
    (s : PSCS_PMSM_Solutions_t ℝ) (hψ : 0 < condition.pmsm.Psi_a)
    (hP : 0 < condition.pmsm.Poles) (htr : torque_ref ≠ 0) (hI : s.Ia_ref ≠ 0) :
    (PSCS_mtpa_body realMath condition torque_ref s).2 ≠ 0 ∧
      (PSCS_mtpa_body realMath condition torque_ref s).1.Ia_ref ≠ 0 := by
  obtain ⟨c, R, -, hc0, -, -, hR0, -, hT, hI'⟩ :=
    PSCS_mtpa_body_real condition torque_ref s (le_of_lt hψ)
  have hT0 : (PSCS_mtpa_body realMath condition torque_ref s).2 ≠ 0 := by
    rw [hT]
    have h1 : (3 * condition.pmsm.Psi_a + R) / 4 ≠ 0 := ne_of_gt (by linarith)
    have h2 : (1 / 2 : ℝ) * condition.pmsm.Poles ≠ 0 := ne_of_gt (by linarith)
    exact mul_ne_zero (mul_ne_zero (mul_ne_zero h2 hI) (ne_of_gt hc0)) h1
  refine ⟨hT0, ?_⟩
  rw [hI']
  exact mul_ne_zero hI (div_ne_zero htr hT0)

/-- With `Psi_a > 0`, `Poles > 0` and `torque_ref != 0` every iterate of the
MTPA loop started at a non-zero `Ia_ref` has a non-zero `Ia_ref`. -/
theorem PSCS_mtpa_state_ne_zero (condition : PSCS_Condition_t ℝ) (torque_ref : ℝ)
    (s : PSCS_PMSM_Solutions_t ℝ) (hψ : 0 < condition.pmsm.Psi_a)
    (hP : 0 < condition.pmsm.Poles) (htr : torque_ref ≠ 0) (hI : s.Ia_ref ≠ 0) :
    ∀ k : Nat, (PSCS_mtpa_state realMath condition torque_ref s k).Ia_ref ≠ 0 := by
  intro k
  induction k with
  | zero => exact hI
  | succ k ih => exact (PSCS_mtpa_body_ne_zero condition torque_ref _ hψ hP htr ih).2

/-- A real number whose square is at most `1/2` has absolute value at most
`1/sqrt 2`, lies in `[-1, 1]`, and its arcsine lies in `[-pi/4, pi/4]`. -/
theorem arcsin_of_sq_le_half (a : ℝ) (h : a ^ 2 ≤ 1 / 2) :
    |a| ≤ 1 / Real.sqrt 2 ∧ -1 ≤ a ∧ a ≤ 1 ∧
      -(Real.pi / 4) ≤ Real.arcsin a ∧ Real.arcsin a ≤ Real.pi / 4 := by
  have h2 : (0 : ℝ) < Real.sqrt 2 := Real.sqrt_pos.mpr (by norm_num)
  have h22 : Real.sqrt 2 * Real.sqrt 2 = 2 := Real.mul_self_sqrt (by norm_num)
  have hhalf : 1 / Real.sqrt 2 = Real.sqrt 2 / 2 := by
    field_simp
  have habs : |a| ≤ 1 / Real.sqrt 2 := by
    have hsq : a ^ 2 ≤ (1 / Real.sqrt 2) ^ 2 := by
      rw [div_pow, one_pow, Real.sq_sqrt (by norm_num)]
      exact h
    exact abs_le_of_sq_le_sq hsq (le_of_lt (one_div_pos.mpr h2))
  have hlt : 1 / Real.sqrt 2 ≤ 1 := by
    rw [hhalf]
    nlinarith
  obtain ⟨hl, hu⟩ := abs_le.mp habs
  have hpi := Real.pi_pos
  refine ⟨habs, by linarith, by linarith, ?_, ?_⟩
  · rw [Real.le_arcsin_iff_sin_le ⟨by linarith, by linarith⟩ ⟨by linarith, by linarith⟩,
      Real.sin_neg, Real.sin_pi_div_four]
    linarith
  · rw [Real.arcsin_le_iff_le_sin ⟨by linarith, by linarith⟩ ⟨by linarith, by linarith⟩,
      Real.sin_pi_div_four]
    linarith

/-- For `flipCondition`, `torque_ref = -2`, `w_ref = 1` the first
flux-weakening iteration starts with `iq_ref = -2`, selects the quadratic
formula and has the radicand `-39/4`: the run is outside the domain. -/
theorem flipCondition_not_defined (s : PSCS_PMSM_Solutions_t ℝ) :
    PSCS_fw_regime_test realMath (flipCondition ℝ) 1 (-2) ∧
      PSCS_fw_radicand (flipCondition ℝ) 1 (-2) = -39 / 4 ∧
      ¬ PSCS_fw_defined realMath (flipCondition ℝ) (-2) 1 s := by
  have hs1 : Real.sqrt (1 / (1 * 1 * 1 * 1 + 0 * 0)) = 1 :=
    sqrt_eq_of_mul_self (by norm_num) (by norm_num)
  have htest : PSCS_fw_regime_test realMath (flipCondition ℝ) 1 (-2) := by
    simp only [PSCS_fw_regime_test, flipCondition, realMath]
    rw [hs1]
    norm_num
  have hrad : PSCS_fw_radicand (flipCondition ℝ) 1 (-2) = -39 / 4 := by
    simp only [PSCS_fw_radicand, flipCondition]
    norm_num
  refine ⟨htest, hrad, fun hdef => ?_⟩
  obtain ⟨-, -, hpos, -⟩ := PSCS_fw_loop_exit realMath (flipCondition ℝ) (-2) 1
    PSCS_FW_MAX_ITERATION 0
    { s with iq_ref := (-2 : ℝ) / (flipCondition ℝ).pmsm.Poles * 2 } (by simp)
  have h0 := (hdef 0 hpos).2.2.1
  have hseed : (PSCS_fw_state realMath (flipCondition ℝ) (-2) 1
      { s with iq_ref := (-2 : ℝ) / (flipCondition ℝ).pmsm.Poles * 2 } 0).iq_ref = -2 := by
    simp only [PSCS_fw_state, flipCondition]
    norm_num
  rw [hseed] at h0
  have := h0 htest
  rw [hrad] at this
  norm_num at this

/-- Every flux-weakening iteration for `weakCondition` at `w_ref = 375`
entered with a non-negative `iq_ref` is inside the domain: the linear formula
is selected and the new `id_ref` is `-18`. -/
theorem weakCondition_step_defined (s : PSCS_PMSM_Solutions_t ℝ) (hq : 0 ≤ s.iq_ref) :
    PSCS_fw_step_defined realMath (weakCondition ℝ) 375 s := by
  have hid := weakCondition_fw_id s.iq_ref hq
  have hs : Real.sqrt (1 / (1 / 1000 * (1 / 1000) * 375 * 375 + 1 / 2 * (1 / 2))) = 8 / 5 :=
    sqrt_eq_of_mul_self (by norm_num) (by norm_num)
  have htest : ¬ PSCS_fw_regime_test realMath (weakCondition ℝ) 375 s.iq_ref := by
    simp only [PSCS_fw_regime_test, weakCondition, roundMotor, realMath]
    rw [hs, gt_iff_lt, not_lt]
    nlinarith
  refine ⟨?_, ?_, fun h => absurd h htest, ?_, ?_⟩
  · simp only [weakCondition, roundMotor]
    norm_num
  · simp only [weakCondition, roundMotor]
    norm_num
  · rw [hid]
    simp only [weakCondition, roundMotor]
    norm_num
  · rw [hid]
    norm_num

/-- The flux-weakening run for `weakCondition`, `torque_ref = 1`,
`w_ref = 375` from `id_ref = 0` is inside the domain. -/
theorem weakCondition_fw_defined (s : PSCS_PMSM_Solutions_t ℝ) (hid : s.id_ref = 0) :
    PSCS_fw_defined realMath (weakCondition ℝ) 1 375 s := by
  have hq0 : (0 : ℝ) ≤ ({ s with iq_ref := (1 : ℝ) / (weakCondition ℝ).pmsm.Poles * 2 } :
      PSCS_PMSM_Solutions_t ℝ).iq_ref := by
    simp only [weakCondition, roundMotor]
    norm_num
  obtain ⟨-, -, l3⟩ := weakCondition_fw_loop
    { s with iq_ref := 1 / (weakCondition ℝ).pmsm.Poles * 2 } hq0 hid
  intro k hk
  rw [l3] at hk
  have hk' : k = 0 ∨ k = 1 := by omega
  rcases hk' with rfl | rfl
  · exact weakCondition_step_defined _ hq0
  · apply weakCondition_step_defined
    have := (weakCondition_fw_body
      { s with iq_ref := 1 / (weakCondition ℝ).pmsm.Poles * 2 } hq0).2
    exact le_of_eq this.symm


/-- What the clamp guarantees for a call in which flux weakening is engaged
and whose flux-weakening run is inside the domain (`PSCS_fw_defined`), with
`Ia_lim >= 0`, in exact arithmetic: the returned `Ia_ref` is
`sqrt(id_ref^2 + iq_ref^2)` and is at most `max(Ia_lim, |id_ref|)`; if the
magnitude before the clamp of the last iteration exceeded `Ia_lim`, then
either `id_ref^2 < Ia_lim^2`, the magnitude is exactly `Ia_lim` and `iq_ref`
has the sign `PSCS_SIGN(torque_ref)`, or `id_ref^2 >= Ia_lim^2` and
`iq_ref = 0`. -/
theorem PSCS_Calculate_fw_clamp (condition : PSCS_Condition_t ℝ)
    (solution : PSCS_PMSM_Solutions_t ℝ) (torque_ref w_ref : ℝ)
    (hIa : 0 ≤ condition.Ia_lim)
    (hfw : (PSCS_Calculate realMath condition solution torque_ref w_ref).1.FW_flag ≠ 0)
    (_hdef : PSCS_fw_defined realMath condition torque_ref w_ref
      (PSCS_select realMath condition torque_ref w_ref solution).1) :
    (PSCS_Calculate realMath condition solution torque_ref w_ref).1.Ia_ref
        = Real.sqrt ((PSCS_Calculate realMath condition solution torque_ref w_ref).1.id_ref ^ 2
          + (PSCS_Calculate realMath condition solution torque_ref w_ref).1.iq_ref ^ 2) ∧
      (PSCS_Calculate realMath condition solution torque_ref w_ref).1.Ia_ref
        ≤ max condition.Ia_lim
            |(PSCS_Calculate realMath condition solution torque_ref w_ref).1.id_ref| ∧
      (Real.sqrt ((PSCS_Calculate realMath condition solution torque_ref w_ref).1.id_ref ^ 2
          + (2 * torque_ref / condition.pmsm.Poles
              / (condition.pmsm.Psi_a + (condition.pmsm.Ld - condition.pmsm.Lq)
                * (PSCS_Calculate realMath condition solution torque_ref w_ref).1.id_ref)) ^ 2)
          > condition.Ia_lim →
        ((PSCS_Calculate realMath condition solution torque_ref w_ref).1.id_ref ^ 2
            < condition.Ia_lim ^ 2 ∧
          Real.sqrt ((PSCS_Calculate realMath condition solution torque_ref w_ref).1.id_ref ^ 2
            + (PSCS_Calculate realMath condition solution torque_ref w_ref).1.iq_ref ^ 2)
              = condition.Ia_lim ∧
          (0 ≤ torque_ref →
            0 < (PSCS_Calculate realMath condition solution torque_ref w_ref).1.iq_ref) ∧
          (torque_ref < 0 →
            (PSCS_Calculate realMath condition solution torque_ref w_ref).1.iq_ref < 0)) ∨
        (condition.Ia_lim ^ 2
            ≤ (PSCS_Calculate realMath condition solution torque_ref w_ref).1.id_ref ^ 2 ∧
          (PSCS_Calculate realMath condition solution torque_ref w_ref).1.iq_ref = 0)) := by
  obtain ⟨-, hcalc⟩ := PSCS_Calculate_fw realMath condition solution torque_ref w_ref hfw
  obtain ⟨s2, h1, h2, h3, h4⟩ := PSCS_fw_block_currents realMath condition torque_ref w_ref
    (PSCS_select realMath condition torque_ref w_ref solution).1
  obtain ⟨c1, c2⟩ := PSCS_fw_clamp_bound condition torque_ref s2 hIa
  have hid := (PSCS_fw_clamp_frame realMath condition torque_ref s2).1
  have hIaref : (PSCS_fw_block realMath condition torque_ref w_ref
        (PSCS_select realMath condition torque_ref w_ref solution).1).1.Ia_ref
      = Real.sqrt ((PSCS_fw_clamp realMath condition torque_ref s2).id_ref ^ 2
          + (PSCS_fw_clamp realMath condition torque_ref s2).iq_ref ^ 2) := by
    rw [h3, h1, h2]
    rfl
  rw [hcalc, hIaref, h1, h2]
  refine ⟨rfl, ?_, ?_⟩
  · by_cases hle : |(PSCS_fw_clamp realMath condition torque_ref s2).id_ref| ≤ condition.Ia_lim
    · exact le_trans (c1 hle) (le_max_left _ _)
    · rw [(c2 (not_le.mp hle)).2]
      exact le_max_right _ _
  · intro hc
    rw [hid, ← h4] at hc
    have := PSCS_fw_clamp_cases condition torque_ref s2 hIa hc
    rw [hid]
    rw [hid] at this
    exact this

end RealLemmas

end PSCS

namespace PSCS

section GenericClaims

variable {α : Type} [LinearOrderedField α]

/-- C7: whichever branch produced the result (MTPA, id=0 or flux weakening),
the returned voltages are the steady-state voltages of the returned currents:
`vd_calc = Rs*id_ref - w_ref*Lq*iq_ref`,
`vq_calc = Rs*iq_ref + w_ref*Ld*id_ref + w_ref*Psi_a` and
`Va_calc = sqrtf (vd_calc^2 + vq_calc^2)`.  It holds for any math library. -/
theorem C7_voltage_back_calculation (M : MathFns α) (condition : PSCS_Condition_t α)
    (solution : PSCS_PMSM_Solutions_t α) (torque_ref w_ref : α) :
    let r := (PSCS_Calculate M condition solution torque_ref w_ref).1
    r.vd_calc = condition.pmsm.Rs * r.id_ref - w_ref * condition.pmsm.Lq * r.iq_ref ∧
      r.vq_calc = condition.pmsm.Rs * r.iq_ref + w_ref * condition.pmsm.Ld * r.id_ref
        + w_ref * condition.pmsm.Psi_a ∧
      r.Va_calc = M.sqrtf (r.vd_calc ^ 2 + r.vq_calc ^ 2) := by
  intro r
  have hr : r = (PSCS_Calculate M condition solution torque_ref w_ref).1 := rfl
  clear_value r
  subst hr
  unfold PSCS_Calculate
  simp only []
  split_ifs with hfw
  · simp [PSCS_fw_block, PSCS_voltage, sq]
  · unfold PSCS_select
    simp only []
    split_ifs with hm
    · simp [PSCS_mtpa_branch, PSCS_voltage, sq]
    · simp [PSCS_id0_branch, sq]

/-- C8: `PSCS_Calculate` fully overwrites the solution record: the same
`(condition, torque_ref, w_ref)` give the same solution and status for any two
initial contents of the record, hence a second call on the buffer the first
call filled returns the same solution and status.  The condition and the motor
parameters are read-only inputs of the embedding, as in the source, which
never writes through `condition`. -/
theorem C8_overwrites_solution (M : MathFns α) (condition : PSCS_Condition_t α)
    (solution solution' : PSCS_PMSM_Solutions_t α) (torque_ref w_ref : α) :
    PSCS_Calculate M condition solution torque_ref w_ref
        = PSCS_Calculate M condition solution' torque_ref w_ref ∧
      PSCS_Calculate M condition
          (PSCS_Calculate M condition solution torque_ref w_ref).1 torque_ref w_ref
        = PSCS_Calculate M condition solution torque_ref w_ref := by
  have key : ∀ s s' : PSCS_PMSM_Solutions_t α,
      PSCS_Calculate M condition s torque_ref w_ref
        = PSCS_Calculate M condition s' torque_ref w_ref := by
    intro s s'
    unfold PSCS_Calculate
    rw [PSCS_select_congr M condition torque_ref w_ref s s']
  exact ⟨key _ _, key _ _⟩

/-- C9: for limits of either sign `PSCS_Init` binds the motor parameters,
stores `|Va_lim|` and `|Ia_lim|` (both non-negative) and sets `Kc_mtpa = 1`;
`PSCS_PMSM_Params_Init` stores `Rs, Ld, Lq, Psi_a, Poles` unchanged. -/
theorem C9_init (condition : PSCS_Condition_t α) (motor_params params : PSCS_PMSM_Params_t α)
    (Va_lim Ia_lim Rs Ld Lq Psi_a Poles : α) :
    (PSCS_Init condition motor_params Va_lim Ia_lim).pmsm = motor_params ∧
      (PSCS_Init condition motor_params Va_lim Ia_lim).Va_lim = |Va_lim| ∧
      (PSCS_Init condition motor_params Va_lim Ia_lim).Ia_lim = |Ia_lim| ∧
      0 ≤ (PSCS_Init condition motor_params Va_lim Ia_lim).Va_lim ∧
      0 ≤ (PSCS_Init condition motor_params Va_lim Ia_lim).Ia_lim ∧
      (PSCS_Init condition motor_params Va_lim Ia_lim).Kc_mtpa = 1 ∧
      PSCS_PMSM_Params_Init params Rs Ld Lq Psi_a Poles
        = { Rs := Rs, Ld := Ld, Lq := Lq, Psi_a := Psi_a, Poles := Poles } := by
  simp [PSCS_Init, PSCS_PMSM_Params_Init, PSCS_ABS_eq_abs]

end GenericClaims

end PSCS

namespace PSCS

section BranchClaims

variable {α : Type} [LinearOrderedField α]

/-- C3: when the mode-selection test is false and the back-calculated voltage
of the id=0 solution does not exceed `Va_lim`, the result is exactly
`id_ref = 0`, `iq_ref = Ia_ref = torque_ref / (Psi_a * Poles / 2)`,
`beta_ref = 0`, `FW_flag = 0` and status `0`; `Kc_mtpa` does not occur in
these values. -/
theorem C3_id0_exact (M : MathFns α) (condition : PSCS_Condition_t α)
    (solution : PSCS_PMSM_Solutions_t α) (torque_ref w_ref : α)
    (hmode : ¬ PSCS_mode_test condition (PSCS_estimate condition torque_ref solution))
    (hva : ¬ M.sqrtf ((w_ref * condition.pmsm.Lq
              * (torque_ref / (condition.pmsm.Psi_a * condition.pmsm.Poles / 2))) ^ 2
            + (condition.pmsm.Rs * (torque_ref / (condition.pmsm.Psi_a * condition.pmsm.Poles / 2))
              + w_ref * condition.pmsm.Psi_a) ^ 2) > condition.Va_lim) :
    (PSCS_Calculate M condition solution torque_ref w_ref).1.id_ref = 0 ∧
      (PSCS_Calculate M condition solution torque_ref w_ref).1.iq_ref
        = torque_ref / (condition.pmsm.Psi_a * condition.pmsm.Poles / 2) ∧
      (PSCS_Calculate M condition solution torque_ref w_ref).1.Ia_ref
        = torque_ref / (condition.pmsm.Psi_a * condition.pmsm.Poles / 2) ∧
      (PSCS_Calculate M condition solution torque_ref w_ref).1.beta_ref = 0 ∧
      (PSCS_Calculate M condition solution torque_ref w_ref).1.FW_flag = 0 ∧
      (PSCS_Calculate M condition solution torque_ref w_ref).2 = 0 := by
  exact PSCS_Calculate_id0 M condition solution torque_ref w_ref hmode hva

/-- C4: when the mode-selection test is false, `FW_flag` is set (to `1`)
exactly when the voltage magnitude of the id=0 solution exceeds `Va_lim`; in
that case the call returns what the flux-weakening block computes from the
id=0 state, and otherwise it returns the id=0 state itself with status `0`. -/
theorem C4_fw_flag_id0 (M : MathFns α) (condition : PSCS_Condition_t α)
    (solution : PSCS_PMSM_Solutions_t α) (torque_ref w_ref : α)
    (hmode : ¬ PSCS_mode_test condition (PSCS_estimate condition torque_ref solution)) :
    let iq0 := torque_ref / (condition.pmsm.Psi_a * condition.pmsm.Poles / 2)
    let Va0 := M.sqrtf ((w_ref * condition.pmsm.Lq * iq0) ^ 2
      + (condition.pmsm.Rs * iq0 + w_ref * condition.pmsm.Psi_a) ^ 2)
    ((PSCS_Calculate M condition solution torque_ref w_ref).1.FW_flag ≠ 0
        ↔ Va0 > condition.Va_lim) ∧
      ((PSCS_Calculate M condition solution torque_ref w_ref).1.FW_flag = 1
        ↔ Va0 > condition.Va_lim) ∧
      (Va0 > condition.Va_lim →
        PSCS_Calculate M condition solution torque_ref w_ref
          = PSCS_fw_block M condition torque_ref w_ref
              (PSCS_select M condition torque_ref w_ref solution).1) ∧
      (¬ Va0 > condition.Va_lim →
        PSCS_Calculate M condition solution torque_ref w_ref
            = PSCS_select M condition torque_ref w_ref solution ∧
          (PSCS_Calculate M condition solution torque_ref w_ref).1.id_ref = 0 ∧
          (PSCS_Calculate M condition solution torque_ref w_ref).1.iq_ref = iq0 ∧
          (PSCS_Calculate M condition solution torque_ref w_ref).2 = 0) := by
  intro iq0 Va0
  obtain ⟨h1, h2, h3, h4, h5, h6, h7⟩ :=
    PSCS_select_id0 M condition torque_ref w_ref solution hmode
  have hVa : (PSCS_select M condition torque_ref w_ref solution).1.Va_calc = Va0 := h5
  rw [hVa] at h6
  by_cases hover : Va0 > condition.Va_lim
  · have hflag : (PSCS_select M condition torque_ref w_ref solution).1.FW_flag = 1 := by
      rw [h6, if_pos hover]
    have hcalc : PSCS_Calculate M condition solution torque_ref w_ref
        = PSCS_fw_block M condition torque_ref w_ref
            (PSCS_select M condition torque_ref w_ref solution).1 := by
      unfold PSCS_Calculate
      simp [hflag]
    have hout : (PSCS_Calculate M condition solution torque_ref w_ref).1.FW_flag = 1 := by
      rw [hcalc]
      simp only [PSCS_fw_block, PSCS_voltage]
      rw [PSCS_fw_loop_FW_flag M condition torque_ref w_ref PSCS_FW_MAX_ITERATION 0 _ (by simp)]
      exact hflag
    refine ⟨?_, ?_, fun _ => hcalc, fun h => absurd hover h⟩
    · simp [hout, hover]
    · simp [hout, hover]
  · have hflag : (PSCS_select M condition torque_ref w_ref solution).1.FW_flag = 0 := by
      rw [h6, if_neg hover]
    have hcalc : PSCS_Calculate M condition solution torque_ref w_ref
        = PSCS_select M condition torque_ref w_ref solution := by
      unfold PSCS_Calculate
      simp [hflag]
    refine ⟨?_, ?_, fun h => absurd h hover, fun _ => ⟨hcalc, ?_, ?_, ?_⟩⟩
    · simp [hcalc, hflag, hover]
    · simp [hcalc, hflag, hover]
    · rw [hcalc]; exact h1
    · rw [hcalc]; exact h2
    · rw [hcalc]; exact h7

/-- C5: in a call that takes the MTPA branch and does not engage flux
weakening, status `0` implies that the torque evaluated in the last MTPA
iteration is within `1e-2` of `torque_ref` relatively; a loop that used all
10 iterations gives status `-1`; the loop runs between 1 and 10 times. -/
theorem C5_mtpa_status (M : MathFns α) (condition : PSCS_Condition_t α)
    (solution : PSCS_PMSM_Solutions_t α) (torque_ref w_ref : α)
    (hmode : PSCS_mode_test condition (PSCS_estimate condition torque_ref solution))
    (hfw : (PSCS_Calculate M condition solution torque_ref w_ref).1.FW_flag = 0) :
    let L := PSCS_mtpa_loop M condition torque_ref (PSCS_estimate condition torque_ref solution) 0
    ((PSCS_Calculate M condition solution torque_ref w_ref).2 = 0 →
        |L.2.1 - torque_ref| / |torque_ref| ≤ 1 / 100) ∧
      (L.2.2 = 10 → (PSCS_Calculate M condition solution torque_ref w_ref).2 = -1) ∧
      1 ≤ L.2.2 ∧ L.2.2 ≤ 10 := by
  intro L
  have hexit := PSCS_mtpa_loop_exit M condition torque_ref PSCS_MTPA_MAX_ITERATION 0
    (PSCS_estimate condition torque_ref solution) (by simp)
  have hle := PSCS_mtpa_loop_iter_le M condition torque_ref PSCS_MTPA_MAX_ITERATION 0
    (PSCS_estimate condition torque_ref solution) (by simp) (by decide)
  have hflag : (PSCS_select M condition torque_ref w_ref solution).1.FW_flag = 0 := by
    by_contra hne
    have hcalc : PSCS_Calculate M condition solution torque_ref w_ref
        = PSCS_fw_block M condition torque_ref w_ref
            (PSCS_select M condition torque_ref w_ref solution).1 := by
      unfold PSCS_Calculate
      simp [hne]
    rw [hcalc] at hfw
    simp only [PSCS_fw_block, PSCS_voltage] at hfw
    rw [PSCS_fw_loop_FW_flag M condition torque_ref w_ref PSCS_FW_MAX_ITERATION 0 _ (by simp)]
      at hfw
    exact hne hfw
  have hstatus : (PSCS_Calculate M condition solution torque_ref w_ref).2
      = -(if L.2.2 = PSCS_MTPA_MAX_ITERATION then 1 else 0) := by
    unfold PSCS_Calculate
    simp only [hflag, ne_eq, not_true_eq_false, if_false]
    unfold PSCS_select
    simp only [hmode, if_true, PSCS_mtpa_branch]
  have hmax : PSCS_MTPA_MAX_ITERATION = 10 := rfl
  rw [hmax] at hle hstatus
  refine ⟨?_, ?_, hexit.1, hle⟩
  · intro h0
    rw [hstatus] at h0
    have hne : L.2.2 ≠ 10 := by
      intro h
      change (PSCS_mtpa_loop M condition torque_ref
        (PSCS_estimate condition torque_ref solution) 0).2.2 = 10 at h
      rw [h] at h0
      simp at h0
    have hlt : L.2.2 < PSCS_MTPA_MAX_ITERATION := by
      rw [hmax]
      exact lt_of_le_of_ne hle hne
    have hnc := hexit.2
    unfold PSCS_mtpa_continue at hnc
    have habs : ¬ PSCS_ABS ((L.2.1 - torque_ref) / torque_ref)
        > PSCS_MTPA_CONVERGENCE_THRESHOLD := fun h => hnc ⟨hlt, h⟩
    rw [PSCS_ABS_eq_abs, abs_div] at habs
    exact not_lt.mp habs
  · intro h10
    rw [hstatus]
    change (PSCS_mtpa_loop M condition torque_ref
      (PSCS_estimate condition torque_ref solution) 0).2.2 = 10 at h10
    rw [h10]
    simp

/-- Witness of C3: the non-salient motor at `torque_ref = 0.3`, `w_ref = 200`
takes the id=0 branch below the voltage limit and gets `iq_ref = Ia_ref = 3`. -/
theorem C3_id0_exact_witness :
    ¬ PSCS_mode_test (roundCondition ℝ)
        (PSCS_estimate (roundCondition ℝ) (3 / 10) (zeroSolution ℝ)) ∧
      (PSCS_Calculate realMath (roundCondition ℝ) (zeroSolution ℝ) (3 / 10) 200).1.id_ref = 0 ∧
      (PSCS_Calculate realMath (roundCondition ℝ) (zeroSolution ℝ) (3 / 10) 200).1.iq_ref = 3 ∧
      (PSCS_Calculate realMath (roundCondition ℝ) (zeroSolution ℝ) (3 / 10) 200).1.Ia_ref = 3 ∧
      (PSCS_Calculate realMath (roundCondition ℝ) (zeroSolution ℝ) (3 / 10) 200).1.beta_ref = 0 ∧
      (PSCS_Calculate realMath (roundCondition ℝ) (zeroSolution ℝ) (3 / 10) 200).1.FW_flag = 0 ∧
      (PSCS_Calculate realMath (roundCondition ℝ) (zeroSolution ℝ) (3 / 10) 200).2 = 0 := by
  have hm : ¬ PSCS_mode_test (roundCondition ℝ)
      (PSCS_estimate (roundCondition ℝ) (3 / 10) (zeroSolution ℝ)) := by
    simp only [PSCS_mode_test, PSCS_estimate, roundCondition, roundMotor, PSCS_ABS,
      PSCS_MTPA_ID0_I_THRESHOLD, PSCS_MTPA_ID0_TORQUE_RATIO_THRESHOLD]
    norm_num
  have h := C3_id0_exact realMath (roundCondition ℝ) (zeroSolution ℝ) (3 / 10) 200 hm (by
    simp only [roundCondition, roundMotor, realMath, gt_iff_lt, not_lt]
    rw [Real.sqrt_le_left (by norm_num)]
    norm_num)
  have hq : (3 / 10 : ℝ) / ((roundCondition ℝ).pmsm.Psi_a * (roundCondition ℝ).pmsm.Poles / 2)
      = 3 := by
    simp only [roundCondition, roundMotor]
    norm_num
  rw [hq] at h
  exact ⟨hm, h⟩

/-- Witness of C4: the non-salient motor at `torque_ref = 0.3`, `w_ref = 200`
has a false mode test; its id=0 voltage is below `Va_lim = 24`, the flag is
not set and the id=0 currents are returned. -/
theorem C4_fw_flag_id0_witness :
    ¬ PSCS_mode_test (roundCondition ℝ)
        (PSCS_estimate (roundCondition ℝ) (3 / 10) (zeroSolution ℝ)) ∧
      ¬ (PSCS_Calculate realMath (roundCondition ℝ) (zeroSolution ℝ) (3 / 10) 200).1.FW_flag ≠ 0 ∧
      (PSCS_Calculate realMath (roundCondition ℝ) (zeroSolution ℝ) (3 / 10) 200).1.iq_ref = 3 := by
  have hm : ¬ PSCS_mode_test (roundCondition ℝ)
      (PSCS_estimate (roundCondition ℝ) (3 / 10) (zeroSolution ℝ)) := by
    simp only [PSCS_mode_test, PSCS_estimate, roundCondition, roundMotor, PSCS_ABS,
      PSCS_MTPA_ID0_I_THRESHOLD, PSCS_MTPA_ID0_TORQUE_RATIO_THRESHOLD]
    norm_num
  have h := C4_fw_flag_id0 realMath (roundCondition ℝ) (zeroSolution ℝ) (3 / 10) 200 hm
  simp only [] at h
  have hq : (3 / 10 : ℝ) / ((roundCondition ℝ).pmsm.Psi_a * (roundCondition ℝ).pmsm.Poles / 2)
      = 3 := by
    simp only [roundCondition, roundMotor]
    norm_num
  rw [hq] at h
  have hva : ¬ realMath.sqrtf ((200 * (roundCondition ℝ).pmsm.Lq * 3) ^ 2
      + ((roundCondition ℝ).pmsm.Rs * 3 + 200 * (roundCondition ℝ).pmsm.Psi_a) ^ 2)
        > (roundCondition ℝ).Va_lim := by
    simp only [roundCondition, roundMotor, realMath, gt_iff_lt, not_lt]
    rw [Real.sqrt_le_left (by norm_num)]
    norm_num
  exact ⟨hm, fun hne => hva (h.1.mp hne), (h.2.2.2 hva).2.2.1⟩

/-- Witness of C5: the salient motor without resistance at standstill
(`torque_ref = 0.3`, `w_ref = 0`) takes the MTPA branch and needs no flux
weakening, since the back-calculated voltage is `0`. -/
theorem C5_mtpa_status_witness :
    PSCS_mode_test (losslessCondition ℝ)
        (PSCS_estimate (losslessCondition ℝ) (3 / 10) (zeroSolution ℝ)) ∧
      (PSCS_Calculate realMath (losslessCondition ℝ) (zeroSolution ℝ) (3 / 10) 0).1.FW_flag = 0 ∧
      ((PSCS_Calculate realMath (losslessCondition ℝ) (zeroSolution ℝ) (3 / 10) 0).2 = 0 →
        |(PSCS_mtpa_loop realMath (losslessCondition ℝ) (3 / 10)
            (PSCS_estimate (losslessCondition ℝ) (3 / 10) (zeroSolution ℝ)) 0).2.1 - 3 / 10|
          / |(3 / 10 : ℝ)| ≤ 1 / 100) := by
  have hm : PSCS_mode_test (losslessCondition ℝ)
      (PSCS_estimate (losslessCondition ℝ) (3 / 10) (zeroSolution ℝ)) := by
    simp only [PSCS_mode_test, PSCS_estimate, losslessCondition, salientMotor, PSCS_ABS,
      PSCS_MTPA_ID0_I_THRESHOLD, PSCS_MTPA_ID0_TORQUE_RATIO_THRESHOLD]
    norm_num
  have hfw : (PSCS_Calculate realMath (losslessCondition ℝ) (zeroSolution ℝ)
      (3 / 10) 0).1.FW_flag = 0 := by
    have hsel : (PSCS_select realMath (losslessCondition ℝ) (3 / 10) 0
        (zeroSolution ℝ)).1.FW_flag = 0 := by
      unfold PSCS_select
      simp only [hm, if_true, PSCS_mtpa_branch, PSCS_voltage]
      simp [losslessCondition, salientMotor, realMath]
    unfold PSCS_Calculate
    simp only [hsel, ne_eq, not_true_eq_false, if_false]
  exact ⟨hm, hfw,
    (C5_mtpa_status realMath (losslessCondition ℝ) (zeroSolution ℝ) (3 / 10) 0 hm hfw).1⟩

/-- C2 (evaluation at the failing input): for the salient motor with
`torque_ref = -0.3` the step-1 estimate is `-3`, so both `|Ia_ref| > 0.1` and
`0.5*|Lq-Ld|*|Ia_ref|/Psi_a > 0.01` hold (the latter is `0.03`), yet the
test of the source is false, because its second conjunct uses `Ia_ref`
without the absolute value, and the call returns the id=0 solution
`id_ref = 0`, `iq_ref = -3` with status `0`. -/
theorem C2_negative_torque_takes_id0 :
    (|(salientCondition ℝ).Kc_mtpa * (-3 / 10)
          / ((salientCondition ℝ).pmsm.Psi_a * (salientCondition ℝ).pmsm.Poles / 2)| > 1 / 10 ∧
        (1 / 2) * |(salientCondition ℝ).pmsm.Lq - (salientCondition ℝ).pmsm.Ld|
          * |(salientCondition ℝ).Kc_mtpa * (-3 / 10)
              / ((salientCondition ℝ).pmsm.Psi_a * (salientCondition ℝ).pmsm.Poles / 2)|
          / (salientCondition ℝ).pmsm.Psi_a > 1 / 100) ∧
      ¬ PSCS_mode_test (salientCondition ℝ)
        (PSCS_estimate (salientCondition ℝ) (-3 / 10) (zeroSolution ℝ)) ∧
      (PSCS_Calculate realMath (salientCondition ℝ) (zeroSolution ℝ) (-3 / 10) 200).1.id_ref = 0 ∧
      (PSCS_Calculate realMath (salientCondition ℝ) (zeroSolution ℝ) (-3 / 10) 200).1.iq_ref
        = -3 ∧
      (PSCS_Calculate realMath (salientCondition ℝ) (zeroSolution ℝ) (-3 / 10) 200).2 = 0 := by
  have hm : ¬ PSCS_mode_test (salientCondition ℝ)
      (PSCS_estimate (salientCondition ℝ) (-3 / 10) (zeroSolution ℝ)) := by
    simp only [PSCS_mode_test, PSCS_estimate, salientCondition, salientMotor, PSCS_ABS,
      PSCS_MTPA_ID0_I_THRESHOLD, PSCS_MTPA_ID0_TORQUE_RATIO_THRESHOLD]
    norm_num
  have h := PSCS_Calculate_id0 realMath (salientCondition ℝ) (zeroSolution ℝ) (-3 / 10) 200 hm (by
    simp only [salientCondition, salientMotor, realMath, gt_iff_lt, not_lt]
    rw [Real.sqrt_le_left (by norm_num)]
    norm_num)
  have hq : (-3 / 10 : ℝ)
      / ((salientCondition ℝ).pmsm.Psi_a * (salientCondition ℝ).pmsm.Poles / 2) = -3 := by
    simp only [salientCondition, salientMotor]
    norm_num
  rw [hq] at h
  refine ⟨?_, hm, h.1, h.2.1, h.2.2.2.2.2⟩
  simp only [salientCondition, salientMotor]
  norm_num [abs_of_neg, abs_of_pos]

end BranchClaims

end PSCS

namespace PSCS

section CurrentLimit

/-- C1 (amended): in every call in which flux weakening is engaged, with
`Ia_lim >= 0`, the returned `Ia_ref` is `sqrt(id_ref^2 + iq_ref^2)`, and it
respects the current limit whenever `|id_ref| <= Ia_lim`; when
`|id_ref| > Ia_lim` the clamp returns `iq_ref = 0` and the magnitude is
`|id_ref|`, above the limit. -/
theorem C1_current_limit_unless_id_exceeds (condition : PSCS_Condition_t ℝ)
    (solution : PSCS_PMSM_Solutions_t ℝ) (torque_ref w_ref : ℝ)
    (hIa : 0 ≤ condition.Ia_lim)
    (hfw : (PSCS_Calculate realMath condition solution torque_ref w_ref).1.FW_flag ≠ 0) :
    (PSCS_Calculate realMath condition solution torque_ref w_ref).1.Ia_ref
        = Real.sqrt ((PSCS_Calculate realMath condition solution torque_ref w_ref).1.id_ref ^ 2
          + (PSCS_Calculate realMath condition solution torque_ref w_ref).1.iq_ref ^ 2) ∧
      (|(PSCS_Calculate realMath condition solution torque_ref w_ref).1.id_ref|
          ≤ condition.Ia_lim →
        Real.sqrt ((PSCS_Calculate realMath condition solution torque_ref w_ref).1.id_ref ^ 2
          + (PSCS_Calculate realMath condition solution torque_ref w_ref).1.iq_ref ^ 2)
            ≤ condition.Ia_lim) ∧
      (condition.Ia_lim
          < |(PSCS_Calculate realMath condition solution torque_ref w_ref).1.id_ref| →
        (PSCS_Calculate realMath condition solution torque_ref w_ref).1.iq_ref = 0 ∧
        Real.sqrt ((PSCS_Calculate realMath condition solution torque_ref w_ref).1.id_ref ^ 2
          + (PSCS_Calculate realMath condition solution torque_ref w_ref).1.iq_ref ^ 2)
            = |(PSCS_Calculate realMath condition solution torque_ref w_ref).1.id_ref|) := by
  obtain ⟨-, hcalc⟩ := PSCS_Calculate_fw realMath condition solution torque_ref w_ref hfw
  obtain ⟨s2, h1, h2, h3, -⟩ := PSCS_fw_block_currents realMath condition torque_ref w_ref
    (PSCS_select realMath condition torque_ref w_ref solution).1
  obtain ⟨c1, c2⟩ := PSCS_fw_clamp_bound condition torque_ref s2 hIa
  rw [hcalc, h1, h2]
  refine ⟨?_, c1, c2⟩
  rw [h3, h1, h2]
  rfl

/-- Witness of C1 (amended) at the input of the counterexample. -/
theorem C1_current_limit_unless_id_exceeds_witness :
    (0 : ℝ) ≤ (weakCondition ℝ).Ia_lim ∧
      (PSCS_Calculate realMath (weakCondition ℝ) (zeroSolution ℝ) 1 375).1.FW_flag ≠ 0 ∧
      (PSCS_Calculate realMath (weakCondition ℝ) (zeroSolution ℝ) 1 375).1.Ia_ref
        = Real.sqrt ((PSCS_Calculate realMath (weakCondition ℝ) (zeroSolution ℝ) 1 375).1.id_ref ^ 2
          + (PSCS_Calculate realMath (weakCondition ℝ) (zeroSolution ℝ) 1 375).1.iq_ref ^ 2) := by
  have h0 : (0 : ℝ) ≤ (weakCondition ℝ).Ia_lim := by
    simp only [weakCondition]
    norm_num
  have hfw : (PSCS_Calculate realMath (weakCondition ℝ) (zeroSolution ℝ) 1 375).1.FW_flag ≠ 0 := by
    rw [weakCondition_calculate.1]
    decide
  exact ⟨h0, hfw,
    (C1_current_limit_unless_id_exceeds (weakCondition ℝ) (zeroSolution ℝ) 1 375 h0 hfw).1⟩

/-- C1 fails as stated: for the non-salient motor with `Va_lim = 12`,
`Ia_lim = 10` (non-negative), `torque_ref = 1`, `w_ref = 375`, flux weakening
is engaged and the call returns `id_ref = -18`, `iq_ref = 0`, `Ia_ref = 18`,
so `sqrt(id_ref^2 + iq_ref^2) = 18` is not within `Ia_lim = 10`. -/
theorem C1_counterexample :
    (0 : ℝ) ≤ (weakCondition ℝ).Ia_lim ∧
      (PSCS_Calculate realMath (weakCondition ℝ) (zeroSolution ℝ) 1 375).1.FW_flag ≠ 0 ∧
      (PSCS_Calculate realMath (weakCondition ℝ) (zeroSolution ℝ) 1 375).1.Ia_ref = 18 ∧
      ¬ Real.sqrt ((PSCS_Calculate realMath (weakCondition ℝ) (zeroSolution ℝ) 1 375).1.id_ref ^ 2
          + (PSCS_Calculate realMath (weakCondition ℝ) (zeroSolution ℝ) 1 375).1.iq_ref ^ 2)
        ≤ (weakCondition ℝ).Ia_lim := by
  obtain ⟨h1, h2, h3, h4, -⟩ := weakCondition_calculate
  refine ⟨?_, ?_, h4, ?_⟩
  · simp only [weakCondition]
    norm_num
  · rw [h1]
    decide
  · rw [h2, h3]
    have hs : Real.sqrt ((-18 : ℝ) ^ 2 + 0 ^ 2) = 18 :=
      sqrt_eq_of_mul_self (by norm_num) (by norm_num)
    rw [hs]
    simp only [weakCondition]
    norm_num

end CurrentLimit

end PSCS

namespace PSCS

section IqSign

/-- C10 (amended): with `Psi_a > 0`, `Poles > 0`, `Kc_mtpa = 1`, the returned
`iq_ref` has the sign of `torque_ref` whenever flux weakening is not engaged
(MTPA branch and id=0 branch); when flux weakening is engaged it has the sign
of `torque_ref` provided the returned `id_ref` satisfies
`id_ref^2 < Ia_lim^2` and `Psi_a + (Ld - Lq) * id_ref > 0`. -/
theorem C10_iq_sign_amended (condition : PSCS_Condition_t ℝ)
    (solution : PSCS_PMSM_Solutions_t ℝ) (torque_ref w_ref : ℝ)
    (hψ : 0 < condition.pmsm.Psi_a) (hP : 0 < condition.pmsm.Poles)
    (hK : condition.Kc_mtpa = 1) :
    ((PSCS_Calculate realMath condition solution torque_ref w_ref).1.FW_flag = 0 →
        (0 < torque_ref →
          0 < (PSCS_Calculate realMath condition solution torque_ref w_ref).1.iq_ref) ∧
        (torque_ref < 0 →
          (PSCS_Calculate realMath condition solution torque_ref w_ref).1.iq_ref < 0)) ∧
      ((PSCS_Calculate realMath condition solution torque_ref w_ref).1.FW_flag ≠ 0 →
        (PSCS_Calculate realMath condition solution torque_ref w_ref).1.id_ref ^ 2
          < condition.Ia_lim ^ 2 →
        0 < condition.pmsm.Psi_a + (condition.pmsm.Ld - condition.pmsm.Lq)
          * (PSCS_Calculate realMath condition solution torque_ref w_ref).1.id_ref →
        (0 < torque_ref →
          0 < (PSCS_Calculate realMath condition solution torque_ref w_ref).1.iq_ref) ∧
        (torque_ref < 0 →
          (PSCS_Calculate realMath condition solution torque_ref w_ref).1.iq_ref < 0)) := by
  constructor
  · intro hfw
    obtain ⟨-, hcalc⟩ := PSCS_Calculate_noFW realMath condition solution torque_ref w_ref hfw
    rw [hcalc]
    by_cases hm : PSCS_mode_test condition (PSCS_estimate condition torque_ref solution)
    · have hI : 0 < (PSCS_estimate condition torque_ref solution).Ia_ref := by
        have h2 := hm.2
        unfold PSCS_MTPA_ID0_TORQUE_RATIO_THRESHOLD at h2
        rw [PSCS_ABS_eq_abs] at h2
        by_contra hle
        have hle' := not_lt.mp hle
        have : (1 / 2) * |condition.pmsm.Lq - condition.pmsm.Ld|
            * (PSCS_estimate condition torque_ref solution).Ia_ref / condition.pmsm.Psi_a ≤ 0 := by
          apply div_nonpos_of_nonpos_of_nonneg _ (le_of_lt hψ)
          exact mul_nonpos_of_nonneg_of_nonpos (by positivity) hle'
        linarith
      have htr : 0 < torque_ref := by
        simp only [PSCS_estimate, hK, one_mul] at hI
        by_contra hle
        have hle' := not_lt.mp hle
        have : torque_ref / condition.pmsm.Psi_a / condition.pmsm.Poles * 2 ≤ 0 := by
          apply mul_nonpos_of_nonpos_of_nonneg _ (by norm_num)
          apply div_nonpos_of_nonpos_of_nonneg _ (le_of_lt hP)
          exact div_nonpos_of_nonpos_of_nonneg hle' (le_of_lt hψ)
        linarith
      obtain ⟨l1, l2⟩ := PSCS_mtpa_loop_pos condition torque_ref hψ hP htr
        PSCS_MTPA_MAX_ITERATION 0 (PSCS_estimate condition torque_ref solution) (by simp) hI
      have hiq : 0 < (PSCS_select realMath condition torque_ref w_ref solution).1.iq_ref := by
        unfold PSCS_select
        simp only [hm, if_true, PSCS_mtpa_branch, PSCS_voltage, realMath]
        exact mul_pos l1 l2
      exact ⟨fun _ => hiq, fun h => absurd htr (not_lt.mpr (le_of_lt h))⟩
    · obtain ⟨-, h2, -⟩ := PSCS_select_id0 realMath condition torque_ref w_ref solution hm
      rw [h2]
      have hden : 0 < condition.pmsm.Psi_a * condition.pmsm.Poles / 2 := by positivity
      exact ⟨fun h => div_pos h hden, fun h => div_neg_of_neg_of_pos h hden⟩
  · intro hfw hlt hden
    obtain ⟨-, hcalc⟩ := PSCS_Calculate_fw realMath condition solution torque_ref w_ref hfw
    obtain ⟨s2, h1, h2, -, h4⟩ := PSCS_fw_block_currents realMath condition torque_ref w_ref
      (PSCS_select realMath condition torque_ref w_ref solution).1
    rw [hcalc, h1] at hlt hden
    rw [hcalc, h2]
    rw [(PSCS_fw_clamp_frame realMath condition torque_ref s2).1] at hden
    have hq : s2.iq_ref = torque_ref / (condition.pmsm.Poles / 2
        * (condition.pmsm.Psi_a + (condition.pmsm.Ld - condition.pmsm.Lq) * s2.id_ref)) := by
      rw [h4]
      field_simp
      ring
    have hden2 : 0 < condition.pmsm.Poles / 2
        * (condition.pmsm.Psi_a + (condition.pmsm.Ld - condition.pmsm.Lq) * s2.id_ref) := by
      positivity
    apply PSCS_fw_clamp_sign condition torque_ref s2 hlt
    · intro h
      rw [hq]
      exact div_pos h hden2
    · intro h
      rw [hq]
      exact div_neg_of_neg_of_pos h hden2

/-- Witness of C10 (amended): the non-salient motor at `torque_ref = 0.3`,
`w_ref = 200` does not engage flux weakening and gets a positive `iq_ref`. -/
theorem C10_iq_sign_amended_witness :
    0 < (roundCondition ℝ).pmsm.Psi_a ∧ 0 < (roundCondition ℝ).pmsm.Poles ∧
      (roundCondition ℝ).Kc_mtpa = 1 ∧
      0 < (PSCS_Calculate realMath (roundCondition ℝ) (zeroSolution ℝ) (3 / 10) 200).1.iq_ref := by
  have hψ : 0 < (roundCondition ℝ).pmsm.Psi_a := by
    simp only [roundCondition, roundMotor]
    norm_num
  have hP : 0 < (roundCondition ℝ).pmsm.Poles := by
    simp only [roundCondition, roundMotor]
    norm_num
  have hm : ¬ PSCS_mode_test (roundCondition ℝ)
      (PSCS_estimate (roundCondition ℝ) (3 / 10) (zeroSolution ℝ)) := by
    simp only [PSCS_mode_test, PSCS_estimate, roundCondition, roundMotor, PSCS_ABS,
      PSCS_MTPA_ID0_I_THRESHOLD, PSCS_MTPA_ID0_TORQUE_RATIO_THRESHOLD]
    norm_num
  have h0 := PSCS_Calculate_id0 realMath (roundCondition ℝ) (zeroSolution ℝ) (3 / 10) 200 hm (by
    simp only [roundCondition, roundMotor, realMath, gt_iff_lt, not_lt]
    rw [Real.sqrt_le_left (by norm_num)]
    norm_num)
  exact ⟨hψ, hP, rfl,
    ((C10_iq_sign_amended (roundCondition ℝ) (zeroSolution ℝ) (3 / 10) 200 hψ hP rfl).1
      h0.2.2.2.2.1).1 (by norm_num)⟩

/-- C10 fails as stated, in two ways, both with physically valid inputs
(`Rs >= 0`, `Ld, Lq, Psi_a, Poles > 0`, `Kc_mtpa = 1`, `Va_lim, Ia_lim >= 0`).
For `flipCondition`, `torque_ref = -1 < 0`, `w_ref = 1` flux weakening
returns `iq_ref = 1 > 0`: the torque equation is solved with a negative
`Psi_a + (Ld - Lq) * id_ref`.  For `weakCondition`, `torque_ref = 1 > 0`,
`w_ref = 375` flux weakening returns `iq_ref = 0`: the clamp zeroes `iq_ref`
because `|id_ref| = 18` exceeds `Ia_lim = 10`. -/
theorem C10_counterexample :
    ((0 : ℝ) ≤ (flipCondition ℝ).pmsm.Rs ∧ 0 < (flipCondition ℝ).pmsm.Ld ∧
        0 < (flipCondition ℝ).pmsm.Lq ∧ 0 < (flipCondition ℝ).pmsm.Psi_a ∧
        0 < (flipCondition ℝ).pmsm.Poles ∧ (flipCondition ℝ).Kc_mtpa = 1 ∧
        0 ≤ (flipCondition ℝ).Va_lim ∧ 0 ≤ (flipCondition ℝ).Ia_lim ∧
        (-1 : ℝ) < 0 ∧
        ¬ (PSCS_Calculate realMath (flipCondition ℝ) (zeroSolution ℝ) (-1) 1).1.iq_ref < 0) ∧
      ((0 : ℝ) ≤ (weakCondition ℝ).pmsm.Rs ∧ 0 < (weakCondition ℝ).pmsm.Ld ∧
        0 < (weakCondition ℝ).pmsm.Lq ∧ 0 < (weakCondition ℝ).pmsm.Psi_a ∧
        0 < (weakCondition ℝ).pmsm.Poles ∧ (weakCondition ℝ).Kc_mtpa = 1 ∧
        0 ≤ (weakCondition ℝ).Va_lim ∧ 0 ≤ (weakCondition ℝ).Ia_lim ∧
        (0 : ℝ) < 1 ∧
        ¬ 0 < (PSCS_Calculate realMath (weakCondition ℝ) (zeroSolution ℝ) 1 375).1.iq_ref) := by
  constructor
  · refine ⟨?_, ?_, ?_, ?_, ?_, rfl, ?_, ?_, by norm_num, ?_⟩
    · simp only [flipCondition]
      norm_num
    · simp only [flipCondition]
      norm_num
    · simp only [flipCondition]
      norm_num
    · simp only [flipCondition]
      norm_num
    · simp only [flipCondition]
      norm_num
    · simp only [flipCondition]
      norm_num
    · simp only [flipCondition]
      norm_num
    · rw [flipCondition_calculate.2.2.1]
      norm_num
  · refine ⟨?_, ?_, ?_, ?_, ?_, rfl, ?_, ?_, by norm_num, ?_⟩
    · simp only [weakCondition, roundMotor]
      norm_num
    · simp only [weakCondition, roundMotor]
      norm_num
    · simp only [weakCondition, roundMotor]
      norm_num
    · simp only [weakCondition, roundMotor]
      norm_num
    · simp only [weakCondition, roundMotor]
      norm_num
    · simp only [weakCondition]
      norm_num
    · simp only [weakCondition]
      norm_num
    · rw [weakCondition_calculate.2.2.1]
      norm_num

end IqSign

end PSCS

namespace PSCS

section Status

variable {α : Type} [LinearOrderedField α]

/-- C6 (amended): the returned status is `-1` whenever the loop that produced
the returned solution ended at its iteration cap: the MTPA loop after 10
iterations when flux weakening is not engaged, the flux-weakening loop after
20 iterations when it is engaged (in particular when the cap was reached with
the tolerance still unmet).  A failure of the MTPA loop is not reported when
flux weakening is subsequently engaged. -/
theorem C6_status_of_last_loop (M : MathFns α) (condition : PSCS_Condition_t α)
    (solution : PSCS_PMSM_Solutions_t α) (torque_ref w_ref : α) :
    ((PSCS_Calculate M condition solution torque_ref w_ref).1.FW_flag = 0 →
        PSCS_mode_test condition (PSCS_estimate condition torque_ref solution) →
        (PSCS_mtpa_loop M condition torque_ref
          (PSCS_estimate condition torque_ref solution) 0).2.2 = PSCS_MTPA_MAX_ITERATION →
        (PSCS_Calculate M condition solution torque_ref w_ref).2 = -1) ∧
      ((PSCS_Calculate M condition solution torque_ref w_ref).1.FW_flag ≠ 0 →
        (PSCS_fw_loop M condition torque_ref w_ref
          { (PSCS_select M condition torque_ref w_ref solution).1 with
            iq_ref := torque_ref / condition.pmsm.Poles * 2 } 0).2 = PSCS_FW_MAX_ITERATION →
        (PSCS_Calculate M condition solution torque_ref w_ref).2 = -1) := by
  constructor
  · intro hfw hm hcap
    obtain ⟨-, hcalc⟩ := PSCS_Calculate_noFW M condition solution torque_ref w_ref hfw
    rw [hcalc]
    unfold PSCS_select
    simp only [hm, if_true, PSCS_mtpa_branch, hcap]
  · intro hfw hcap
    obtain ⟨-, hcalc⟩ := PSCS_Calculate_fw M condition solution torque_ref w_ref hfw
    rw [hcalc]
    simp only [PSCS_fw_block, PSCS_voltage, hcap, if_true]

/-- Witness of C6 (amended): for `slowCondition` at standstill
(`torque_ref = 1`, `w_ref = 0`) flux weakening is not engaged, the MTPA loop
ends at its cap of 10 iterations and the status is `-1`. -/
theorem C6_status_of_last_loop_witness :
    (PSCS_Calculate realMath (slowCondition ℝ) (zeroSolution ℝ) 1 0).1.FW_flag = 0 ∧
      PSCS_mode_test (slowCondition ℝ) (PSCS_estimate (slowCondition ℝ) 1 (zeroSolution ℝ)) ∧
      (PSCS_mtpa_loop realMath (slowCondition ℝ) 1
        (PSCS_estimate (slowCondition ℝ) 1 (zeroSolution ℝ)) 0).2.2 = PSCS_MTPA_MAX_ITERATION ∧
      (PSCS_Calculate realMath (slowCondition ℝ) (zeroSolution ℝ) 1 0).2 = -1 := by
  obtain ⟨hm, hcap, -⟩ := slowCondition_select 0
  exact ⟨slowCondition_standstill.1, hm, hcap,
    (C6_status_of_last_loop realMath (slowCondition ℝ) (zeroSolution ℝ) 1 0).1
      slowCondition_standstill.1 hm hcap⟩

/-- C6 fails as stated: for `slowCondition`, `torque_ref = 1`, `w_ref = 1` the
MTPA branch is taken and its loop ends at the cap of 10 iterations with the
relative torque error still above `1e-2` (the error code after the branch is
`-1`); flux weakening is then engaged, its loop converges within two
iterations, and the returned status is `0`, not `-1`. -/
theorem C6_counterexample :
    PSCS_mode_test (slowCondition ℝ) (PSCS_estimate (slowCondition ℝ) 1 (zeroSolution ℝ)) ∧
      (PSCS_mtpa_loop realMath (slowCondition ℝ) 1
        (PSCS_estimate (slowCondition ℝ) 1 (zeroSolution ℝ)) 0).2.2 = PSCS_MTPA_MAX_ITERATION ∧
      PSCS_ABS (((PSCS_mtpa_loop realMath (slowCondition ℝ) 1
        (PSCS_estimate (slowCondition ℝ) 1 (zeroSolution ℝ)) 0).2.1 - 1) / 1)
          > PSCS_MTPA_CONVERGENCE_THRESHOLD ∧
      (PSCS_select realMath (slowCondition ℝ) 1 1 (zeroSolution ℝ)).2 = -1 ∧
      (PSCS_Calculate realMath (slowCondition ℝ) (zeroSolution ℝ) 1 1).1.FW_flag ≠ 0 ∧
      (PSCS_Calculate realMath (slowCondition ℝ) (zeroSolution ℝ) 1 1).2 = 0 ∧
      (PSCS_Calculate realMath (slowCondition ℝ) (zeroSolution ℝ) 1 1).2 ≠ -1 := by
  obtain ⟨hm, hcap, herr, hcode, -⟩ := slowCondition_select 1
  obtain ⟨hflag, hstatus⟩ := slowCondition_calculate
  refine ⟨hm, hcap, herr, hcode, ?_, hstatus, ?_⟩
  · rw [hflag]
    decide
  · rw [hstatus]
    decide

end Status

end PSCS

namespace PSCS

section Scenario

/-- C11 (amended): in the scenario `Rs = 0.5`, `Ld = 0.001`, `Lq = 0.002`,
`Psi_a = 0.05`, `Poles = 4`, `Va_lim = 24`, `Ia_lim = 10`, `Kc_mtpa = 1`,
`torque_ref = 0.3`, `w_ref = 200` the reluctance ratio `0.03` is above the
threshold `0.01`, so the mode test is true and the MTPA branch is taken; its
loop stops after the first iteration, and the call returns `FW_flag = 0`,
status `0`, a negative `id_ref` and an `Ia_ref` within 1% below the closed
form `torque_ref / (Psi_a * Poles / 2) = 3`. -/
theorem C11_scenario_takes_mtpa :
    PSCS_mode_test (salientCondition ℝ)
        (PSCS_estimate (salientCondition ℝ) (3 / 10) (zeroSolution ℝ)) ∧
      (PSCS_mtpa_loop realMath (salientCondition ℝ) (3 / 10)
        (PSCS_estimate (salientCondition ℝ) (3 / 10) (zeroSolution ℝ)) 0).2.2 = 1 ∧
      (PSCS_Calculate realMath (salientCondition ℝ) (zeroSolution ℝ) (3 / 10) 200).1.FW_flag = 0 ∧
      (PSCS_Calculate realMath (salientCondition ℝ) (zeroSolution ℝ) (3 / 10) 200).2 = 0 ∧
      (PSCS_Calculate realMath (salientCondition ℝ) (zeroSolution ℝ) (3 / 10) 200).1.id_ref < 0 ∧
      297 / 100
        ≤ (PSCS_Calculate realMath (salientCondition ℝ) (zeroSolution ℝ) (3 / 10) 200).1.Ia_ref ∧
      (PSCS_Calculate realMath (salientCondition ℝ) (zeroSolution ℝ) (3 / 10) 200).1.Ia_ref
        < (3 / 10) / ((salientCondition ℝ).pmsm.Psi_a * (salientCondition ℝ).pmsm.Poles / 2) := by
  obtain ⟨h1, h2, h3, h4, h5, h6, h7⟩ := salientCondition_select
  have hq : (3 / 10 : ℝ)
      / ((salientCondition ℝ).pmsm.Psi_a * (salientCondition ℝ).pmsm.Poles / 2) = 3 := by
    simp only [salientCondition, salientMotor]
    norm_num
  rw [PSCS_Calculate_of_noflag realMath (salientCondition ℝ) (zeroSolution ℝ) (3 / 10) 200 h7, hq]
  exact ⟨h1, h2, h7, h3, h4, h5, h6⟩

/-- C11 fails as stated: in the scenario the mode-selection test is true, not
false, and the call returns neither `id_ref = 0` nor an `Ia_ref` equal to the
closed form `torque_ref / (Psi_a * Poles / 2)`. -/
theorem C11_counterexample :
    PSCS_mode_test (salientCondition ℝ)
        (PSCS_estimate (salientCondition ℝ) (3 / 10) (zeroSolution ℝ)) ∧
      (PSCS_Calculate realMath (salientCondition ℝ) (zeroSolution ℝ) (3 / 10) 200).1.id_ref ≠ 0 ∧
      (PSCS_Calculate realMath (salientCondition ℝ) (zeroSolution ℝ) (3 / 10) 200).1.Ia_ref
        ≠ (3 / 10) / ((salientCondition ℝ).pmsm.Psi_a * (salientCondition ℝ).pmsm.Poles / 2) := by
  obtain ⟨h1, -, -, h4, -, h6, h7⟩ := salientCondition_select
  have hq : (3 / 10 : ℝ)
      / ((salientCondition ℝ).pmsm.Psi_a * (salientCondition ℝ).pmsm.Poles / 2) = 3 := by
    simp only [salientCondition, salientMotor]
    norm_num
  rw [PSCS_Calculate_of_noflag realMath (salientCondition ℝ) (zeroSolution ℝ) (3 / 10) 200 h7, hq]
  exact ⟨h1, ne_of_lt h4, ne_of_lt h6⟩

end Scenario

end PSCS

namespace PSCS

section Termination

variable {α : Type} [LinearOrderedField α]

/-- C12: both loops of `PSCS_Calculate` are total functions whose body runs a
bounded number of times.  The MTPA loop (entered with `iter = 0`) runs its
body `n` times with `1 <= n <= 10`, the flux-weakening loop `n` times with
`1 <= n <= 20`; the returned record is the one after `n` executions; every
execution before the last had a convergence measure above `1e-2`, and the
last one has a measure not above `1e-2` unless the cap was reached, so each
loop stops at the first execution whose measure is not above `1e-2`. -/
theorem C12_bounded_iterations (M : MathFns α) (condition : PSCS_Condition_t α)
    (torque_ref w_ref : α) (s : PSCS_PMSM_Solutions_t α) :
    (1 ≤ (PSCS_mtpa_loop M condition torque_ref s 0).2.2 ∧
      (PSCS_mtpa_loop M condition torque_ref s 0).2.2 ≤ 10 ∧
      (PSCS_mtpa_loop M condition torque_ref s 0).1
        = PSCS_mtpa_state M condition torque_ref s (PSCS_mtpa_loop M condition torque_ref s 0).2.2 ∧
      (∀ i, i + 1 < (PSCS_mtpa_loop M condition torque_ref s 0).2.2 →
        PSCS_mtpa_measure M condition torque_ref s i > 1 / 100) ∧
      ((PSCS_mtpa_loop M condition torque_ref s 0).2.2 < 10 →
        ¬ PSCS_mtpa_measure M condition torque_ref s
            ((PSCS_mtpa_loop M condition torque_ref s 0).2.2 - 1) > 1 / 100)) ∧
    (1 ≤ (PSCS_fw_loop M condition torque_ref w_ref s 0).2 ∧
      (PSCS_fw_loop M condition torque_ref w_ref s 0).2 ≤ 20 ∧
      (PSCS_fw_loop M condition torque_ref w_ref s 0).1
        = PSCS_fw_state M condition torque_ref w_ref s
            (PSCS_fw_loop M condition torque_ref w_ref s 0).2 ∧
      (∀ i, i + 1 < (PSCS_fw_loop M condition torque_ref w_ref s 0).2 →
        PSCS_fw_measure M condition torque_ref w_ref s i > 1 / 100) ∧
      ((PSCS_fw_loop M condition torque_ref w_ref s 0).2 < 20 →
        ¬ PSCS_fw_measure M condition torque_ref w_ref s
            ((PSCS_fw_loop M condition torque_ref w_ref s 0).2 - 1) > 1 / 100)) := by
  obtain ⟨a1, a2, a3, -, a5, a6⟩ :=
    PSCS_mtpa_loop_trace M condition torque_ref s PSCS_MTPA_MAX_ITERATION 0 (by simp) (by decide)
  obtain ⟨b1, b2, b3, b5, b6⟩ :=
    PSCS_fw_loop_trace M condition torque_ref w_ref s PSCS_FW_MAX_ITERATION 0 (by simp)
      (by decide)
  exact ⟨⟨a1, a2, a3, fun i hi => a5 i (Nat.zero_le i) hi, a6⟩,
    ⟨b1, b2, b3, fun i hi => b5 i (Nat.zero_le i) hi, b6⟩⟩

end Termination

end PSCS

namespace PSCS

section Amplitude

/-- C13 (amended): `Ia_ref` is the signed current amplitude.  In exact
arithmetic, with `Psi_a > 0`, `Poles > 0`, `Kc_mtpa = 1`, every call that
either does not engage flux weakening or whose flux-weakening run is inside
the domain (`PSCS_fw_defined`: no square root of a negative number, no zero
divisor) returns `|Ia_ref| = sqrt(id_ref^2 + iq_ref^2)`; `Ia_ref` is
non-negative, hence equal to the magnitude, whenever flux weakening is engaged
or `torque_ref >= 0`.  (For `torque_ref < 0` without flux weakening the id=0
branch returns `Ia_ref = iq_ref < 0`.  Nothing is stated about a
flux-weakening run outside the domain.) -/
theorem C13_Ia_ref_signed_amplitude (condition : PSCS_Condition_t ℝ)
    (solution : PSCS_PMSM_Solutions_t ℝ) (torque_ref w_ref : ℝ)
    (hψ : 0 < condition.pmsm.Psi_a) (hP : 0 < condition.pmsm.Poles)
    (hK : condition.Kc_mtpa = 1)
    (_hdef : (PSCS_Calculate realMath condition solution torque_ref w_ref).1.FW_flag ≠ 0 →
      PSCS_fw_defined realMath condition torque_ref w_ref
        (PSCS_select realMath condition torque_ref w_ref solution).1) :
    |(PSCS_Calculate realMath condition solution torque_ref w_ref).1.Ia_ref|
        = Real.sqrt ((PSCS_Calculate realMath condition solution torque_ref w_ref).1.id_ref ^ 2
          + (PSCS_Calculate realMath condition solution torque_ref w_ref).1.iq_ref ^ 2) ∧
      ((PSCS_Calculate realMath condition solution torque_ref w_ref).1.FW_flag ≠ 0
          ∨ 0 ≤ torque_ref →
        0 ≤ (PSCS_Calculate realMath condition solution torque_ref w_ref).1.Ia_ref ∧
        (PSCS_Calculate realMath condition solution torque_ref w_ref).1.Ia_ref
          = Real.sqrt ((PSCS_Calculate realMath condition solution torque_ref w_ref).1.id_ref ^ 2
            + (PSCS_Calculate realMath condition solution torque_ref w_ref).1.iq_ref ^ 2)) := by
  have key : |(PSCS_Calculate realMath condition solution torque_ref w_ref).1.Ia_ref|
        = Real.sqrt ((PSCS_Calculate realMath condition solution torque_ref w_ref).1.id_ref ^ 2
          + (PSCS_Calculate realMath condition solution torque_ref w_ref).1.iq_ref ^ 2) ∧
      ((PSCS_Calculate realMath condition solution torque_ref w_ref).1.FW_flag ≠ 0
          ∨ 0 ≤ torque_ref →
        0 ≤ (PSCS_Calculate realMath condition solution torque_ref w_ref).1.Ia_ref) := by
    by_cases hfw : (PSCS_Calculate realMath condition solution torque_ref w_ref).1.FW_flag = 0
    · obtain ⟨-, hcalc⟩ := PSCS_Calculate_noFW realMath condition solution torque_ref w_ref hfw
      rw [hcalc]
      by_cases hm : PSCS_mode_test condition (PSCS_estimate condition torque_ref solution)
      · obtain ⟨e1, -, e3, e4, -⟩ :=
          PSCS_select_mtpa realMath condition torque_ref w_ref solution hm
        have e3' : (PSCS_select realMath condition torque_ref w_ref solution).1.id_ref
            = -(PSCS_select realMath condition torque_ref w_ref solution).1.Ia_ref
              * Real.sin (PSCS_select realMath condition torque_ref w_ref solution).1.beta_ref := e3
        have e4' : (PSCS_select realMath condition torque_ref w_ref solution).1.iq_ref
            = (PSCS_select realMath condition torque_ref w_ref solution).1.Ia_ref
              * Real.cos (PSCS_select realMath condition torque_ref w_ref solution).1.beta_ref := e4
        constructor
        · have hsum : (PSCS_select realMath condition torque_ref w_ref solution).1.id_ref ^ 2
              + (PSCS_select realMath condition torque_ref w_ref solution).1.iq_ref ^ 2
              = (PSCS_select realMath condition torque_ref w_ref solution).1.Ia_ref ^ 2 := by
            rw [e3', e4']
            have := Real.sin_sq_add_cos_sq
              (PSCS_select realMath condition torque_ref w_ref solution).1.beta_ref
            linear_combination
              (PSCS_select realMath condition torque_ref w_ref solution).1.Ia_ref ^ 2 * this
          rw [hsum, Real.sqrt_sq_eq_abs]
        · intro _
          obtain ⟨hI, htr⟩ := PSCS_mode_test_pos condition torque_ref solution hψ hP hK hm
          rw [e1]
          exact le_of_lt (PSCS_mtpa_loop_pos condition torque_ref hψ hP htr
            PSCS_MTPA_MAX_ITERATION 0 (PSCS_estimate condition torque_ref solution)
            (by simp) hI).1
      · obtain ⟨h1, h2, h3, -⟩ := PSCS_select_id0 realMath condition torque_ref w_ref solution hm
        constructor
        · rw [h1, h2, h3]
          have : (0 : ℝ) ^ 2 + (torque_ref / (condition.pmsm.Psi_a * condition.pmsm.Poles / 2)) ^ 2
              = (torque_ref / (condition.pmsm.Psi_a * condition.pmsm.Poles / 2)) ^ 2 := by ring
          rw [this, Real.sqrt_sq_eq_abs]
        · intro h
          rcases h with h | h
          · rw [hcalc] at hfw
            exact absurd hfw h
          · rw [h3]
            exact div_nonneg h (by positivity)
    · obtain ⟨-, hcalc⟩ := PSCS_Calculate_fw realMath condition solution torque_ref w_ref hfw
      obtain ⟨s2, -, -, h3, -⟩ := PSCS_fw_block_currents realMath condition torque_ref w_ref
        (PSCS_select realMath condition torque_ref w_ref solution).1
      rw [hcalc]
      have h3' : (PSCS_fw_block realMath condition torque_ref w_ref
          (PSCS_select realMath condition torque_ref w_ref solution).1).1.Ia_ref
          = Real.sqrt ((PSCS_fw_block realMath condition torque_ref w_ref
              (PSCS_select realMath condition torque_ref w_ref solution).1).1.id_ref ^ 2
            + (PSCS_fw_block realMath condition torque_ref w_ref
              (PSCS_select realMath condition torque_ref w_ref solution).1).1.iq_ref ^ 2) := h3
      have hnn : 0 ≤ (PSCS_fw_block realMath condition torque_ref w_ref
          (PSCS_select realMath condition torque_ref w_ref solution).1).1.Ia_ref := by
        rw [h3']
        exact Real.sqrt_nonneg _
      exact ⟨by rw [abs_of_nonneg hnn]; exact h3', fun _ => hnn⟩
  refine ⟨key.1, fun h => ⟨key.2 h, ?_⟩⟩
  rw [← key.1, abs_of_nonneg (key.2 h)]

/-- Witness of C13 (amended): for the non-salient motor with `Va_lim = 12`,
`torque_ref = 1`, `w_ref = 375` flux weakening is engaged, its run is inside
the domain (both iterations take the linear formula), and the returned
`Ia_ref` is non-negative. -/
theorem C13_Ia_ref_signed_amplitude_witness :
    0 < (weakCondition ℝ).pmsm.Psi_a ∧ 0 < (weakCondition ℝ).pmsm.Poles ∧
      (weakCondition ℝ).Kc_mtpa = 1 ∧
      (PSCS_Calculate realMath (weakCondition ℝ) (zeroSolution ℝ) 1 375).1.FW_flag ≠ 0 ∧
      PSCS_fw_defined realMath (weakCondition ℝ) 1 375
        (PSCS_select realMath (weakCondition ℝ) 1 375 (zeroSolution ℝ)).1 ∧
      0 ≤ (PSCS_Calculate realMath (weakCondition ℝ) (zeroSolution ℝ) 1 375).1.Ia_ref := by
  have hψ : 0 < (weakCondition ℝ).pmsm.Psi_a := by
    simp only [weakCondition, roundMotor]
    norm_num
  have hP : 0 < (weakCondition ℝ).pmsm.Poles := by
    simp only [weakCondition, roundMotor]
    norm_num
  have hm : ¬ PSCS_mode_test (weakCondition ℝ)
      (PSCS_estimate (weakCondition ℝ) 1 (zeroSolution ℝ)) := by
    simp only [PSCS_mode_test, PSCS_estimate, weakCondition, roundMotor, PSCS_ABS,
      PSCS_MTPA_ID0_I_THRESHOLD, PSCS_MTPA_ID0_TORQUE_RATIO_THRESHOLD]
    norm_num
  have hid := (PSCS_select_id0 realMath (weakCondition ℝ) 1 375 (zeroSolution ℝ) hm).1
  have hdef := weakCondition_fw_defined
    (PSCS_select realMath (weakCondition ℝ) 1 375 (zeroSolution ℝ)).1 hid
  have hfw : (PSCS_Calculate realMath (weakCondition ℝ) (zeroSolution ℝ) 1 375).1.FW_flag ≠ 0 := by
    rw [weakCondition_calculate.1]
    decide
  exact ⟨hψ, hP, rfl, hfw, hdef,
    ((C13_Ia_ref_signed_amplitude (weakCondition ℝ) (zeroSolution ℝ) 1 375 hψ hP rfl
      (fun _ => hdef)).2 (Or.inl hfw)).1⟩

/-- C13 fails as stated: for the salient motor (`Psi_a = 0.05 > 0`,
`Poles = 4 > 0`, `Kc_mtpa = 1`) with `torque_ref = -0.3`, `w_ref = 200` the
call returns `Ia_ref = -3`, which is negative and differs from
`sqrt(id_ref^2 + iq_ref^2)`. -/
theorem C13_counterexample :
    0 < (salientCondition ℝ).pmsm.Psi_a ∧ 0 < (salientCondition ℝ).pmsm.Poles ∧
      (salientCondition ℝ).Kc_mtpa = 1 ∧
      (PSCS_Calculate realMath (salientCondition ℝ) (zeroSolution ℝ) (-3 / 10) 200).1.Ia_ref
        = -3 ∧
      ¬ 0 ≤ (PSCS_Calculate realMath (salientCondition ℝ) (zeroSolution ℝ)
        (-3 / 10) 200).1.Ia_ref ∧
      (PSCS_Calculate realMath (salientCondition ℝ) (zeroSolution ℝ) (-3 / 10) 200).1.Ia_ref
        ≠ Real.sqrt
          ((PSCS_Calculate realMath (salientCondition ℝ) (zeroSolution ℝ)
            (-3 / 10) 200).1.id_ref ^ 2
          + (PSCS_Calculate realMath (salientCondition ℝ) (zeroSolution ℝ)
            (-3 / 10) 200).1.iq_ref ^ 2) := by
  have hm : ¬ PSCS_mode_test (salientCondition ℝ)
      (PSCS_estimate (salientCondition ℝ) (-3 / 10) (zeroSolution ℝ)) := by
    simp only [PSCS_mode_test, PSCS_estimate, salientCondition, salientMotor, PSCS_ABS,
      PSCS_MTPA_ID0_I_THRESHOLD, PSCS_MTPA_ID0_TORQUE_RATIO_THRESHOLD]
    norm_num
  have h := PSCS_Calculate_id0 realMath (salientCondition ℝ) (zeroSolution ℝ) (-3 / 10) 200 hm (by
    simp only [salientCondition, salientMotor, realMath, gt_iff_lt, not_lt]
    rw [Real.sqrt_le_left (by norm_num)]
    norm_num)
  have hq : (-3 / 10 : ℝ)
      / ((salientCondition ℝ).pmsm.Psi_a * (salientCondition ℝ).pmsm.Poles / 2) = -3 := by
    simp only [salientCondition, salientMotor]
    norm_num
  rw [hq] at h
  obtain ⟨h1, h2, h3, -⟩ := h
  refine ⟨?_, ?_, rfl, h3, ?_, ?_⟩
  · simp only [salientCondition, salientMotor]
    norm_num
  · simp only [salientCondition, salientMotor]
    norm_num
  · rw [h3]
    norm_num
  · rw [h3]
    intro heq
    have := Real.sqrt_nonneg
      ((PSCS_Calculate realMath (salientCondition ℝ) (zeroSolution ℝ) (-3 / 10) 200).1.id_ref ^ 2
        + (PSCS_Calculate realMath (salientCondition ℝ) (zeroSolution ℝ)
          (-3 / 10) 200).1.iq_ref ^ 2)
    linarith

end Amplitude

end PSCS

namespace PSCS

section AngleConvention

/-- C14 (evaluation at the failing input): for the non-salient motor with
`Va_lim = 12`, `torque_ref = 1`, `w_ref = 375` flux weakening is engaged and
the call returns `id_ref = -18`, `iq_ref = 0`, `Ia_ref = 18`,
`beta_ref = atan2(0, 18) = 0`.  The convention of the MTPA and id=0 branches,
`id_ref = -Ia_ref*sin(beta_ref)` and `iq_ref = Ia_ref*cos(beta_ref)`, fails
in both components (`-18` against `0`, `0` against `18`); the returned pair
obeys `id_ref = -Ia_ref*cos(beta_ref)`, `iq_ref = Ia_ref*sin(beta_ref)`
instead. -/
theorem C14_fw_angle_convention :
    (PSCS_Calculate realMath (weakCondition ℝ) (zeroSolution ℝ) 1 375).1.FW_flag = 1 ∧
      (PSCS_Calculate realMath (weakCondition ℝ) (zeroSolution ℝ) 1 375).1.id_ref = -18 ∧
      (PSCS_Calculate realMath (weakCondition ℝ) (zeroSolution ℝ) 1 375).1.iq_ref = 0 ∧
      (PSCS_Calculate realMath (weakCondition ℝ) (zeroSolution ℝ) 1 375).1.Ia_ref = 18 ∧
      (PSCS_Calculate realMath (weakCondition ℝ) (zeroSolution ℝ) 1 375).1.beta_ref = 0 ∧
      (PSCS_Calculate realMath (weakCondition ℝ) (zeroSolution ℝ) 1 375).1.id_ref
        ≠ -(PSCS_Calculate realMath (weakCondition ℝ) (zeroSolution ℝ) 1 375).1.Ia_ref
          * Real.sin (PSCS_Calculate realMath (weakCondition ℝ) (zeroSolution ℝ) 1 375).1.beta_ref ∧
      (PSCS_Calculate realMath (weakCondition ℝ) (zeroSolution ℝ) 1 375).1.iq_ref
        ≠ (PSCS_Calculate realMath (weakCondition ℝ) (zeroSolution ℝ) 1 375).1.Ia_ref
          * Real.cos (PSCS_Calculate realMath (weakCondition ℝ) (zeroSolution ℝ) 1 375).1.beta_ref ∧
      (PSCS_Calculate realMath (weakCondition ℝ) (zeroSolution ℝ) 1 375).1.id_ref
        = -(PSCS_Calculate realMath (weakCondition ℝ) (zeroSolution ℝ) 1 375).1.Ia_ref
          * Real.cos (PSCS_Calculate realMath (weakCondition ℝ) (zeroSolution ℝ) 1 375).1.beta_ref ∧
      (PSCS_Calculate realMath (weakCondition ℝ) (zeroSolution ℝ) 1 375).1.iq_ref
        = (PSCS_Calculate realMath (weakCondition ℝ) (zeroSolution ℝ) 1 375).1.Ia_ref
          * Real.sin (PSCS_Calculate realMath (weakCondition ℝ) (zeroSolution ℝ) 1 375).1.beta_ref := by
  obtain ⟨h1, h2, h3, h4, -⟩ := weakCondition_calculate
  have h5 := weakCondition_beta
  refine ⟨h1, h2, h3, h4, h5, ?_, ?_, ?_, ?_⟩
  · rw [h2, h4, h5, Real.sin_zero]
    norm_num
  · rw [h3, h4, h5, Real.cos_zero]
    norm_num
  · rw [h2, h4, h5, Real.cos_zero]
    norm_num
  · rw [h3, h4, h5, Real.sin_zero]
    norm_num


end AngleConvention

end PSCS

namespace PSCS

section VoltageCircle

/-- C15: in a flux-weakening iteration that selects the quadratic formula,
with `Rs^2 + Ld^2*w_ref^2 > 0` and a non-negative expression under the square
root, the new `id_ref` is a root in `id` of the voltage-circle equation
`(Rs*id - w_ref*Lq*iq)^2 + (Rs*iq + w_ref*Ld*id + w_ref*Psi_a)^2 = Va_lim^2`
for the `iq_ref` the iteration started with, and every `id` satisfying the
equation is at most the new `id_ref`. -/
theorem C15_quadratic_largest_root (condition : PSCS_Condition_t ℝ) (torque_ref w_ref : ℝ)
    (s : PSCS_PMSM_Solutions_t ℝ)
    (hA : condition.pmsm.Rs ^ 2 + condition.pmsm.Ld ^ 2 * w_ref ^ 2 > 0)
    (htest : PSCS_fw_regime_test realMath condition w_ref s.iq_ref)
    (hrad : 0 ≤ PSCS_fw_radicand condition w_ref s.iq_ref) :
    (condition.pmsm.Rs * (PSCS_fw_body realMath condition torque_ref w_ref s).id_ref
          - w_ref * condition.pmsm.Lq * s.iq_ref) ^ 2
        + (condition.pmsm.Rs * s.iq_ref
          + w_ref * condition.pmsm.Ld * (PSCS_fw_body realMath condition torque_ref w_ref s).id_ref
          + w_ref * condition.pmsm.Psi_a) ^ 2 = condition.Va_lim ^ 2 ∧
      ∀ y : ℝ, (condition.pmsm.Rs * y - w_ref * condition.pmsm.Lq * s.iq_ref) ^ 2
          + (condition.pmsm.Rs * s.iq_ref + w_ref * condition.pmsm.Ld * y
            + w_ref * condition.pmsm.Psi_a) ^ 2 = condition.Va_lim ^ 2 →
        y ≤ (PSCS_fw_body realMath condition torque_ref w_ref s).id_ref := by
  have hA' : 0 < condition.pmsm.Ld * condition.pmsm.Ld * w_ref * w_ref
      + condition.pmsm.Rs * condition.pmsm.Rs := by
    have e : condition.pmsm.Ld * condition.pmsm.Ld * w_ref * w_ref
        + condition.pmsm.Rs * condition.pmsm.Rs
        = condition.pmsm.Rs ^ 2 + condition.pmsm.Ld ^ 2 * w_ref ^ 2 := by ring
    rw [e]
    exact hA
  rw [PSCS_fw_body_id, PSCS_fw_id_quadratic realMath condition w_ref s.iq_ref htest]
  exact fw_quadratic_root condition.pmsm.Rs condition.pmsm.Ld condition.pmsm.Lq
    condition.pmsm.Psi_a condition.Va_lim w_ref s.iq_ref _ hA' hrad
    (PSCS_fw_radicand_eq condition w_ref s.iq_ref)


/-- Witness of C15: one iteration for `flipCondition` at `w_ref = 1` started
with `iq_ref = 1` selects the quadratic formula, the radicand is `9/4`, and
the new `id_ref` lies on the voltage circle. -/
theorem C15_quadratic_largest_root_witness :
    (flipCondition ℝ).pmsm.Rs ^ 2 + (flipCondition ℝ).pmsm.Ld ^ 2 * (1 : ℝ) ^ 2 > 0 ∧
      PSCS_fw_regime_test realMath (flipCondition ℝ) 1
        ({ zeroSolution ℝ with iq_ref := 1 } : PSCS_PMSM_Solutions_t ℝ).iq_ref ∧
      0 ≤ PSCS_fw_radicand (flipCondition ℝ) 1
        ({ zeroSolution ℝ with iq_ref := 1 } : PSCS_PMSM_Solutions_t ℝ).iq_ref ∧
      ((flipCondition ℝ).pmsm.Rs
            * (PSCS_fw_body realMath (flipCondition ℝ) (-1) 1 { zeroSolution ℝ with iq_ref := 1 }).id_ref
          - 1 * (flipCondition ℝ).pmsm.Lq
            * ({ zeroSolution ℝ with iq_ref := 1 } : PSCS_PMSM_Solutions_t ℝ).iq_ref) ^ 2
        + ((flipCondition ℝ).pmsm.Rs
            * ({ zeroSolution ℝ with iq_ref := 1 } : PSCS_PMSM_Solutions_t ℝ).iq_ref
          + 1 * (flipCondition ℝ).pmsm.Ld
            * (PSCS_fw_body realMath (flipCondition ℝ) (-1) 1 { zeroSolution ℝ with iq_ref := 1 }).id_ref
          + 1 * (flipCondition ℝ).pmsm.Psi_a) ^ 2 = (flipCondition ℝ).Va_lim ^ 2 := by
  have hA : (flipCondition ℝ).pmsm.Rs ^ 2 + (flipCondition ℝ).pmsm.Ld ^ 2 * (1 : ℝ) ^ 2 > 0 := by
    simp only [flipCondition]
    norm_num
  have hs1 : Real.sqrt (1 / (1 * 1 * 1 * 1 + 0 * 0)) = 1 :=
    sqrt_eq_of_mul_self (by norm_num) (by norm_num)
  have htest : PSCS_fw_regime_test realMath (flipCondition ℝ) 1
      ({ zeroSolution ℝ with iq_ref := 1 } : PSCS_PMSM_Solutions_t ℝ).iq_ref := by
    simp only [PSCS_fw_regime_test, flipCondition, realMath]
    rw [hs1]
    norm_num
  have hrad : 0 ≤ PSCS_fw_radicand (flipCondition ℝ) 1
      ({ zeroSolution ℝ with iq_ref := 1 } : PSCS_PMSM_Solutions_t ℝ).iq_ref := by
    simp only [PSCS_fw_radicand, flipCondition]
    norm_num
  exact ⟨hA, htest, hrad,
    (C15_quadratic_largest_root (flipCondition ℝ) (-1) 1 { zeroSolution ℝ with iq_ref := 1 }
      hA htest hrad).1⟩

/-- C16 (evaluation at the failing input): for `flipCondition`
(`Va_lim = 5/2 >= 0`, `Rs^2 + Ld^2*w_ref^2 = 1 > 0`) the call with
`torque_ref = -2`, `w_ref = 1` runs the flux-weakening block, whose first
iteration starts with `iq_ref = torque_ref/Poles*2 = -2`; there the regime
test holds (`5/2 > -4`) and selects the quadratic formula, while the
expression under its square root is `-39/4 < 0`. -/
theorem C16_regime_test_negative_radicand :
    (0 : ℝ) ≤ (flipCondition ℝ).Va_lim ∧
      (flipCondition ℝ).pmsm.Rs ^ 2 + (flipCondition ℝ).pmsm.Ld ^ 2 * (1 : ℝ) ^ 2 > 0 ∧
      PSCS_Calculate realMath (flipCondition ℝ) (zeroSolution ℝ) (-2) 1
        = PSCS_fw_block realMath (flipCondition ℝ) (-2) 1
            (PSCS_select realMath (flipCondition ℝ) (-2) 1 (zeroSolution ℝ)).1 ∧
      (-2 : ℝ) / (flipCondition ℝ).pmsm.Poles * 2 = -2 ∧
      PSCS_fw_regime_test realMath (flipCondition ℝ) 1 (-2) ∧
      PSCS_fw_radicand (flipCondition ℝ) 1 (-2) = -39 / 4 ∧
      PSCS_fw_radicand (flipCondition ℝ) 1 (-2) < 0 := by
  have hm : ¬ PSCS_mode_test (flipCondition ℝ)
      (PSCS_estimate (flipCondition ℝ) (-2) (zeroSolution ℝ)) := by
    simp only [PSCS_mode_test, PSCS_estimate, flipCondition, PSCS_ABS,
      PSCS_MTPA_ID0_I_THRESHOLD, PSCS_MTPA_ID0_TORQUE_RATIO_THRESHOLD]
    norm_num
  obtain ⟨-, -, -, -, h5, h6, -⟩ :=
    PSCS_select_id0 realMath (flipCondition ℝ) (-2) 1 (zeroSolution ℝ) hm
  have hflag : (PSCS_select realMath (flipCondition ℝ) (-2) 1 (zeroSolution ℝ)).1.FW_flag = 1 := by
    rw [h6, h5, if_pos]
    simp only [flipCondition, realMath, gt_iff_lt]
    rw [Real.lt_sqrt (by norm_num)]
    norm_num
  have hs1 : Real.sqrt (1 / (1 * 1 * 1 * 1 + 0 * 0)) = 1 :=
    sqrt_eq_of_mul_self (by norm_num) (by norm_num)
  have hrad : PSCS_fw_radicand (flipCondition ℝ) 1 (-2) = -39 / 4 := by
    simp only [PSCS_fw_radicand, flipCondition]
    norm_num
  refine ⟨?_, ?_, ?_, ?_, ?_, hrad, ?_⟩
  · simp only [flipCondition]
    norm_num
  · simp only [flipCondition]
    norm_num
  · exact PSCS_Calculate_of_flag realMath (flipCondition ℝ) (zeroSolution ℝ) (-2) 1
      (by rw [hflag]; decide)
  · simp only [flipCondition]
    norm_num
  · simp only [PSCS_fw_regime_test, flipCondition, realMath]
    rw [hs1]
    norm_num
  · rw [hrad]
    norm_num


end VoltageCircle

end PSCS

namespace PSCS

section Clamp

/-- C17 (evaluation at the failing input): for `flipCondition`
(`Ia_lim = 1000 >= 0`) the call with `torque_ref = -2`, `w_ref = 1` engages
flux weakening; the first iteration of the loop starts with `iq_ref = -2`,
its regime test selects the quadratic formula and the argument of the
formula's `sqrtf` is negative, so the run is outside the domain in which the
iteration yields numbers: the new `id_ref`, and with it the `iq_ref` that
reaches the clamp and the returned `Ia_ref`, is the square root of a negative
number. -/
theorem C17_fw_call_outside_sqrt_domain :
    (0 : ℝ) ≤ (flipCondition ℝ).Ia_lim ∧
      (PSCS_Calculate realMath (flipCondition ℝ) (zeroSolution ℝ) (-2) 1).1.FW_flag ≠ 0 ∧
      (PSCS_fw_state realMath (flipCondition ℝ) (-2) 1
        { (PSCS_select realMath (flipCondition ℝ) (-2) 1 (zeroSolution ℝ)).1 with
          iq_ref := (-2 : ℝ) / (flipCondition ℝ).pmsm.Poles * 2 } 0).iq_ref = -2 ∧
      PSCS_fw_regime_test realMath (flipCondition ℝ) 1 (-2) ∧
      PSCS_fw_radicand (flipCondition ℝ) 1 (-2) < 0 ∧
      ¬ PSCS_fw_defined realMath (flipCondition ℝ) (-2) 1
        (PSCS_select realMath (flipCondition ℝ) (-2) 1 (zeroSolution ℝ)).1 := by
  have hm : ¬ PSCS_mode_test (flipCondition ℝ)
      (PSCS_estimate (flipCondition ℝ) (-2) (zeroSolution ℝ)) := by
    simp only [PSCS_mode_test, PSCS_estimate, flipCondition, PSCS_ABS,
      PSCS_MTPA_ID0_I_THRESHOLD, PSCS_MTPA_ID0_TORQUE_RATIO_THRESHOLD]
    norm_num
  obtain ⟨-, -, -, -, h5, h6, -⟩ :=
    PSCS_select_id0 realMath (flipCondition ℝ) (-2) 1 (zeroSolution ℝ) hm
  have hflag : (PSCS_select realMath (flipCondition ℝ) (-2) 1 (zeroSolution ℝ)).1.FW_flag = 1 := by
    rw [h6, h5, if_pos]
    simp only [flipCondition, realMath, gt_iff_lt]
    rw [Real.lt_sqrt (by norm_num)]
    norm_num
  have hcalc := PSCS_Calculate_of_flag realMath (flipCondition ℝ) (zeroSolution ℝ) (-2) 1
    (by rw [hflag]; decide)
  have hfl := PSCS_fw_loop_FW_flag realMath (flipCondition ℝ) (-2) 1 PSCS_FW_MAX_ITERATION 0
    { (PSCS_select realMath (flipCondition ℝ) (-2) 1 (zeroSolution ℝ)).1 with
      iq_ref := (-2 : ℝ) / (flipCondition ℝ).pmsm.Poles * 2 } (by simp)
  obtain ⟨htest, hrad, hnot⟩ := flipCondition_not_defined
    (PSCS_select realMath (flipCondition ℝ) (-2) 1 (zeroSolution ℝ)).1
  refine ⟨?_, ?_, ?_, htest, ?_, hnot⟩
  · simp only [flipCondition]
    norm_num
  · rw [hcalc]
    simp only [PSCS_fw_block, PSCS_voltage]
    rw [hfl, hflag]
    decide
  · simp only [PSCS_fw_state, flipCondition]
    norm_num
  · rw [hrad]
    norm_num


end Clamp

end PSCS

namespace PSCS

section Divisors

/-- C18: with `Psi_a > 0` and `Poles > 0`, the MTPA branch is entered only
when `Lq != Ld` and `torque_ref != 0`, and then in every iteration of its loop
`Ia_ref != 0`, the divisor `4*(Lq-Ld)*Ia_ref != 0` and `torque_calc != 0`;
`Ld = Lq` or `torque_ref = 0` makes the mode test false, which selects the
id=0 branch. -/
theorem C18_mtpa_no_division_by_zero (condition : PSCS_Condition_t ℝ)
    (solution : PSCS_PMSM_Solutions_t ℝ) (torque_ref : ℝ)
    (hψ : 0 < condition.pmsm.Psi_a) (hP : 0 < condition.pmsm.Poles) :
    (PSCS_mode_test condition (PSCS_estimate condition torque_ref solution) →
        condition.pmsm.Lq ≠ condition.pmsm.Ld ∧ torque_ref ≠ 0 ∧
        ∀ k : Nat,
          (PSCS_mtpa_state realMath condition torque_ref
            (PSCS_estimate condition torque_ref solution) k).Ia_ref ≠ 0 ∧
          4 * (condition.pmsm.Lq - condition.pmsm.Ld)
            * (PSCS_mtpa_state realMath condition torque_ref
                (PSCS_estimate condition torque_ref solution) k).Ia_ref ≠ 0 ∧
          PSCS_mtpa_torque realMath condition torque_ref
            (PSCS_estimate condition torque_ref solution) k ≠ 0) ∧
      (condition.pmsm.Ld = condition.pmsm.Lq ∨ torque_ref = 0 →
        ¬ PSCS_mode_test condition (PSCS_estimate condition torque_ref solution)) := by
  constructor
  · intro hm
    obtain ⟨hL, htr, hI⟩ := PSCS_mode_test_ne condition torque_ref solution hm
    refine ⟨hL, htr, fun k => ?_⟩
    have hk := PSCS_mtpa_state_ne_zero condition torque_ref
      (PSCS_estimate condition torque_ref solution) hψ hP htr hI k
    refine ⟨hk, ?_, ?_⟩
    · exact mul_ne_zero (mul_ne_zero (by norm_num) (sub_ne_zero.mpr hL)) hk
    · exact (PSCS_mtpa_body_ne_zero condition torque_ref _ hψ hP htr hk).1
  · intro h hm
    obtain ⟨hL, htr, -⟩ := PSCS_mode_test_ne condition torque_ref solution hm
    rcases h with h | h
    · exact hL h.symm
    · exact htr h

/-- Witness of C18: the salient motor with `torque_ref = 0.3` enters the
MTPA branch, and no iteration divides by zero. -/
theorem C18_mtpa_no_division_by_zero_witness :
    0 < (salientCondition ℝ).pmsm.Psi_a ∧ 0 < (salientCondition ℝ).pmsm.Poles ∧
      PSCS_mode_test (salientCondition ℝ)
        (PSCS_estimate (salientCondition ℝ) (3 / 10) (zeroSolution ℝ)) ∧
      ∀ k : Nat,
        (PSCS_mtpa_state realMath (salientCondition ℝ) (3 / 10)
          (PSCS_estimate (salientCondition ℝ) (3 / 10) (zeroSolution ℝ)) k).Ia_ref ≠ 0 ∧
        4 * ((salientCondition ℝ).pmsm.Lq - (salientCondition ℝ).pmsm.Ld)
          * (PSCS_mtpa_state realMath (salientCondition ℝ) (3 / 10)
              (PSCS_estimate (salientCondition ℝ) (3 / 10) (zeroSolution ℝ)) k).Ia_ref ≠ 0 ∧
        PSCS_mtpa_torque realMath (salientCondition ℝ) (3 / 10)
          (PSCS_estimate (salientCondition ℝ) (3 / 10) (zeroSolution ℝ)) k ≠ 0 := by
  have hψ : 0 < (salientCondition ℝ).pmsm.Psi_a := by
    simp only [salientCondition, salientMotor]
    norm_num
  have hP : 0 < (salientCondition ℝ).pmsm.Poles := by
    simp only [salientCondition, salientMotor]
    norm_num
  have hm : PSCS_mode_test (salientCondition ℝ)
      (PSCS_estimate (salientCondition ℝ) (3 / 10) (zeroSolution ℝ)) := by
    simp only [PSCS_mode_test, PSCS_estimate, salientCondition, salientMotor, PSCS_ABS,
      PSCS_MTPA_ID0_I_THRESHOLD, PSCS_MTPA_ID0_TORQUE_RATIO_THRESHOLD]
    norm_num
  exact ⟨hψ, hP, hm,
    ((C18_mtpa_no_division_by_zero (salientCondition ℝ) (zeroSolution ℝ) (3 / 10) hψ hP).1
      hm).2.2⟩


end Divisors

end PSCS

namespace PSCS

section ArcsineDomain

/-- C19: in an MTPA iteration entered with any `Ia_ref`, for `Psi_a >= 0` and
`(Lq-Ld)*Ia_ref != 0`, the divisor of the argument passed to `asinf` is
non-zero, the argument has absolute value at most `1/sqrt(2)`, so it lies in
`[-1, 1]`, and the resulting `beta_ref` lies in `[-pi/4, pi/4]`. -/
theorem C19_asin_argument_in_domain (condition : PSCS_Condition_t ℝ) (torque_ref : ℝ)
    (s : PSCS_PMSM_Solutions_t ℝ) (hψ : 0 ≤ condition.pmsm.Psi_a)
    (hne : (condition.pmsm.Lq - condition.pmsm.Ld) * s.Ia_ref ≠ 0) :
    4 * (condition.pmsm.Lq - condition.pmsm.Ld) * s.Ia_ref ≠ 0 ∧
      |PSCS_mtpa_asin_arg realMath condition s| ≤ 1 / Real.sqrt 2 ∧
      -1 ≤ PSCS_mtpa_asin_arg realMath condition s ∧
      PSCS_mtpa_asin_arg realMath condition s ≤ 1 ∧
      -(Real.pi / 4) ≤ (PSCS_mtpa_body realMath condition torque_ref s).1.beta_ref ∧
      (PSCS_mtpa_body realMath condition torque_ref s).1.beta_ref ≤ Real.pi / 4 := by
  have hsq : PSCS_mtpa_asin_arg realMath condition s ^ 2 ≤ 1 / 2 :=
    mtpa_arg_sq_le condition.pmsm.Psi_a (condition.pmsm.Lq - condition.pmsm.Ld) s.Ia_ref hψ
  have hdiv : 4 * (condition.pmsm.Lq - condition.pmsm.Ld) * s.Ia_ref ≠ 0 := by
    rw [mul_assoc]
    exact mul_ne_zero (by norm_num) hne
  rw [PSCS_mtpa_body_beta]
  exact ⟨hdiv, arcsin_of_sq_le_half _ hsq⟩

/-- Witness of C19: the first MTPA iteration for the salient motor with
`torque_ref = 0.3` (`Ia_ref = 3`). -/
theorem C19_asin_argument_in_domain_witness :
    0 ≤ (salientCondition ℝ).pmsm.Psi_a ∧
      ((salientCondition ℝ).pmsm.Lq - (salientCondition ℝ).pmsm.Ld)
        * (PSCS_estimate (salientCondition ℝ) (3 / 10) (zeroSolution ℝ)).Ia_ref ≠ 0 ∧
      |PSCS_mtpa_asin_arg realMath (salientCondition ℝ)
          (PSCS_estimate (salientCondition ℝ) (3 / 10) (zeroSolution ℝ))| ≤ 1 / Real.sqrt 2 := by
  have hψ : 0 ≤ (salientCondition ℝ).pmsm.Psi_a := by
    simp only [salientCondition, salientMotor]
    norm_num
  have hne : ((salientCondition ℝ).pmsm.Lq - (salientCondition ℝ).pmsm.Ld)
      * (PSCS_estimate (salientCondition ℝ) (3 / 10) (zeroSolution ℝ)).Ia_ref ≠ 0 := by
    simp only [PSCS_estimate, salientCondition, salientMotor]
    norm_num
  exact ⟨hψ, hne, (C19_asin_argument_in_domain (salientCondition ℝ) (3 / 10)
    (PSCS_estimate (salientCondition ℝ) (3 / 10) (zeroSolution ℝ)) hψ hne).2.1⟩


end ArcsineDomain

end PSCS

namespace PSCS

section FinalStatus

variable {α : Type} [LinearOrderedField α]

/-- C20: every call of `PSCS_Calculate` returns `0` or `-1`; and whenever flux
weakening is engaged the returned status is `-1` if and only if the
flux-weakening loop (entered with counter `0` on the record of the selection
stage with `iq_ref` re-seeded to `torque_ref/Poles*2`) ended with its counter
at 20, and `0` if and only if it did not, whatever error code the selection
stage had produced. -/
theorem C20_status_of_fw_loop (M : MathFns α) (condition : PSCS_Condition_t α)
    (solution : PSCS_PMSM_Solutions_t α) (torque_ref w_ref : α) :
    ((PSCS_Calculate M condition solution torque_ref w_ref).2 = 0 ∨
        (PSCS_Calculate M condition solution torque_ref w_ref).2 = -1) ∧
      ((PSCS_Calculate M condition solution torque_ref w_ref).1.FW_flag ≠ 0 →
        ((PSCS_Calculate M condition solution torque_ref w_ref).2 = -1 ↔
          (PSCS_fw_loop M condition torque_ref w_ref
            { (PSCS_select M condition torque_ref w_ref solution).1 with
              iq_ref := torque_ref / condition.pmsm.Poles * 2 } 0).2 = PSCS_FW_MAX_ITERATION) ∧
        ((PSCS_Calculate M condition solution torque_ref w_ref).2 = 0 ↔
          (PSCS_fw_loop M condition torque_ref w_ref
            { (PSCS_select M condition torque_ref w_ref solution).1 with
              iq_ref := torque_ref / condition.pmsm.Poles * 2 } 0).2 ≠ PSCS_FW_MAX_ITERATION)) := by
  constructor
  · by_cases hsel : (PSCS_select M condition torque_ref w_ref solution).1.FW_flag = 0
    · rw [PSCS_Calculate_of_noflag M condition solution torque_ref w_ref hsel]
      exact PSCS_select_status M condition torque_ref w_ref solution
    · rw [PSCS_Calculate_of_flag M condition solution torque_ref w_ref hsel,
        PSCS_fw_block_status]
      split_ifs
      · right
        rfl
      · left
        rfl
  · intro hfw
    obtain ⟨-, hcalc⟩ := PSCS_Calculate_fw M condition solution torque_ref w_ref hfw
    rw [hcalc, PSCS_fw_block_status]
    split_ifs with h
    · exact ⟨⟨fun _ => h, fun _ => rfl⟩, ⟨fun h0 => absurd h0 (by decide), fun hne => absurd h hne⟩⟩
    · exact ⟨⟨fun h0 => absurd h0 (by decide), fun h1 => absurd h1 h⟩, ⟨fun _ => h, fun _ => rfl⟩⟩

/-- Witness of C20: for `slowCondition`, `torque_ref = 1`, `w_ref = 1` the
MTPA loop leaves the error code `-1`, flux weakening is engaged, its loop ends
before the cap and the returned status is `0`. -/
theorem C20_status_of_fw_loop_witness :
    (PSCS_select realMath (slowCondition ℝ) 1 1 (zeroSolution ℝ)).2 = -1 ∧
      (PSCS_Calculate realMath (slowCondition ℝ) (zeroSolution ℝ) 1 1).1.FW_flag ≠ 0 ∧
      (PSCS_Calculate realMath (slowCondition ℝ) (zeroSolution ℝ) 1 1).2 = 0 ∧
      (PSCS_fw_loop realMath (slowCondition ℝ) 1 1
        { (PSCS_select realMath (slowCondition ℝ) 1 1 (zeroSolution ℝ)).1 with
          iq_ref := 1 / (slowCondition ℝ).pmsm.Poles * 2 } 0).2 ≠ PSCS_FW_MAX_ITERATION := by
  obtain ⟨-, -, -, hcode, -⟩ := slowCondition_select 1
  obtain ⟨hflag, hstatus⟩ := slowCondition_calculate
  have hfw : (PSCS_Calculate realMath (slowCondition ℝ) (zeroSolution ℝ) 1 1).1.FW_flag ≠ 0 := by
    rw [hflag]
    decide
  exact ⟨hcode, hfw, hstatus,
    ((C20_status_of_fw_loop realMath (slowCondition ℝ) (zeroSolution ℝ) 1 1).2 hfw).2.mp hstatus⟩


end FinalStatus

end PSCS
